import Mathlib

/-!
# Workflow execution engine

A shallow embedding of `src/mvp/src/pages/workflowEngine.js` (class `WorkflowExecutor`)
and of the code that `src/mvp/src/pages/customBlocks.js` generates, and theorems about
them.

Modelling conventions.

* The executor object is the record `Executor`; every method is a function that takes
  the record and returns the updated record, together with its result.  A method that
  can raise returns `Except String α`, the string being `error.message`.
* Everything outside the executor is in `World`: the answers of the HTTP endpoints, the
  behaviour of the caller-supplied authorization hook, the calls of `setGmailStatus`
  the caller makes while the gate waits, and the time each of these takes.  The
  executor counts its external interactions in `tick`; the `k`-th interaction reads
  the `k`-th entry of the world.
* The clock (`now`, in milliseconds) only moves during an external interaction;
  a `setTimeout(resolve, 500)` takes at least 500 ms.
* The output listener and the hook are caller-supplied functions.  The record keeps
  whether one is registered and logs every invocation (`notified`, `hookCalls`).
  The listener is an observer: it returns normally and does not call back into the
  executor.
* JavaScript strings are Lean strings, one character per code unit.
* The variable object is a map from names to values: names that every JavaScript object
  inherits (`constructor`, `toString`, `__proto__`, ...) are not used as variable or
  field names.
* The second part of the file embeds the code generators of
  `src/mvp/src/pages/customBlocks.js`: the blocks are a syntax tree and `compile` gives
  the program that the generated JavaScript text is.
* The third part embeds the handler of `POST /api/emails/send` of
  `src/mvp/src/server/gmailServer.js`, with the constants and helpers it uses.
-/

set_option linter.unusedVariables false

namespace WorkflowEngine

/-! ## Values -/

/-- An email object as the email service lists it. -/
structure Email where
  id : String
  threadId : String
  from_ : String
  subject : String
  snippet : Option String
  body : Option String
deriving DecidableEq, Repr

/-- The `emailDetails` object of a send answer. -/
structure EmailDetails where
  to_ : Option String
  subject : Option String
  body : Option String
deriving DecidableEq, Repr

/-- The JSON body of an answer of `/api/emails/send`; `success` and `testMode` are the
truthiness of the fields of that name. -/
structure SendData where
  success : Bool
  testMode : Bool
  messageId : Option String
  emailDetails : Option EmailDetails
  error : Option String
deriving DecidableEq, Repr

/-- The JavaScript values that the engine stores in variables and in event metadata. -/
inductive Value where
  | undefined
  | str (s : String)
  | num (n : Nat)
  | bool (b : Bool)
  | email (e : Email)
  | emails (l : List Email)
  | details (d : Option EmailDetails)
  | sendData (d : SendData)
deriving DecidableEq, Repr

/-- One entry of the output log: `type`, `content`, `timestamp` and the metadata fields
spread into the object.  No call site of `addOutput` passes metadata with one of the
keys `type`, `content` or `timestamp`, so the spread never replaces the three fixed
fields. -/
structure OutputItem where
  type : String
  content : String
  timestamp : Nat
  metadata : List (String × Value)
deriving DecidableEq, Repr

/-! ## The world outside the executor -/

/-- The outcome of `await fetch(...)` followed by `await response.json()`. -/
inductive Http (α : Type) where
  /-- `fetch` rejects (network failure) with this message. -/
  | netError (message : String)
  /-- `fetch` resolves with status flag `ok`, `response.json()` rejects with this message. -/
  | badBody (ok : Bool) (message : String)
  /-- `fetch` resolves with status flag `ok` and the body parses to `data`. -/
  | answer (ok : Bool) (data : α)
deriving DecidableEq, Repr

/-- Body of `/api/gmail/status`: the truthiness of `data.connected`. -/
structure StatusData where
  connected : Bool
deriving DecidableEq, Repr

/-- Body of `/api/emails/unread`. -/
structure UnreadData where
  emails : Option (List Email)
  error : Option String
deriving DecidableEq, Repr

/-- Body of `/api/ai` and `/api/ai/reply`. -/
structure AiData where
  text : Option String
  error : Option String
  groqApiCalls : Option Nat
deriving DecidableEq, Repr

/-- Body of `/api/emails/markread`. -/
structure MarkData where
  error : Option String
deriving DecidableEq, Repr

/-- What one call of the hook `onGmailRequired` does: the last `setGmailStatus(b)` the
caller makes while it runs (if any), and the message of the error it raises (if any). -/
structure HookOutcome where
  status : Option Bool
  thrown : Option String
deriving DecidableEq, Repr

/-- The environment of a run, indexed by the number of the external interaction. -/
structure World where
  status : Nat → Http StatusData
  unread : Nat → Http UnreadData
  aiReply : Nat → Http AiData
  ai : Nat → Http AiData
  send : Nat → Http SendData
  markread : Nat → Http MarkData
  hook : Nat → HookOutcome
  /-- The last `setGmailStatus(b)` the caller makes during one 500 ms wait of the gate. -/
  poll : Nat → Option Bool
  /-- Time the interaction takes (for a wait of the gate: the time beyond 500 ms). -/
  elapsed : Nat → Nat
  /-- Whether the global environment of the page binds the name: a property of the global
  object, its own or an inherited one (`Array`, `undefined`, `name`, `toString`, the id
  of an element of the page, ...), or a global declaration. -/
  globals : String → Bool

/-! ## The executor -/

/-- The object state of a `WorkflowExecutor`, the clock, and the log of the calls made
to the two caller-supplied functions. -/
structure Executor where
  inputData : List (String × Value)
  variables_ : List (String × Value)
  output : List OutputItem
  gmailConnected : Bool
  /-- Whether `this.onOutput` holds a listener. -/
  onOutput : Bool
  /-- Whether `this.onGmailRequired` holds a hook. -/
  onGmailRequired : Bool
  /-- The argument of every listener invocation so far, oldest first. -/
  notified : List (List OutputItem)
  /-- For every hook invocation so far, the length of the output log at that moment. -/
  hookCalls : List Nat
  now : Nat
  tick : Nat
deriving DecidableEq, Repr

/-- The constructor of `WorkflowExecutor` (the clock starts at `now`). -/
def Executor.new (now : Nat) : Executor :=
  { inputData := [], variables_ := [], output := [], gmailConnected := false,
    onOutput := false, onGmailRequired := false, notified := [], hookCalls := [],
    now := now, tick := 0 }

def setInputData (s : Executor) (data : List (String × Value)) : Executor :=
  { s with inputData := data, variables_ := data }

def setGmailStatus (s : Executor) (connected : Bool) : Executor :=
  { s with gmailConnected := connected }

/-- Registers (`true`) or clears (`false`) the authorization hook. -/
def setGmailRequiredCallback (s : Executor) (callback : Bool) : Executor :=
  { s with onGmailRequired := callback }

/-- The object `addOutput` builds (and returns). -/
def outputItem (s : Executor) (type content : String) (metadata : List (String × Value)) :
    OutputItem :=
  { type := type, content := content, timestamp := s.now, metadata := metadata }

/-- Method `addOutput`: push the item, then call the listener (if any) with a copy of
the log. -/
def addOutput (s : Executor) (type content : String) (metadata : List (String × Value)) :
    Executor :=
  let out := s.output ++ [outputItem s type content metadata]
  { s with output := out,
           notified := if s.onOutput then s.notified ++ [out] else s.notified }

/-- One external interaction: the clock advances, the counter moves on. -/
def interact (w : World) (s : Executor) : Executor :=
  { s with now := s.now + w.elapsed s.tick, tick := s.tick + 1 }

/-! ## JavaScript expressions used by the engine -/

/-- Truthiness of an optional string field: present and not empty. -/
def truthy : Option String → Bool
  | some t => t != ""
  | none => false

/-- The expression `a || dflt` for an optional string field `a`. -/
def orElse (a : Option String) (dflt : String) : String :=
  match a with
  | some t => if t != "" then t else dflt
  | none => dflt

/-- A field inside a template literal: a missing field prints as `undefined`. -/
def render : Option String → String
  | some t => t
  | none => "undefined"

/-- The call `s.substring(0, n)`. -/
def substring0 (s : String) (n : Nat) : String :=
  String.mk (s.data.take n)

/-- The message of the TypeError raised by `undefined.substring(...)`. -/
def substringTypeError : String :=
  "Cannot read properties of undefined (reading 'substring')"

/-- The `catch (err)` blocks of the engine that append one event and throw `err` again. -/
def catchRethrow {α : Type} (type label : String) (r : Except String α × Executor) :
    Except String α × Executor :=
  match r with
  | (.ok v, s) => (.ok v, s)
  | (.error m, s) => (.error m, addOutput s type (label ++ m) [])

/-- The `catch (err)` blocks that append one event and return a default value. -/
def catchReturn {α : Type} (type label : String) (dflt : α) (r : Except String α × Executor) :
    Except String α × Executor :=
  match r with
  | (.ok v, s) => (.ok v, s)
  | (.error m, s) => (.ok dflt, addOutput s type (label ++ m) [])

/-! ## The authorization gate -/

/-- The wait budget `maxWait` of the gate, in milliseconds. -/
def maxWait : Nat := 30000

/-- The polling interval of the gate, in milliseconds. -/
def pollInterval : Nat := 500

def timeoutMessage : String :=
  "Gmail connection timeout - please connect your Gmail account"

def notConnectedMessage : String :=
  "Gmail not connected - please connect your Gmail account"

/-- The statement `await this.onGmailRequired()`: the call is logged, the caller may set
the status while the hook runs. -/
def invokeHook (w : World) (s : Executor) : Executor :=
  { s with hookCalls := s.hookCalls ++ [s.output.length],
           gmailConnected := (match (w.hook s.tick).status with
                              | some b => b
                              | none => s.gmailConnected),
           now := s.now + w.elapsed s.tick,
           tick := s.tick + 1 }

/-- One `await new Promise((resolve) => setTimeout(resolve, 500))`: at least 500 ms pass,
during which the caller may set the status. -/
def pollStep (w : World) (s : Executor) : Executor :=
  { s with gmailConnected := (match w.poll s.tick with
                              | some b => b
                              | none => s.gmailConnected),
           now := s.now + pollInterval + w.elapsed s.tick,
           tick := s.tick + 1 }

/-- The loop `while (!this.gmailConnected && Date.now() - startTime < maxWait)`.
Every round takes at least 500 ms, so 60 rounds exhaust the budget
(`waitLoop_exit` below): the bound on the rounds is never the reason the loop ends. -/
def waitLoop (w : World) (startTime : Nat) : Nat → Executor → Executor
  | 0, s => s
  | rounds + 1, s =>
    if !s.gmailConnected && decide (s.now - startTime < maxWait) then
      waitLoop w startTime rounds (pollStep w s)
    else s

/-- Number of rounds after which the budget is spent: `maxWait / pollInterval`. -/
def maxRounds : Nat := 60

/-- Method `ensureGmailConnected`. -/
def ensureGmailConnected (w : World) (s : Executor) : Except String Unit × Executor :=
  if s.gmailConnected then (.ok (), s)
  else
    let s1 := addOutput s "warning" "  Gmail connection required" []
    if s1.onGmailRequired then
      let s2 := invokeHook w s1
      match (w.hook s1.tick).thrown with
      | some m => (.error m, s2)
      | none =>
        let s3 := waitLoop w s2.now maxRounds s2
        if s3.gmailConnected then (.ok (), s3) else (.error timeoutMessage, s3)
    else (.error notConnectedMessage, s1)

/-- Method `checkGmailConnection`: a failed request leaves the flag as it is. -/
def checkGmailConnection (w : World) (s : Executor) : Bool × Executor :=
  match w.status s.tick with
  | .answer _ data => (data.connected, { interact w s with gmailConnected := data.connected })
  | _ => (false, interact w s)

/-! ## Fetching unread emails -/

/-- The expression `email.snippet || email.body`; `none` when it is `undefined`. -/
def snippetOrBody (e : Email) : Option String :=
  match e.snippet with
  | some t => if t != "" then some t else e.body
  | none => e.body

/-- The content of the `email-preview` event of the email at position `index`. -/
def previewContent (index : Nat) (e : Email) (text : String) : String :=
  "Email " ++ toString (index + 1) ++ ":\n  From: " ++ e.from_ ++ "\n  Subject: " ++ e.subject
    ++ "\n  Preview: " ++ substring0 text 100 ++ "..."

/-- The `data.emails.forEach(...)` of `fetchUnreadEmails`, from position `index` on: an
email with neither snippet nor body makes `.substring` raise a TypeError. -/
def previewEach : List Email → Nat → Executor → Except String Unit × Executor
  | [], _, s => (.ok (), s)
  | e :: rest, index, s =>
    match snippetOrBody e with
    | none => (.error substringTypeError, s)
    | some text =>
      previewEach rest (index + 1)
        (addOutput s "email-preview" (previewContent index e text) [("emailData", .email e)])

/-- The `try` block of `fetchUnreadEmails`.  The status flag of the answer is not read. -/
def fetchUnreadEmailsTry (w : World) (s : Executor) : Except String (List Email) × Executor :=
  match w.unread s.tick with
  | .netError m => (.error m, interact w s)
  | .badBody _ m => (.error m, interact w s)
  | .answer _ data =>
    match data.emails with
    | some (e :: rest) =>
      let emails := e :: rest
      let s1 := addOutput (interact w s) "success"
        (" Found " ++ toString emails.length ++ " unread email(s)") [("count", .num emails.length)]
      match previewEach emails 0 s1 with
      | (.ok _, s2) => (.ok emails, s2)
      | (.error m, s2) => (.error m, s2)
    | _ => (.ok [], addOutput (interact w s) "info" " No unread emails found" [])

/-- Method `fetchUnreadEmails`. -/
def fetchUnreadEmails (w : World) (s : Executor) : Except String (List Email) × Executor :=
  match ensureGmailConnected w s with
  | (.error m, s1) => (.error m, s1)
  | (.ok _, s1) =>
    catchRethrow "error" " Failed to fetch emails: "
      (fetchUnreadEmailsTry w (addOutput s1 "log" " Fetching unread emails..." []))

/-! ## AI calls -/

/-- The metadata value of an optional number. -/
def optNum : Option Nat → Value
  | some n => .num n
  | none => .undefined

/-- The `try` block of `generateAIReply`. -/
def generateAIReplyTry (w : World) (s : Executor) : Except String String × Executor :=
  match w.aiReply s.tick with
  | .netError m => (.error m, interact w s)
  | .badBody _ m => (.error m, interact w s)
  | .answer ok data =>
    match data.text with
    | some text =>
      if ok && text != "" then
        (.ok text, addOutput (interact w s) "ai-generated"
          (" AI Reply Generated (" ++ toString text.length ++ " chars):\n\n" ++ text)
          [("replyText", .str text), ("length", .num text.length),
           ("groqApiCalls", optNum data.groqApiCalls)])
      else
        (.error (orElse data.error "AI generation failed"),
          addOutput (interact w s) "error" (" AI generation failed: " ++ render data.error) [])
    | none =>
      (.error (orElse data.error "AI generation failed"),
        addOutput (interact w s) "error" (" AI generation failed: " ++ render data.error) [])

/-- Method `generateAIReply`.  The arguments other than `from` only go into the request. -/
def generateAIReply (w : World) (s : Executor) (emailBody task subject from_ : String) :
    Except String String × Executor :=
  catchRethrow "error" " AI generation error: "
    (generateAIReplyTry w
      (addOutput s "log" (" Generating AI reply for email from " ++ from_ ++ "...") []))

/-- The `try` block of `callAI`. -/
def callAITry (w : World) (s : Executor) : Except String String × Executor :=
  match w.ai s.tick with
  | .netError m => (.error m, interact w s)
  | .badBody _ m => (.error m, interact w s)
  | .answer ok data =>
    match data.text with
    | some text =>
      if ok && text != "" then
        (.ok text, addOutput (interact w s) "ai-result" (" AI Result:\n" ++ text)
          [("result", .str text)])
      else
        (.error (orElse data.error "AI call failed"),
          addOutput (interact w s) "error" (" AI call failed: " ++ render data.error) [])
    | none =>
      (.error (orElse data.error "AI call failed"),
        addOutput (interact w s) "error" (" AI call failed: " ++ render data.error) [])

/-- Method `callAI`.  The argument `input` only goes into the request. -/
def callAI (w : World) (s : Executor) (input task : String) : Except String String × Executor :=
  catchRethrow "error" " AI error: "
    (callAITry w (addOutput s "log" (" Calling AI: " ++ substring0 task 60 ++ "...") []))

/-! ## Sending a reply and marking as read -/

/-- The expression `data.emailDetails?.to` inside a template literal. -/
def renderTo (d : SendData) : String :=
  render (d.emailDetails.bind (fun e => e.to_))

/-- The `try` block of `sendEmailReply`. -/
def sendEmailReplyTry (w : World) (s : Executor) : Except String SendData × Executor :=
  match w.send s.tick with
  | .netError m => (.error m, interact w s)
  | .badBody _ m => (.error m, interact w s)
  | .answer ok data =>
    if ok && data.success then
      if data.testMode then
        (.ok data, addOutput (interact w s) "test-mode"
          (" TEST MODE: Email validated but NOT sent\n\nThis email would have been sent to: "
            ++ renderTo data)
          [("emailDetails", .details data.emailDetails)])
      else
        (.ok data, addOutput (interact w s) "email-sent"
          (" Email sent successfully!\n  To: " ++ renderTo data ++ "\n  Message ID: "
            ++ render data.messageId)
          [("messageId", (match data.messageId with
                          | some i => .str i
                          | none => .undefined)),
           ("emailDetails", .details data.emailDetails)])
    else
      (.error (orElse data.error "Send failed"),
        addOutput (interact w s) "error" (" Failed to send email: " ++ render data.error) [])

/-- The `email-sending` event of `sendEmailReply`. -/
def sendingContent (replyBody subject to_ : String) : String :=
  " Email Details:\n  To: " ++ to_ ++ "\n  Subject: Re: " ++ subject ++ "\n  Length: "
    ++ toString replyBody.length ++ " chars\n\nBody preview:\n" ++ substring0 replyBody 200
    ++ "..."

/-- Method `sendEmailReply`.  `emailId` and `threadId` only go into the request. -/
def sendEmailReply (w : World) (s : Executor) (emailId replyBody subject to_ threadId : String) :
    Except String SendData × Executor :=
  match ensureGmailConnected w s with
  | (.error m, s1) => (.error m, s1)
  | (.ok _, s1) =>
    let s2 := addOutput s1 "log" (" Sending reply to " ++ to_ ++ "...") []
    let s3 := addOutput s2 "email-sending" (sendingContent replyBody subject to_)
      [("to", .str to_), ("subject", .str ("Re: " ++ subject)), ("body", .str replyBody),
       ("bodyLength", .num replyBody.length)]
    catchRethrow "error" " Send error: " (sendEmailReplyTry w s3)

/-- The `try` block of `markEmailAsRead`; the body is parsed before the status is read. -/
def markEmailAsReadTry (w : World) (s : Executor) : Except String Bool × Executor :=
  match w.markread s.tick with
  | .netError m => (.error m, interact w s)
  | .badBody _ m => (.error m, interact w s)
  | .answer ok data =>
    if ok then (.ok true, addOutput (interact w s) "log" " Email marked as read" [])
    else
      (.ok false, addOutput (interact w s) "warning"
        ("  Could not mark email as read: " ++ render data.error) [])

/-- Method `markEmailAsRead`.  `emailId` only goes into the request. -/
def markEmailAsRead (w : World) (s : Executor) (emailId : String) : Except String Bool × Executor :=
  match ensureGmailConnected w s with
  | (.error m, s1) => (.error m, s1)
  | (.ok _, s1) => catchReturn "warning" "  Mark as read error: " false (markEmailAsReadTry w s1)

/-! ## The run context -/

/-- The read `obj[name]` of a variable object: `undefined` for a missing key. -/
def getKey (obj : List (String × Value)) (name : String) : Value :=
  match obj.find? (fun kv => kv.1 == name) with
  | some kv => kv.2
  | none => .undefined

/-- The write `obj[name] = value`: an existing key keeps its place, a new one goes last. -/
def setKey : List (String × Value) → String → Value → List (String × Value)
  | [], name, value => [(name, value)]
  | kv :: rest, name, value =>
    if kv.1 == name then (name, value) :: rest else kv :: setKey rest name value

/-- Function `context.output`, on a message already converted by `String(message)`. -/
def ctxOutput (s : Executor) (message : String) : Executor :=
  addOutput s "result" message []

/-- Function `context.log`, on a message already converted by `String(message)`. -/
def ctxLog (s : Executor) (message : String) : Executor :=
  addOutput s "log" message []

/-- Function `context.fetchEmails`. -/
def ctxFetchEmails (w : World) (s : Executor) : Except String (List Email) × Executor :=
  catchReturn "error" "fetchEmails failed: " [] (fetchUnreadEmails w s)

/-- Function `context.generateReply`. -/
def ctxGenerateReply (w : World) (s : Executor) (body task subject from_ : String) :
    Except String String × Executor :=
  catchReturn "error" "generateReply failed: " "" (generateAIReply w s body task subject from_)

/-- Function `context.sendReply`. -/
def ctxSendReply (w : World) (s : Executor) (emailId replyBody subject to_ threadId : String) :
    Except String SendData × Executor :=
  catchRethrow "error" "sendReply failed: "
    (sendEmailReply w s emailId replyBody subject to_ threadId)

/-- The message of the TypeError raised by `replyBody.substring(...)` for a reply body
that is not text. -/
def substringNotFunction : String :=
  "replyBody.substring is not a function"

/-- Method `sendEmailReply` called with a truthy reply body that is not text: it always
raises, and the result is the message of the error.  After the gate and the `log` event,
building the `email-sending` event raises a TypeError, before the `try` block is
entered. -/
def sendEmailReplyNonText (w : World) (s : Executor) (to_ : String) : String × Executor :=
  match ensureGmailConnected w s with
  | (.error m, s1) => (m, s1)
  | (.ok _, s1) =>
    (substringNotFunction, addOutput s1 "log" (" Sending reply to " ++ to_ ++ "...") [])

/-- Function `context.sendReply` called with a truthy reply body that is not text: the
`catch` block appends an `error` event and throws the error again. -/
def ctxSendReplyNonText (w : World) (s : Executor) (to_ : String) : String × Executor :=
  ((sendEmailReplyNonText w s to_).1,
    addOutput (sendEmailReplyNonText w s to_).2 "error"
      ("sendReply failed: " ++ (sendEmailReplyNonText w s to_).1) [])

/-- Function `context.markRead`. -/
def ctxMarkRead (w : World) (s : Executor) (emailId : String) : Except String Bool × Executor :=
  catchReturn "warning" "markRead failed: " false (markEmailAsRead w s emailId)

/-- Function `context.callAI`. -/
def ctxCallAI (w : World) (s : Executor) (input task : String) : Except String String × Executor :=
  catchReturn "error" "AI call failed: " "" (callAI w s input task)

/-- Function `context.setVariable`. -/
def ctxSetVariable (s : Executor) (name : String) (value : Value) : Executor :=
  addOutput { s with variables_ := setKey s.variables_ name value } "log"
    (" Variable set: " ++ name) []

/-- Function `context.getVariable`. -/
def ctxGetVariable (s : Executor) (name : String) : Value :=
  getKey s.variables_ name

/-- The read `context.inputData[field]`: `context.inputData` is the object
`this.variables` itself. -/
def ctxInputData (s : Executor) (field : String) : Value :=
  getKey s.variables_ field

/-! ## Programs -/

/-- The code handed to `execute`, as the sequence of its calls into the run context:
each node is the next call, with the remaining code as a function of what the call
returns.  `sendReply` is the one context function that can raise into the code; `h` is
what the code does with the error (`Prog.throw` when it does not catch it). -/
inductive Prog where
  /-- The code runs off its end. -/
  | done
  /-- The code raises an error with this message. -/
  | throw (message : String)
  | log (message : String) (k : Prog)
  | output (message : String) (k : Prog)
  | fetchEmails (k : List Email → Prog)
  | generateReply (body task subject from_ : String) (k : String → Prog)
  | sendReply (emailId replyBody subject to_ threadId : String) (k : SendData → Prog)
      (h : String → Prog)
  /-- A call of `context.sendReply` whose reply body is a truthy value that is not text;
  it always raises. -/
  | sendReplyNonText (to_ : String) (h : String → Prog)
  | markRead (emailId : String) (k : Bool → Prog)
  | callAI (input task : String) (k : String → Prog)
  | setVariable (name : String) (value : Value) (k : Prog)
  | getVariable (name : String) (k : Value → Prog)
  | inputData (field : String) (k : Value → Prog)

/-- Runs the code against the context: `.ok ()` when it ran off its end, `.error m` when
an error with message `m` left it. -/
def runProg (w : World) : Prog → Executor → Except String Unit × Executor
  | .done, s => (.ok (), s)
  | .throw m, s => (.error m, s)
  | .log message k, s => runProg w k (ctxLog s message)
  | .output message k, s => runProg w k (ctxOutput s message)
  | .fetchEmails k, s =>
    match ctxFetchEmails w s with
    | (.ok emails, s1) => runProg w (k emails) s1
    | (.error m, s1) => (.error m, s1)
  | .generateReply body task subject from_ k, s =>
    match ctxGenerateReply w s body task subject from_ with
    | (.ok text, s1) => runProg w (k text) s1
    | (.error m, s1) => (.error m, s1)
  | .sendReply emailId replyBody subject to_ threadId k h, s =>
    match ctxSendReply w s emailId replyBody subject to_ threadId with
    | (.ok data, s1) => runProg w (k data) s1
    | (.error m, s1) => runProg w (h m) s1
  | .sendReplyNonText to_ h, s =>
    runProg w (h (ctxSendReplyNonText w s to_).1) (ctxSendReplyNonText w s to_).2
  | .markRead emailId k, s =>
    match ctxMarkRead w s emailId with
    | (.ok b, s1) => runProg w (k b) s1
    | (.error m, s1) => (.error m, s1)
  | .callAI input task k, s =>
    match ctxCallAI w s input task with
    | (.ok text, s1) => runProg w (k text) s1
    | (.error m, s1) => (.error m, s1)
  | .setVariable name value k, s => runProg w k (ctxSetVariable s name value)
  | .getVariable name k, s => runProg w (k (ctxGetVariable s name)) s
  | .inputData field k, s => runProg w (k (ctxInputData s field)) s

/-- The argument `code` of `execute`: text that `new AsyncFunction` rejects with a
SyntaxError, or a program. -/
inductive Code where
  | invalid (message : String)
  | valid (p : Prog)

/-- The wrapper `try { code } catch (error) { context.log(...); throw error; }`. -/
def runWrapped (w : World) (p : Prog) (s : Executor) : Except String Unit × Executor :=
  match runProg w p s with
  | (.ok u, s1) => (.ok u, s1)
  | (.error m, s1) => (.error m, ctxLog s1 (" Error in workflow: " ++ m))

/-- The object `execute` returns. -/
structure Result where
  success : Bool
  error : Option String
  output : List OutputItem
  message : String
deriving DecidableEq, Repr

/-- The executor at the moment the code starts: log emptied, listener stored, starting
event appended, connection status fetched. -/
def startRun (w : World) (s : Executor) (onOutputCallback : Bool) : Executor :=
  (checkGmailConnection w
    (addOutput { s with output := [], onOutput := onOutputCallback } "log"
      " Starting workflow execution..." [])).2

/-- The end of `execute`: the `success` event and result, or the `catch` block. -/
def finishRun (r : Except String Unit × Executor) : Result × Executor :=
  match r with
  | (.ok _, s) =>
    let s1 := addOutput s "success" " Workflow completed successfully!" []
    ({ success := true, error := none, output := s1.output, message := "Workflow completed" }, s1)
  | (.error m, s) =>
    let s1 := addOutput s "error" (" Execution error: " ++ m) []
    ({ success := false, error := some m, output := s1.output, message := "Workflow failed" }, s1)

/-- Method `execute`. -/
def execute (w : World) (s : Executor) (code : Code) (onOutputCallback : Bool) :
    Result × Executor :=
  match code with
  | .invalid m => finishRun (.error m, startRun w s onOutputCallback)
  | .valid p => finishRun (runWrapped w p (startRun w s onOutputCallback))

/-! ## Following a run call by call -/

/-- The next call of the code into the context: the remaining code and the executor
after the call; `none` when the code has ended. -/
def stepProg (w : World) : Prog → Executor → Option (Prog × Executor)
  | .done, _ => none
  | .throw _, _ => none
  | .log message k, s => some (k, ctxLog s message)
  | .output message k, s => some (k, ctxOutput s message)
  | .fetchEmails k, s =>
    match ctxFetchEmails w s with
    | (.ok emails, s1) => some (k emails, s1)
    | (.error m, s1) => some (.throw m, s1)
  | .generateReply body task subject from_ k, s =>
    match ctxGenerateReply w s body task subject from_ with
    | (.ok text, s1) => some (k text, s1)
    | (.error m, s1) => some (.throw m, s1)
  | .sendReply emailId replyBody subject to_ threadId k h, s =>
    match ctxSendReply w s emailId replyBody subject to_ threadId with
    | (.ok data, s1) => some (k data, s1)
    | (.error m, s1) => some (h m, s1)
  | .sendReplyNonText to_ h, s =>
    some (h (ctxSendReplyNonText w s to_).1, (ctxSendReplyNonText w s to_).2)
  | .markRead emailId k, s =>
    match ctxMarkRead w s emailId with
    | (.ok b, s1) => some (k b, s1)
    | (.error m, s1) => some (.throw m, s1)
  | .callAI input task k, s =>
    match ctxCallAI w s input task with
    | (.ok text, s1) => some (k text, s1)
    | (.error m, s1) => some (.throw m, s1)
  | .setVariable name value k, s => some (k, ctxSetVariable s name value)
  | .getVariable name k, s => some (k (ctxGetVariable s name), s)
  | .inputData field k, s => some (k (ctxInputData s field), s)

/-- The remaining code and the executor after the first `n` calls of the code. -/
def stepsProg (w : World) : Nat → Prog → Executor → Option (Prog × Executor)
  | 0, p, s => some (p, s)
  | n + 1, p, s =>
    match stepProg w p s with
    | some (q, t) => stepsProg w n q t
    | none => none

/-! ## Outcomes of the service calls -/

/-- The provider message of a failed send call: the message of the rejected request or
of the unreadable body, or the `error` field of an answer that is not an OK status with
`success` set.  `none` when the call succeeded or failed without a message. -/
def sendFailure : Http SendData → Option String
  | .netError m => some m
  | .badBody _ m => some m
  | .answer ok data => if ok && data.success then none else data.error

/-- The AI call failed: the request raised, the body could not be read, the status was
an error status, or no text came back. -/
def aiFailed : Http AiData → Bool
  | .netError _ => true
  | .badBody _ _ => true
  | .answer ok data => !(ok && truthy data.text)

/-- The service answered, and with an OK status. -/
def answeredOk {α : Type} : Http α → Bool
  | .netError _ => false
  | .badBody ok _ => ok
  | .answer ok _ => ok

/-- The service answered with an OK status and a body that parses as JSON. -/
def answeredOkJson {α : Type} : Http α → Bool
  | .answer ok _ => ok
  | _ => false

/-- The clock at the start of the `j`-th wait of the gate (counting from 0), for a loop
entered at time `now` with interaction counter `tick`, if the loop runs that far. -/
def waitStart (w : World) : Nat → Nat → Nat → Nat
  | _, now, 0 => now
  | tick, now, j + 1 => waitStart w (tick + 1) (now + pollInterval + w.elapsed tick) j

/-! ## Concrete scenarios -/

/-- A send answer without content. -/
def noSendData : SendData :=
  { success := false, testMode := false, messageId := none, emailDetails := none, error := none }

/-- A world in which every request is rejected with message `down`, the hook returns
without effect and nobody sets the status; of the names the scenarios use, the global
environment binds the listed ones. -/
def downWorld : World :=
  { status := fun _ => .netError "down",
    unread := fun _ => .netError "down",
    aiReply := fun _ => .netError "down",
    ai := fun _ => .netError "down",
    send := fun _ => .netError "down",
    markread := fun _ => .netError "down",
    hook := fun _ => { status := none, thrown := none },
    poll := fun _ => none,
    elapsed := fun _ => 0,
    globals := fun name =>
      ["globalThis", "window", "self", "document", "console", "undefined", "NaN", "Infinity",
       "Object", "Function", "Array", "String", "Number", "Boolean", "Symbol", "Math", "JSON",
       "Date", "Promise", "Error", "name", "toString", "constructor"].contains name }

/-- A fresh executor with the authorization hook registered. -/
def hookedExecutor : Executor :=
  setGmailRequiredCallback (Executor.new 0) true

/-- A fresh executor with the hook registered and the gate authorized. -/
def connectedExecutor : Executor :=
  setGmailStatus hookedExecutor true

/-- The world `downWorld`, except that the send endpoint answers status 500 with
an `error` field saying `quota exceeded`. -/
def quotaWorld : World :=
  { downWorld with
    send := fun _ => .answer false { noSendData with error := some "quota exceeded" } }

/-- The world `downWorld`, except that the unread endpoint answers status 401 with
an `error` field saying `Gmail not connected`. -/
def unreadErrorWorld : World :=
  { downWorld with
    unread := fun _ => .answer false { emails := none, error := some "Gmail not connected" } }

/-- The world `downWorld`, except that the mark-read endpoint answers status 200 with
a body that is not JSON. -/
def markBadBodyWorld : World :=
  { downWorld with markread := fun _ => .badBody true "Unexpected token < in JSON" }

/-- The world `downWorld`, except that the caller sets the status to connected during
the first wait of the gate and the unread endpoint answers with an empty list. -/
def connectingWorld : World :=
  { downWorld with
    poll := fun k => if k = 2 then some true else none,
    elapsed := fun _ => 200,
    unread := fun _ => .answer true { emails := some [], error := none } }

/-- Code that logs, sends one reply without catching, and logs again. -/
def sendThenLog : Prog :=
  .log "start"
    (.sendReply "m1" "Thank you" "Order" "a@example.com" "t1" (fun _ => .log "after" .done)
      .throw)


/-! ## Elementary state changes -/

/-- The elementary changes of the executor that the methods of the engine are built
from: appending an event, an external interaction, a hook call, a wait of the gate. -/
inductive Prim (w : World) : Executor → Executor → Prop where
  | addOutput (s : Executor) (type content : String) (metadata : List (String × Value)) :
      Prim w s (addOutput s type content metadata)
  | interact (s : Executor) : Prim w s (interact w s)
  | hook (s : Executor) : Prim w s (invokeHook w s)
  | poll (s : Executor) : Prim w s (pollStep w s)

/-- The elementary changes during a run of code: those of the engine, and the write of
`context.setVariable`. -/
inductive Change (w : World) : Executor → Executor → Prop where
  | prim {s t : Executor} (h : Prim w s t) : Change w s t
  | write (s : Executor) (name : String) (value : Value) :
      Change w s { s with variables_ := setKey s.variables_ name value }

/-- A sequence of elementary changes of the engine leads from the first executor to the
second. -/
def Reach (w : World) : Executor → Executor → Prop :=
  Relation.ReflTransGen (Prim w)

/-- A sequence of elementary changes of the engine and of variable writes leads from
the first executor to the second. -/
def ReachW (w : World) : Executor → Executor → Prop :=
  Relation.ReflTransGen (Change w)

/-- The timestamps of a log are non-decreasing in list order. -/
def NonDecreasing (log : List OutputItem) : Prop :=
  log.Pairwise (fun a b => a.timestamp ≤ b.timestamp)

/-- The calls `context.setVariable(name, value)` the code makes during a run, in order. -/
def writes (w : World) : Prog → Executor → List (String × Value)
  | .done, _ => []
  | .throw _, _ => []
  | .log message k, s => writes w k (ctxLog s message)
  | .output message k, s => writes w k (ctxOutput s message)
  | .fetchEmails k, s =>
    match ctxFetchEmails w s with
    | (.ok emails, s1) => writes w (k emails) s1
    | (.error _, _) => []
  | .generateReply body task subject from_ k, s =>
    match ctxGenerateReply w s body task subject from_ with
    | (.ok text, s1) => writes w (k text) s1
    | (.error _, _) => []
  | .sendReply emailId replyBody subject to_ threadId k h, s =>
    match ctxSendReply w s emailId replyBody subject to_ threadId with
    | (.ok data, s1) => writes w (k data) s1
    | (.error m, s1) => writes w (h m) s1
  | .sendReplyNonText to_ h, s =>
    writes w (h (ctxSendReplyNonText w s to_).1) (ctxSendReplyNonText w s to_).2
  | .markRead emailId k, s =>
    match ctxMarkRead w s emailId with
    | (.ok b, s1) => writes w (k b) s1
    | (.error _, _) => []
  | .callAI input task k, s =>
    match ctxCallAI w s input task with
    | (.ok text, s1) => writes w (k text) s1
    | (.error _, _) => []
  | .setVariable name value k, s => (name, value) :: writes w k (ctxSetVariable s name value)
  | .getVariable name k, s => writes w (k (ctxGetVariable s name)) s
  | .inputData field k, s => writes w (k (ctxInputData s field)) s

/-- The variable object after the given writes, applied in order. -/
def applyWrites (vars : List (String × Value)) (ws : List (String × Value)) :
    List (String × Value) :=
  ws.foldl (fun acc nv => setKey acc nv.1 nv.2) vars

/-- The value written last to `name` among the given writes, if any. -/
def lastWrite (ws : List (String × Value)) (name : String) : Option Value :=
  (ws.reverse.find? (fun nv => nv.1 == name)).map (fun nv => nv.2)


/-- The world `downWorld`, except that the status endpoint reports that no account is
connected. -/
def disconnectedWorld : World :=
  { downWorld with status := fun _ => .answer true { connected := false } }

/-- Code that binds the variable `note` and ends. -/
def bindNote : Prog :=
  .setVariable "note" (.str "kept from the first run") .done

/-- Code that overwrites the input field `emailBody` and then displays what the input
reference `context.inputData.emailBody` reads. -/
def overwriteInput : Prog :=
  .setVariable "emailBody" (.str "changed")
    (.inputData "emailBody" (fun v =>
      .output (match v with
               | .str t => t
               | _ => "") .done))

/-- An executor whose input data has the single field `emailBody`. -/
def inputExecutor : Executor :=
  setInputData hookedExecutor [("emailBody", .str "order #12345 not shipped")]




/-! ## The code generated from the blocks (`customBlocks.js`)

The generators emit JavaScript text.  Its meaning is given here as a program over the
run context.  The model follows the generated text where the fields of the blocks are
what the generators take them to be (`Block.valid`): fields that become identifiers
(`VAR_NAME`, `EMAIL_LIST`, `REPLY_VAR`, `VAR`, `FIELD_NAME`) hold identifiers, a chain of
statements declares each name once, and text placed between double quotes is the inside
of one string literal (`literalValue`).  An identifier that is read resolves to the
innermost `const` of that name and raises a ReferenceError when the `const` of the
enclosing block comes later in that block.  The generated text itself reads the
parameter `context` and the globals `Array` and `String` (`codeNames`): the model
follows it where no `const` in force has one of these names (`Scope.clean`).  A read of
an identifier that no block declares is followed only where nothing outside the
generated code binds the name either (`boundOutside`): there it raises a
ReferenceError. -/

/-- The conversion `String(v)`. -/
def toStr : Value → String
  | .undefined => "undefined"
  | .str s => s
  | .num n => toString n
  | .bool b => if b then "true" else "false"
  | .email _ => "[object Object]"
  | .emails l => ",".intercalate (l.map (fun _ => "[object Object]"))
  | .details none => "undefined"
  | .details (some _) => "[object Object]"
  | .sendData _ => "[object Object]"

/-- Truthiness of a value. -/
def truthyValue : Value → Bool
  | .undefined => false
  | .str s => s != ""
  | .num n => n != 0
  | .bool b => b
  | .details none => false
  | _ => true

/-- The expression `v || ""`. -/
def orEmpty (v : Value) : Value :=
  if truthyValue v then v else .str ""

/-- An optional text field as a value. -/
def optStr : Option String → Value
  | some t => .str t
  | none => .undefined

/-- The member reads `v.subject`, `v.body`, `v.from`, `v.id` and `v.threadId` (also
`v?.name`): the field of an email, `undefined` on any other value the blocks can bind. -/
def member (v : Value) (name : String) : Value :=
  match v with
  | .email e =>
    if name = "subject" then .str e.subject
    else if name = "body" then optStr e.body
    else if name = "from" then .str e.from_
    else if name = "id" then .str e.id
    else if name = "threadId" then .str e.threadId
    else if name = "snippet" then optStr e.snippet
    else .undefined
  | _ => .undefined

/-- The method `s.includes(t)`. -/
def includes (s t : String) : Bool :=
  decide (t.data <:+: s.data)

/-- The replacement `.replace(/"/g, '\\"')` on a list of characters. -/
def escapeQuotesChars : List Char → List Char
  | [] => []
  | c :: rest => if c = '"' then '\\' :: '"' :: escapeQuotesChars rest
                 else c :: escapeQuotesChars rest

/-- The replacement `.replace(/"/g, '\\"')`. -/
def escapeQuotes (t : String) : String :=
  String.mk (escapeQuotesChars t.data)

/-- The character a single-character escape stands for; `none` for the escapes that start
a longer sequence (digits, `x`, `u`) or continue the line. -/
def escapeValue (c : Char) : Option Char :=
  if c = 'n' then some '\n'
  else if c = 't' then some '\t'
  else if c = 'r' then some '\r'
  else if c = 'b' then some (Char.ofNat 8)
  else if c = 'f' then some (Char.ofNat 12)
  else if c = 'v' then some (Char.ofNat 11)
  else if c.isDigit || c = 'x' || c = 'u' || c = '\n' || c = '\r' then none
  else some c

/-- The value of the JavaScript string literal whose text between the double quotes is
the given one.  `none` when the text is not the inside of one literal (it holds an
unescaped double quote or line break, or ends in a backslash) or uses an escape that
is not modelled (octal, `\x`, `\u`, line continuation). -/
def decodeLiteral : List Char → Option (List Char)
  | [] => some []
  | c :: rest =>
    if c = '\\' then
      match rest with
      | [] => none
      | d :: rest1 =>
        match escapeValue d, decodeLiteral rest1 with
        | some v, some tail => some (v :: tail)
        | _, _ => none
    else if c = '"' || c = '\n' || c = '\r' then none
    else
      match decodeLiteral rest with
      | some tail => some (c :: tail)
      | none => none

/-- The value of the literal with the given text between its quotes; the generated code
is outside the model when `decodeLiteral` gives `none` (the empty string stands in). -/
def literalValue (text : String) : String :=
  match decodeLiteral text.data with
  | some v => String.mk v
  | none => ""

/-- Text that reads back unchanged as a literal: no double quote, backslash or line
break. -/
def plainText (text : String) : Bool :=
  text.data.all (fun c => !(c = '\\' || c = '"' || c = '\n' || c = '\r'))

/-- ASCII lower-casing, used where a concrete `toLowerCase` is needed. -/
def asciiLower (t : String) : String :=
  String.mk (t.data.map Char.toLower)

/-- The `const` bindings in force: name and value, innermost first; `none` for a `const`
of the current block that has not been reached yet. -/
abbrev Scope := List (String × Option Value)

/-- Entering a block: its declarations exist from the start, without a value. -/
def Scope.enter (names : List String) (sc : Scope) : Scope :=
  names.map (fun n => (n, none)) ++ sc

/-- Reaching `const name = value`. -/
def Scope.declare : Scope → String → Value → Scope
  | [], name, value => [(name, some value)]
  | (n, x) :: rest, name, value =>
    if n == name then (n, some value) :: rest else (n, x) :: Scope.declare rest name value

/-- Reading the identifier `name` among the `const` bindings in force.  The bindings
outside the generated code (the parameter `context`, `arguments`, the global
environment) are not part of a scope: see `boundOutside`. -/
def Scope.lookup (sc : Scope) (name : String) : Except String Value :=
  match sc.find? (fun b => b.1 == name) with
  | some (_, some v) => .ok v
  | some (_, none) => .error ("Cannot access '" ++ name ++ "' before initialization")
  | none => .error (name ++ " is not defined")

/-- The value blocks.  `empty` is an input with no block attached, for which the
generators emit `""`. -/
inductive Expr where
  | empty
  | inputData (fieldName : String)
  | getProperty (property : String)
  | simpleText (text : String)
  | getVariable (varName : String)
  | combineText (text1 text2 : Expr)

/-- The statement blocks, each with the chain of blocks attached below it (`next`). -/
inductive Block where
  | stop
  | agentStart (agentType : String) (steps : Block)
  | ifContains (text : Expr) (keyword : String) (body next : Block)
  | fetchUnread (maxEmails : Option Nat) (varName : String) (next : Block)
  | forEachEmail (emailList : String) (body next : Block)
  | sendReply (replyVar : String) (next : Block)
  | markRead (next : Block)
  | aiAnalyze (input : Expr) (task varName : String) (next : Block)
  | aiGenerate (input : Expr) (task varName : String) (next : Block)
  | aiExtract (input : Expr) (what varName : String) (next : Block)
  | displayResult (result : Expr) (next : Block)
  | logMessage (message : Expr) (next : Block)

/-- The names a chain declares with `const` in its own block. -/
def declared : Block → List String
  | .stop => []
  | .agentStart _ steps => declared steps
  | .ifContains _ _ _ next => declared next
  | .fetchUnread _ varName next => "allEmails" :: varName :: declared next
  | .forEachEmail _ _ next => declared next
  | .sendReply _ next => declared next
  | .markRead next => declared next
  | .aiAnalyze _ _ varName next => varName :: declared next
  | .aiGenerate _ _ varName next => varName :: declared next
  | .aiExtract _ _ varName next => varName :: declared next
  | .displayResult _ next => declared next
  | .logMessage _ next => declared next

/-- The code of a value block: the program that evaluates it and goes on with `k`. -/
def evalExpr : Expr → Scope → (Value → Prog) → Prog
  | .empty, _, k => k (.str "")
  | .inputData fieldName, _, k => .inputData fieldName (fun v => k (orEmpty v))
  | .getProperty property, sc, k =>
    match sc.lookup "currentEmail" with
    | .error m => .throw m
    | .ok cur => k (orEmpty (member cur property))
  | .simpleText text, _, k => k (.str (literalValue (escapeQuotes text)))
  | .getVariable varName, sc, k =>
    match sc.lookup varName with
    | .error m => .throw m
    | .ok v => k v
  | .combineText text1 text2, sc, k =>
    evalExpr text1 sc (fun a => evalExpr text2 sc (fun b => k (.str (toStr a ++ " " ++ toStr b))))

/-- The value of a value block in a scope and executor state, or the error it raises. -/
def evalValue : Expr → Scope → Executor → Except String Value
  | .empty, _, _ => .ok (.str "")
  | .inputData fieldName, _, s => .ok (orEmpty (ctxInputData s fieldName))
  | .getProperty property, sc, _ =>
    match sc.lookup "currentEmail" with
    | .error m => .error m
    | .ok cur => .ok (orEmpty (member cur property))
  | .simpleText text, _, _ => .ok (.str (literalValue (escapeQuotes text)))
  | .getVariable varName, sc, _ => sc.lookup varName
  | .combineText text1 text2, sc, s =>
    match evalValue text1 sc s with
    | .error m => .error m
    | .ok a =>
      match evalValue text2 sc s with
      | .error m => .error m
      | .ok b => .ok (.str (toStr a ++ " " ++ toStr b))

/-- The code of a chain of statement blocks, followed by the code `k`; `lc` is the
string method `toLowerCase`.  It is the program of the generated text for a valid chain
(`Block.valid`) at a point where `context`, `Array` and `String` are what the text takes
them to be (`Scope.clean`) and where the loop variable `currentEmail` is not declared
again by the body of its loop. -/
def compile (lc : String → String) : Block → Scope → Prog → Prog
  | .stop, _, k => k
  | .agentStart agentType steps, sc, k =>
    .log (literalValue (" Starting " ++ agentType ++ " agent...")) (compile lc steps sc k)
  | .ifContains text keyword body next, sc, k =>
    evalExpr text sc (fun v =>
      if includes (lc (toStr v)) (literalValue (lc keyword)) then
        .log (literalValue ("✓ Keyword '" ++ keyword ++ "' found, executing conditional steps..."))
          (compile lc body (Scope.enter (declared body) sc) (compile lc next sc k))
      else compile lc next sc k)
  | .fetchUnread maxEmails varName next, sc, k =>
    .fetchEmails (fun allEmails =>
      let selected := match maxEmails with
        | none => allEmails
        | some n => allEmails.take n
      .log (" Processing " ++ toString selected.length ++ " of " ++ toString allEmails.length
          ++ " unread email(s)")
        (compile lc next
          ((sc.declare "allEmails" (.emails allEmails)).declare varName (.emails selected)) k))
  | .forEachEmail emailList body next, sc, k =>
    match sc.lookup emailList with
    | .error m => .throw m
    | .ok (.emails l) =>
      l.foldr (fun currentEmail rest =>
        .log (" Processing email from: " ++ currentEmail.from_)
          (compile lc body
            (Scope.enter (declared body) (("currentEmail", some (.email currentEmail)) :: sc))
            rest))
        (compile lc next sc k)
    | .ok _ =>
      .log (literalValue ("  " ++ emailList ++ " is not an array, skipping loop"))
        (compile lc next sc k)
  | .sendReply replyVar next, sc, k =>
    match sc.lookup "currentEmail" with
    | .error m => .throw m
    | .ok currentEmail =>
      if truthyValue currentEmail then
        match sc.lookup replyVar with
        | .error m => .throw m
        | .ok (.str reply) =>
          if reply != "" then
            .sendReply (toStr (member currentEmail "id")) reply
              (toStr (member currentEmail "subject")) (toStr (member currentEmail "from"))
              (toStr (member currentEmail "threadId"))
              (fun _ =>
                .log (" Reply sent to: " ++ toStr (member currentEmail "from"))
                  (compile lc next sc k))
              .throw
          else .log "  Cannot send reply: reply is empty" (compile lc next sc k)
        | .ok reply =>
          if truthyValue reply then
            .sendReplyNonText (toStr (member currentEmail "from")) .throw
          else .log "  Cannot send reply: reply is empty" (compile lc next sc k)
      else .log "  Cannot send reply: no current email" (compile lc next sc k)
  | .markRead next, sc, k =>
    match sc.lookup "currentEmail" with
    | .error m => .throw m
    | .ok currentEmail =>
      if truthyValue (member currentEmail "id") then
        .markRead (toStr (member currentEmail "id"))
          (fun _ => .log "✓ Email marked as read" (compile lc next sc k))
      else .log "  No current email to mark as read" (compile lc next sc k)
  | .aiAnalyze input task varName next, sc, k =>
    evalExpr input sc (fun v =>
      .callAI (toStr v) (literalValue (escapeQuotes task)) (fun text =>
        .log (literalValue ("✓ AI Analysis complete, saved as '" ++ varName ++ "'"))
          (compile lc next (sc.declare varName (.str text)) k)))
  | .aiGenerate input task varName next, sc, k =>
    evalExpr input sc (fun v =>
      .callAI (toStr v) (literalValue (escapeQuotes task)) (fun text =>
        .log (literalValue ("✓ AI Generation complete, saved as '" ++ varName ++ "'"))
          (compile lc next (sc.declare varName (.str text)) k)))
  | .aiExtract input what varName next, sc, k =>
    evalExpr input sc (fun v =>
      .callAI (toStr v)
        (literalValue ("Extract the following information: " ++ escapeQuotes what)) (fun text =>
        .log (literalValue ("✓ AI Extraction complete, saved as '" ++ varName ++ "'"))
          (compile lc next (sc.declare varName (.str text)) k)))
  | .displayResult result next, sc, k =>
    evalExpr result sc (fun v => .output (toStr v) (compile lc next sc k))
  | .logMessage message next, sc, k =>
    evalExpr message sc (fun v => .log (toStr v) (compile lc next sc k))

/-- The program generated from a top-level chain of blocks. -/
def generated (lc : String → String) (b : Block) : Prog :=
  compile lc b (Scope.enter (declared b) []) .done

/-- The loop of `gmail_for_each_email` as the specification words it: for each element
in original order, append a `log` event naming the sender, then run the body with the
element as `currentEmail`; stop at the first body run that raises. -/
def forEachSpec (w : World) (lc : String → String) (body : Block) (sc : Scope) :
    List Email → Executor → Except String Unit × Executor
  | [], s => (.ok (), s)
  | e :: rest, s =>
    match runProg w
        (compile lc body (Scope.enter (declared body) (("currentEmail", some (.email e)) :: sc))
          .done)
        (ctxLog s (" Processing email from: " ++ e.from_)) with
    | (.ok _, s1) => forEachSpec w lc body sc rest s1
    | (.error m, s1) => (.error m, s1)

/-- The code `p` followed by the code `k`: `k` runs where `p` runs off its end. -/
def andThen : Prog → Prog → Prog
  | .done, k => k
  | .throw m, _ => .throw m
  | .log message p, k => .log message (andThen p k)
  | .output message p, k => .output message (andThen p k)
  | .fetchEmails f, k => .fetchEmails (fun emails => andThen (f emails) k)
  | .generateReply body task subject from_ f, k =>
    .generateReply body task subject from_ (fun text => andThen (f text) k)
  | .sendReply emailId replyBody subject to_ threadId f h, k =>
    .sendReply emailId replyBody subject to_ threadId (fun data => andThen (f data) k)
      (fun m => andThen (h m) k)
  | .sendReplyNonText to_ h, k => .sendReplyNonText to_ (fun m => andThen (h m) k)
  | .markRead emailId f, k => .markRead emailId (fun b => andThen (f b) k)
  | .callAI input task f, k => .callAI input task (fun text => andThen (f text) k)
  | .setVariable name value p, k => .setVariable name value (andThen p k)
  | .getVariable name f, k => .getVariable name (fun v => andThen (f v) k)
  | .inputData field f, k => .inputData field (fun v => andThen (f v) k)

/-- The run of a sequence: the second part runs from where the first one ended, unless
the first one raised. -/
def thenRun (w : World) (r : Except String Unit × Executor) (k : Prog) :
    Except String Unit × Executor :=
  match r with
  | (.ok _, s) => runProg w k s
  | (.error m, s) => (.error m, s)

/-- The `log` event that names the sender of an email. -/
def NamesSender (e : Email) (item : OutputItem) : Prop :=
  item.type = "log" ∧ item.content = " Processing email from: " ++ e.from_

/-- The code of the loop body for one email. -/
def bodyCode (lc : String → String) (body : Block) (sc : Scope) (e : Email) : Prog :=
  compile lc body (Scope.enter (declared body) (("currentEmail", some (.email e)) :: sc)) .done

/-! ## Concrete scenarios for the generated code -/

/-- The world `downWorld`, except that the AI endpoint answers with the text `t`. -/
def aiWorld (t : String) : World :=
  { downWorld with
    ai := fun _ => .answer true { text := some t, error := none, groqApiCalls := none } }

/-- The blocks of the scenario: log `start`, generate a reply to the input field
`emailBody` and save it as `reply`, display `reply`. -/
def replyBlocks : Block :=
  .logMessage (.simpleText "start")
    (.aiGenerate (.inputData "emailBody") "draft a reply" "reply"
      (.displayResult (.getVariable "reply") .stop))

/-- A block that displays a variable no block has bound. -/
def displayMissing : Block :=
  .displayResult (.getVariable "missing") .stop

/-- An executor whose input field `emailBody` mentions the path `C:\temp`. -/
def pathExecutor : Executor :=
  setInputData hookedExecutor [("emailBody", .str "see C:\\temp")]

/-- A conditional on the input field `emailBody` with the keyword `C:\temp`. -/
def pathConditional : Block :=
  .ifContains (.inputData "emailBody") "C:\\temp" (.logMessage (.simpleText "found") .stop) .stop

/-- A loop over the variable `emails`, which an AI block has bound to a text. -/
def loopOverText : Block :=
  .aiGenerate .empty "summarise" "emails"
    (.forEachEmail "emails" (.logMessage (.simpleText "in the loop") .stop) .stop)

/-- Two unread emails. -/
def twoEmails : List Email :=
  [{ id := "m1", threadId := "t1", from_ := "ann@example.com", subject := "Order",
     snippet := some "Where is my order?", body := some "Where is my order?" },
   { id := "m2", threadId := "t2", from_ := "bob@example.com", subject := "Invoice",
     snippet := some "Please send the invoice", body := some "Please send the invoice" }]

/-- The world `quotaWorld` (every send fails), with two unread emails and an AI that
answers. -/
def twoEmailsWorld : World :=
  { quotaWorld with
    unread := fun _ => .answer true { emails := some twoEmails, error := none },
    ai := fun _ => .answer true { text := some "Thank you for your message.", error := none,
                                  groqApiCalls := none } }

/-- The auto-reply workflow: fetch all unread emails, and for each one generate a reply
and send it. -/
def autoReply : Block :=
  .fetchUnread none "emails"
    (.forEachEmail "emails"
      (.aiGenerate (.getProperty "body") "Draft a reply" "response"
        (.sendReply "response" .stop))
      .stop)






/-- The events of one round of the loop: the `log` event naming the sender of the email,
followed by the events of a run of the body for that email that ends without raising. -/
def EmailSegment (w : World) (lc : String → String) (body : Block) (sc : Scope) (e : Email)
    (seg : List OutputItem) : Prop :=
  ∃ (t t1 : Executor) (bodyEvents : List OutputItem),
    seg = outputItem t "log" (" Processing email from: " ++ e.from_) [] :: bodyEvents ∧
    runProg w (bodyCode lc body sc e) (ctxLog t (" Processing email from: " ++ e.from_))
      = (.ok (), t1) ∧
    t1.output = t.output ++ seg





/-- The `email-preview` event of the email at position `index`, appended at time `now`. -/
def previewItem (now : Nat) (index : Nat) (e : Email) : OutputItem :=
  { type := "email-preview",
    content := previewContent index e ((snippetOrBody e).getD ""),
    timestamp := now,
    metadata := [("emailData", .email e)] }

/-- The world `downWorld`, except that the unread endpoint answers with two emails. -/
def inboxWorld : World :=
  { downWorld with unread := fun _ => .answer true { emails := some twoEmails, error := none } }



/-- The world `downWorld`, except that the unread endpoint answers with one email and the
mark-read endpoint answers status 500 with an `error` field saying
`Insufficient Permission`. -/
def markFailsWorld : World :=
  { downWorld with
    unread := fun _ => .answer true { emails := some (twoEmails.take 1), error := none },
    markread := fun _ => .answer false { error := some "Insufficient Permission" } }

/-- The workflow that fetches all unread emails and marks each one as read. -/
def markAll : Block :=
  .fetchUnread none "emails" (.forEachEmail "emails" (.markRead .stop) .stop)


/-! ## The send handler of the Gmail server

A model of the handler of `POST /api/emails/send` in `src/mvp/src/server/gmailServer.js`
and of the helpers and constants it uses.  The fields of the request body are texts or
missing (`none`); the handler serves one request at a time; what the Gmail API does for
the calls of a request is given with the request (`Gmail`); the record `Server` holds the
set `processedEmails` and, as a trace, the calls made to the API.  The method
`toLowerCase` is the parameter `lc`; `asciiLower` stands for it on texts without
upper-case letters outside ASCII. -/

/-- The constant `TEST_MODE`. -/
def TEST_MODE : Bool := true

/-- The constant `MIN_REPLY_LENGTH`. -/
def MIN_REPLY_LENGTH : Nat := 50

/-- The constructor call `new Set(...)` on arrays: the set holds the elements of the first
argument; the constructor takes one iterable and ignores any further argument. -/
def newSet (args : List (List String)) : List String :=
  match args with
  | [] => []
  | first :: _ => first

/-- The constant `ALLOWED_TEST_EMAILS`: `new Set` applied to two arrays. -/
def ALLOWED_TEST_EMAILS (lc : String → String) : List String :=
  newSet [["agarodia98@gmail.com"].map lc, ["sg4647@barnard.edu"].map lc]

/-- The characters that `trim` strips and `\s` matches: white space and line
terminators. -/
def isSpace (c : Char) : Bool :=
  let n := c.toNat
  n = 9 || n = 10 || n = 11 || n = 12 || n = 13 || n = 32 || n = 160 || n = 5760
    || (8192 ≤ n && n ≤ 8202) || n = 8232 || n = 8233 || n = 8239 || n = 8287
    || n = 12288 || n = 65279

/-- The method `trim`. -/
def trim (t : String) : String :=
  String.mk ((t.data.dropWhile isSpace).reverse.dropWhile isSpace).reverse

/-- The group of the first match of `/<([^>]+)>/`: after the first `<` that is followed
by at least one character other than `>` and then by `>`, the characters up to that
`>`. -/
def angleMatch : List Char → Option (List Char)
  | [] => none
  | c :: rest =>
    if c = '<' then
      if (rest.takeWhile (fun d => d != '>')) ≠ []
          ∧ (rest.takeWhile (fun d => d != '>')).length < rest.length then
        some (rest.takeWhile (fun d => d != '>'))
      else angleMatch rest
    else angleMatch rest

/-- Function `normalizeEmail`. -/
def normalizeEmail (lc : String → String) (raw : Option String) : String :=
  if truthy raw then
    match raw with
    | some t =>
      match angleMatch t.data with
      | some inner => lc (trim (String.mk inner))
      | none => lc (trim t)
    | none => ""
  else ""

/-- Function `validateReply`: the message of the error it throws, if any. -/
def validateReply (body : Option String) (toEmail : String) : Except String Unit :=
  match body with
  | none => .error "Reply body missing or invalid"
  | some b =>
    if b = "" then .error "Reply body missing or invalid"
    else if (trim b).length < MIN_REPLY_LENGTH then
      .error ("Reply too short (" ++ toString (trim b).length ++ " chars). Min: "
        ++ toString MIN_REPLY_LENGTH)
    else .ok ()

/-- The replacement `.replace(/^Re:\s*/i, "")`. -/
def stripRe (subject : String) : String :=
  match subject.data with
  | r :: e :: c :: rest =>
    if (r = 'R' ∨ r = 'r') ∧ (e = 'E' ∨ e = 'e') ∧ c = ':' then
      String.mk (rest.dropWhile isSpace)
    else subject
  | _ => subject

/-- Function `buildRawEmail`, up to the final base64url encoding: the text of the
message. -/
def buildRawEmail (to_ subject body : String) (inReplyTo : Option String) : String :=
  "\r\n".intercalate
    (["To: " ++ to_, "Subject: " ++ subject, "Content-Type: text/plain; charset=\"UTF-8\"",
      "MIME-Version: 1.0"]
      ++ (if truthy inReplyTo then
            ["In-Reply-To: " ++ render inReplyTo, "References: " ++ render inReplyTo]
          else [])
      ++ ["", body])

/-- The body of a request to `/api/emails/send`. -/
structure SendRequest where
  emailId : Option String
  threadId : Option String
  messageId : Option String
  to_ : Option String
  subject : Option String
  replyBody : Option String
deriving DecidableEq, Repr

/-- What the Gmail API does for the calls of one request: the message of the error that
`gmail.users.messages.modify` rejects with (`none` when it resolves), and the id of the
message that `gmail.users.messages.send` resolves with, or the message of the error it
rejects with. -/
structure Gmail where
  modify : Option String
  send : Except String String

/-- The state of the server that the send handler reads and writes: the set
`processedEmails` (in insertion order), and the arguments of the calls made so far to
`gmail.users.messages.modify` (the id) and `gmail.users.messages.send` (the message text
and the thread id). -/
structure Server where
  processedEmails : List (Option String)
  modifyCalls : List (Option String)
  sendCalls : List (String × Option String)
deriving DecidableEq, Repr

/-- The answer of the handler: HTTP status and JSON body. -/
structure Answer where
  status : Nat
  data : SendData
deriving DecidableEq, Repr

/-- The answer `res.status(status).json(...)` whose body has the one field `error`. -/
def errorAnswer (status : Nat) (message : String) : Answer :=
  { status := status, data := { noSendData with error := some message } }

/-- The local constant `shouldSendRealEmail` of the handler, with `isAllowedUser`
unfolded. -/
def shouldSendRealEmail (lc : String → String) (toEmail : String) : Bool :=
  !TEST_MODE || (ALLOWED_TEST_EMAILS lc).contains toEmail

/-- The message of the ReferenceError raised by the read of the undeclared identifier
`replycdBody`. -/
def replycdBodyError : String :=
  "replycdBody is not defined"

/-- The message of the TypeError raised by `subject.replace(...)` for a missing
subject. -/
def replaceTypeError : String :=
  "Cannot read properties of undefined (reading 'replace')"

/-- The method `processedEmails.add`. -/
def addId (set : List (Option String)) (id : Option String) : List (Option String) :=
  if set.contains id then set else set ++ [id]

/-- The handler of `POST /api/emails/send`.  Every error raised inside the `try` block is
answered with status 500 and the message of the error. -/
def sendHandler (lc : String → String) (g : Gmail) (s : Server) (req : SendRequest) :
    Answer × Server :=
  if s.processedEmails.contains req.emailId then
    (errorAnswer 409 "Email already processed", s)
  else
    match validateReply req.replyBody (normalizeEmail lc req.to_) with
    | .error m => (errorAnswer 500 m, s)
    | .ok _ =>
      let s2 : Server :=
        { s with processedEmails := addId s.processedEmails req.emailId,
                 modifyCalls := s.modifyCalls ++ [req.emailId] }
      match g.modify with
      | some m => (errorAnswer 500 m, s2)
      | none =>
        if !shouldSendRealEmail lc (normalizeEmail lc req.to_) then
          (errorAnswer 500 replycdBodyError, s2)
        else
          match req.subject with
          | none => (errorAnswer 500 replaceTypeError, s2)
          | some subject =>
            let s3 : Server :=
              { s2 with sendCalls := s2.sendCalls
                  ++ [(buildRawEmail (normalizeEmail lc req.to_) ("Re: " ++ stripRe subject)
                        (render req.replyBody) req.messageId, req.threadId)] }
            match g.send with
            | .error m => (errorAnswer 500 m, s3)
            | .ok id =>
              ({ status := 200,
                 data := { success := true, testMode := false, messageId := some id,
                           emailDetails := some { to_ := some (normalizeEmail lc req.to_),
                                                  subject := some ("Re: " ++ stripRe subject),
                                                  body := req.replyBody },
                           error := none } }, s3)

/-- The first test of the loop of `GET /api/emails/unread`: of the listed message ids,
those that are not skipped as already processed. -/
def notSkipped (s : Server) (messages : List String) : List String :=
  messages.filter (fun id => !s.processedEmails.contains (some id))

/-- A server that has processed nothing yet. -/
def freshServer : Server :=
  { processedEmails := [], modifyCalls := [], sendCalls := [] }

/-- The Gmail API with every call working; a sent message gets the id `sent1`. -/
def workingGmail : Gmail :=
  { modify := none, send := .ok "sent1" }

/-- The Gmail API with `modify` working and `send` rejecting. -/
def sendFailsGmail : Gmail :=
  { modify := none, send := .error "Daily sending quota exceeded" }

/-- A reply of 63 characters. -/
def longReply : String :=
  "Thank you for your message. We will look into your order today."

/-- A request to reply to the email `m1`, addressed to `to_`. -/
def replyRequest (to_ : String) : SendRequest :=
  { emailId := some "m1", threadId := some "t1", messageId := some "<abc@mail.example.com>",
    to_ := some to_, subject := some "Re: Order", replyBody := some longReply }



/-! ## Well-formed blocks and scopes -/

/-- Words that are not taken as names of variables: the reserved words of the language,
with those of strict mode; the words `async`, `of` and `eval`, which the language treats
specially in places; and the names of the values `undefined`, `NaN` and `Infinity`. -/
def reservedWords : List String :=
  ["await", "break", "case", "catch", "class", "const", "continue", "debugger", "default",
   "delete", "do", "else", "enum", "export", "extends", "false", "finally", "for", "function",
   "if", "implements", "import", "in", "instanceof", "interface", "let", "new", "null",
   "package", "private", "protected", "public", "return", "static", "super", "switch", "this",
   "throw", "true", "try", "typeof", "var", "void", "while", "with", "yield", "async", "of",
   "eval", "undefined", "NaN", "Infinity"]

/-- An identifier written with ASCII letters, digits, `_` and `$`, not starting with a
digit, that is not one of `reservedWords`. -/
def identifier (name : String) : Bool :=
  match name.data with
  | [] => false
  | c :: rest =>
    (c.isAlpha || c = '_' || c = '$')
      && rest.all (fun d => d.isAlphanum || d = '_' || d = '$')
      && !reservedWords.contains name

/-- The identifiers that the generated text reads without declaring them: the parameter
`context` of the function that `execute` builds, and the globals `Array` and `String`. -/
def codeNames : List String :=
  ["context", "Array", "String"]

/-- No `const` in force, reached or not, has a name that the generated text reads as
`context`, `Array` or `String`. -/
def Scope.clean (sc : Scope) : Bool :=
  sc.all (fun b => !codeNames.contains b.1)

/-- The scope is that of a point of a chain whose remaining blocks declare `names`: each
of them is a `const` of the current block that has not been reached yet. -/
def Scope.hoists (sc : Scope) (names : List String) : Bool :=
  names.all (fun n =>
    match sc.find? (fun b => b.1 == n) with
    | some (_, none) => true
    | _ => false)

/-- Whether something outside the generated code binds the name: the parameter `context`
of the function that `execute` builds, its `arguments` object, or the global
environment. -/
def boundOutside (w : World) (name : String) : Bool :=
  name = "context" || name = "arguments" || w.globals name

/-- Text that can stand between double quotes once its double quotes are escaped: no
backslash and no line break. -/
def quotable (text : String) : Bool :=
  text.data.all (fun c => !(c = '\\' || c = '\n' || c = '\r'))

/-- Text that stays on its line in a `//` comment: no line terminator. -/
def oneLine (text : String) : Bool :=
  text.data.all (fun c => !(c = '\n' || c = '\r' || c.toNat = 8232 || c.toNat = 8233))

/-- The fields of a value block are what the generator takes them to be. -/
def Expr.valid : Expr → Bool
  | .empty => true
  | .inputData fieldName => identifier fieldName
  | .getProperty property => identifier property
  | .simpleText text => quotable text
  | .getVariable varName => identifier varName
  | .combineText text1 text2 => text1.valid && text2.valid

/-- The fields of the blocks of a chain, and of the chains nested in it, are what the
generators take them to be, and every nested chain declares each of its names once. -/
def Block.fields (lc : String → String) : Block → Bool
  | .stop => true
  | .agentStart agentType steps =>
    plainText agentType && oneLine agentType && Block.fields lc steps
  | .ifContains text keyword body next =>
    text.valid && plainText keyword && plainText (lc keyword)
      && Block.fields lc body && (declared body).Nodup && Block.fields lc next
  | .fetchUnread _ varName next => identifier varName && Block.fields lc next
  | .forEachEmail emailList body next =>
    identifier emailList && Block.fields lc body && (declared body).Nodup
      && Block.fields lc next
  | .sendReply replyVar next => identifier replyVar && Block.fields lc next
  | .markRead next => Block.fields lc next
  | .aiAnalyze input task varName next =>
    input.valid && quotable task && identifier varName && Block.fields lc next
  | .aiGenerate input task varName next =>
    input.valid && quotable task && identifier varName && Block.fields lc next
  | .aiExtract input what varName next =>
    input.valid && quotable what && identifier varName && Block.fields lc next
  | .displayResult result next => result.valid && Block.fields lc next
  | .logMessage message next => message.valid && Block.fields lc next

/-- The chain is one the generators turn into text that is the program `compile` gives:
its fields are well-formed and it declares each of its names once. -/
def Block.valid (lc : String → String) (b : Block) : Bool :=
  Block.fields lc b && (declared b).Nodup

/-- The code makes no call of `context.setVariable`, whatever the context functions
return. -/
inductive NoWrite : Prog → Prop where
  | done : NoWrite .done
  | throw (m : String) : NoWrite (.throw m)
  | log (message : String) (k : Prog) : NoWrite k → NoWrite (.log message k)
  | output (message : String) (k : Prog) : NoWrite k → NoWrite (.output message k)
  | fetchEmails (k : List Email → Prog) : (∀ l, NoWrite (k l)) → NoWrite (.fetchEmails k)
  | generateReply (body task subject from_ : String) (k : String → Prog) :
    (∀ t, NoWrite (k t)) → NoWrite (.generateReply body task subject from_ k)
  | sendReply (emailId replyBody subject to_ threadId : String) (k : SendData → Prog)
      (h : String → Prog) :
    (∀ d, NoWrite (k d)) → (∀ m, NoWrite (h m)) →
      NoWrite (.sendReply emailId replyBody subject to_ threadId k h)
  | sendReplyNonText (to_ : String) (h : String → Prog) :
    (∀ m, NoWrite (h m)) → NoWrite (.sendReplyNonText to_ h)
  | markRead (emailId : String) (k : Bool → Prog) :
    (∀ b, NoWrite (k b)) → NoWrite (.markRead emailId k)
  | callAI (input task : String) (k : String → Prog) :
    (∀ t, NoWrite (k t)) → NoWrite (.callAI input task k)
  | getVariable (name : String) (k : Value → Prog) :
    (∀ v, NoWrite (k v)) → NoWrite (.getVariable name k)
  | inputData (field : String) (k : Value → Prog) :
    (∀ v, NoWrite (k v)) → NoWrite (.inputData field k)

/-- The world `downWorld`, except that the send endpoint answers that the email was
sent, with message id `sent1`. -/
def sentWorld : World :=
  { downWorld with
    send := fun _ => .answer true
      { success := true, testMode := false, messageId := some "sent1",
        emailDetails := some { to_ := some "a@example.com", subject := some "Re: Order",
                               body := some "Thank you" },
        error := none } }


/-! ## Theorems: the event log and the result of a run -/

theorem addOutput_output (s : Executor) (type content : String) (metadata : List (String × Value)) :
    (addOutput s type content metadata).output = s.output ++ [outputItem s type content metadata] :=
  rfl

/-- C3: `addOutput` extends the log by exactly one event and leaves the earlier events
as they were; a registered listener is invoked exactly once, with the full log after the
append, and without a listener nothing is invoked. -/
theorem addOutput_appends_and_notifies (s : Executor) (type content : String)
    (metadata : List (String × Value)) :
    (addOutput s type content metadata).output
        = s.output ++ [outputItem s type content metadata] ∧
      (addOutput s type content metadata).notified
        = (if s.onOutput then s.notified ++ [(addOutput s type content metadata).output]
           else s.notified) := by
  constructor
  · rfl
  · simp [addOutput]

/-- C1: when the code runs to completion without raising, `execute` returns
`success = true`, the returned output is the executor's event log, and that log is the
log at the end of the code followed by one `success` event, which is therefore last. -/
theorem execute_success (w : World) (s : Executor) (p : Prog) (onOutputCallback : Bool)
    (h : (runProg w p (startRun w s onOutputCallback)).1 = .ok ()) :
    (execute w s (.valid p) onOutputCallback).1.success = true ∧
      (execute w s (.valid p) onOutputCallback).1.error = none ∧
      (execute w s (.valid p) onOutputCallback).1.output
        = (execute w s (.valid p) onOutputCallback).2.output ∧
      (execute w s (.valid p) onOutputCallback).1.output
        = (runProg w p (startRun w s onOutputCallback)).2.output
          ++ [{ type := "success", content := " Workflow completed successfully!",
                timestamp := (runProg w p (startRun w s onOutputCallback)).2.now,
                metadata := [] }] ∧
      ((execute w s (.valid p) onOutputCallback).1.output.getLast?).map (fun e => e.type)
        = some "success" := by
  generalize hr : runProg w p (startRun w s onOutputCallback) = r at h
  obtain ⟨res, t⟩ := r
  simp only at h
  subst h
  simp [execute, runWrapped, hr, finishRun, addOutput, outputItem]

theorem execute_success_witness :
    (runProg downWorld (.log "hello" .done) (startRun downWorld hookedExecutor true)).1 = .ok () ∧
    (execute downWorld hookedExecutor (.valid (.log "hello" .done)) true).1.success = true :=
  ⟨rfl, (execute_success downWorld hookedExecutor (.log "hello" .done) true rfl).1⟩


/-- C2 as stated fails: for code that raises `boom` at once, the returned output is not
the events up to the failure followed by one single event. -/
theorem execute_failure_counterexample :
    (runProg downWorld (.throw "boom") (startRun downWorld hookedExecutor true)).1
        = .error "boom" ∧
      ¬ ∃ e : OutputItem, e.type = "error" ∧
        (execute downWorld hookedExecutor (.valid (.throw "boom")) true).1.output
          = (runProg downWorld (.throw "boom") (startRun downWorld hookedExecutor true)).2.output
            ++ [e] := by
  refine ⟨rfl, ?_⟩
  rintro ⟨e, -, h⟩
  have hlen := congrArg List.length h
  simp [execute, runWrapped, runProg, finishRun, ctxLog, addOutput, startRun,
    checkGmailConnection] at hlen

/-- C2, amended: when the code raises an error with message `m`, `execute` returns
`success = false` and `error = m`, and the returned output is the events appended up to
the failure, unchanged and in order, followed by the wrapper's `log` event and then the
terminal `error` event, both naming `m`. -/
theorem execute_failure (w : World) (s : Executor) (p : Prog) (onOutputCallback : Bool)
    (m : String) (h : (runProg w p (startRun w s onOutputCallback)).1 = .error m) :
    (execute w s (.valid p) onOutputCallback).1.success = false ∧
      (execute w s (.valid p) onOutputCallback).1.error = some m ∧
      (execute w s (.valid p) onOutputCallback).1.output
        = (execute w s (.valid p) onOutputCallback).2.output ∧
      (execute w s (.valid p) onOutputCallback).1.output
        = (runProg w p (startRun w s onOutputCallback)).2.output
          ++ [{ type := "log", content := " Error in workflow: " ++ m,
                timestamp := (runProg w p (startRun w s onOutputCallback)).2.now,
                metadata := [] },
              { type := "error", content := " Execution error: " ++ m,
                timestamp := (runProg w p (startRun w s onOutputCallback)).2.now,
                metadata := [] }] := by
  generalize hr : runProg w p (startRun w s onOutputCallback) = r at h
  obtain ⟨res, t⟩ := r
  simp only at h
  subst h
  simp [execute, runWrapped, hr, finishRun, ctxLog, addOutput, outputItem]

theorem execute_failure_witness :
    (runProg quotaWorld sendThenLog (startRun quotaWorld connectedExecutor true)).1
        = .error "quota exceeded" ∧
      (execute quotaWorld connectedExecutor (.valid sendThenLog) true).1.error
        = some "quota exceeded" :=
  ⟨rfl, (execute_failure quotaWorld connectedExecutor sendThenLog true "quota exceeded" rfl).2.1⟩


/-! ## Theorems: following a run -/

theorem runProg_stepProg (w : World) (p q : Prog) (s t : Executor)
    (h : stepProg w p s = some (q, t)) : runProg w p s = runProg w q t := by
  cases p with
  | done => simp [stepProg] at h
  | throw m => simp [stepProg] at h
  | log message k =>
    simp only [stepProg, Option.some.injEq, Prod.mk.injEq] at h
    obtain ⟨rfl, rfl⟩ := h
    simp [runProg]
  | output message k =>
    simp only [stepProg, Option.some.injEq, Prod.mk.injEq] at h
    obtain ⟨rfl, rfl⟩ := h
    simp [runProg]
  | fetchEmails k =>
    simp only [stepProg] at h
    simp only [runProg]
    split at h
    · simp_all [runProg]
    · simp only [Option.some.injEq, Prod.mk.injEq] at h
      obtain ⟨rfl, rfl⟩ := h
      simp_all [runProg]
  | generateReply body task subject from_ k =>
    simp only [stepProg] at h
    simp only [runProg]
    split at h
    · simp_all [runProg]
    · simp only [Option.some.injEq, Prod.mk.injEq] at h
      obtain ⟨rfl, rfl⟩ := h
      simp_all [runProg]
  | sendReply emailId replyBody subject to_ threadId k hd =>
    simp only [stepProg] at h
    simp only [runProg]
    split at h
    · simp_all [runProg]
    · simp only [Option.some.injEq, Prod.mk.injEq] at h
      obtain ⟨rfl, rfl⟩ := h
      simp_all [runProg]
  | sendReplyNonText to_ hd =>
    simp only [stepProg, Option.some.injEq, Prod.mk.injEq] at h
    obtain ⟨rfl, rfl⟩ := h
    simp [runProg]
  | markRead emailId k =>
    simp only [stepProg] at h
    simp only [runProg]
    split at h
    · simp_all [runProg]
    · simp only [Option.some.injEq, Prod.mk.injEq] at h
      obtain ⟨rfl, rfl⟩ := h
      simp_all [runProg]
  | callAI input task k =>
    simp only [stepProg] at h
    simp only [runProg]
    split at h
    · simp_all [runProg]
    · simp only [Option.some.injEq, Prod.mk.injEq] at h
      obtain ⟨rfl, rfl⟩ := h
      simp_all [runProg]
  | setVariable name value k =>
    simp only [stepProg, Option.some.injEq, Prod.mk.injEq] at h
    obtain ⟨rfl, rfl⟩ := h
    simp [runProg]
  | getVariable name k =>
    simp only [stepProg, Option.some.injEq, Prod.mk.injEq] at h
    obtain ⟨rfl, rfl⟩ := h
    simp [runProg]
  | inputData field k =>
    simp only [stepProg, Option.some.injEq, Prod.mk.injEq] at h
    obtain ⟨rfl, rfl⟩ := h
    simp [runProg]

theorem runProg_stepsProg (w : World) (n : Nat) (p q : Prog) (s t : Executor)
    (h : stepsProg w n p s = some (q, t)) : runProg w p s = runProg w q t := by
  induction n generalizing p s with
  | zero =>
    simp only [stepsProg, Option.some.injEq, Prod.mk.injEq] at h
    obtain ⟨rfl, rfl⟩ := h
    rfl
  | succ n ih =>
    simp only [stepsProg] at h
    cases hs : stepProg w p s with
    | none => simp [hs] at h
    | some qt =>
      obtain ⟨q1, t1⟩ := qt
      simp only [hs] at h
      rw [runProg_stepProg w p q1 s t1 hs]
      exact ih q1 t1 h


theorem execute_of_stepsProg (w : World) (s : Executor) (p q : Prog) (onOutputCallback : Bool)
    (n : Nat) (t : Executor)
    (h : stepsProg w n p (startRun w s onOutputCallback) = some (q, t)) :
    execute w s (.valid p) onOutputCallback = finishRun (runWrapped w q t) := by
  simp only [execute, runWrapped, runProg_stepsProg w n p q _ t h]

theorem addOutput_tick (s : Executor) (type content : String) (metadata : List (String × Value)) :
    (addOutput s type content metadata).tick = s.tick := rfl

/-- The message raised for an answer with `error` field `m` contains `m`. -/
theorem infix_orElse (m dflt : String) : m.data <:+: (orElse (some m) dflt).data := by
  unfold orElse
  by_cases hm : m = ""
  · subst hm
    simp
  · simp [hm]

/-- C4: when the code reaches a `sendReply` call it does not catch, the gate lets the
call through and the send call fails with provider message `m`, then `context.sendReply`
raises to the code, `execute` returns `success = false` with an error that contains `m`,
and the returned output is the log up to the `email-sending` preview followed only by the
`error` events of the failed call, the wrapper's `log` event and the terminal `error`
event: the code after the call contributes no event and nothing follows the terminal
event. -/
theorem sendReply_failure_aborts (w : World) (s : Executor) (p : Prog)
    (onOutputCallback : Bool) (n : Nat) (t : Executor)
    (emailId replyBody subject to_ threadId : String) (k : SendData → Prog) (m : String)
    (hreach : stepsProg w n p (startRun w s onOutputCallback)
      = some (.sendReply emailId replyBody subject to_ threadId k .throw, t))
    (hgate : (ensureGmailConnected w t).1 = .ok ())
    (hfail : sendFailure (w.send (ensureGmailConnected w t).2.tick) = some m) :
    ∃ (raised : String) (errs : List OutputItem) (final : OutputItem),
      m.data <:+: raised.data ∧
      errs ≠ [] ∧ (∀ e ∈ errs, e.type = "error") ∧
      (ctxSendReply w t emailId replyBody subject to_ threadId).1 = .error raised ∧
      (execute w s (.valid p) onOutputCallback).1.success = false ∧
      (execute w s (.valid p) onOutputCallback).1.error = some raised ∧
      final.type = "error" ∧ final.content = " Execution error: " ++ raised ∧
      (execute w s (.valid p) onOutputCallback).1.output
        = (ensureGmailConnected w t).2.output
          ++ [outputItem (ensureGmailConnected w t).2 "log" (" Sending reply to " ++ to_ ++ "...") [],
              outputItem (ensureGmailConnected w t).2 "email-sending"
                (sendingContent replyBody subject to_)
                [("to", .str to_), ("subject", .str ("Re: " ++ subject)),
                 ("body", .str replyBody), ("bodyLength", .num replyBody.length)]]
          ++ errs
          ++ [outputItem (interact w (ensureGmailConnected w t).2) "log"
                (" Error in workflow: " ++ raised) [],
              final] := by
  rw [execute_of_stepsProg w s p _ onOutputCallback n t hreach]
  generalize hg : ensureGmailConnected w t = g at hgate hfail
  obtain ⟨r1, t1⟩ := g
  simp only at hgate hfail
  subst hgate
  cases hsend : w.send t1.tick with
  | netError msg =>
    simp only [hsend, sendFailure, Option.some.injEq] at hfail
    subst hfail
    refine ⟨msg, [outputItem (interact w t1) "error" (" Send error: " ++ msg) [],
      outputItem (interact w t1) "error" ("sendReply failed: " ++ msg) []],
      outputItem (interact w t1) "error" (" Execution error: " ++ msg) [], ?_⟩
    simp [runWrapped, runProg, ctxSendReply, sendEmailReply, hg, catchRethrow,
      sendEmailReplyTry, addOutput_tick, hsend, finishRun, ctxLog, addOutput, outputItem,
      interact, List.infix_refl]
  | badBody ok msg =>
    simp only [hsend, sendFailure, Option.some.injEq] at hfail
    subst hfail
    refine ⟨msg, [outputItem (interact w t1) "error" (" Send error: " ++ msg) [],
      outputItem (interact w t1) "error" ("sendReply failed: " ++ msg) []],
      outputItem (interact w t1) "error" (" Execution error: " ++ msg) [], ?_⟩
    simp [runWrapped, runProg, ctxSendReply, sendEmailReply, hg, catchRethrow,
      sendEmailReplyTry, addOutput_tick, hsend, finishRun, ctxLog, addOutput, outputItem,
      interact, List.infix_refl]
  | answer ok data =>
    simp only [hsend, sendFailure] at hfail
    by_cases hok : (ok && data.success) = true
    · simp [hok] at hfail
    · simp only [hok, Bool.false_eq_true, if_false] at hfail
      refine ⟨orElse (some m) "Send failed",
        [outputItem (interact w t1) "error" (" Failed to send email: " ++ m) [],
         outputItem (interact w t1) "error" (" Send error: " ++ orElse (some m) "Send failed") [],
         outputItem (interact w t1) "error"
           ("sendReply failed: " ++ orElse (some m) "Send failed") []],
        outputItem (interact w t1) "error"
          (" Execution error: " ++ orElse (some m) "Send failed") [], ?_⟩
      refine ⟨infix_orElse m _, ?_⟩
      simp [runWrapped, runProg, ctxSendReply, sendEmailReply, hg, catchRethrow,
        sendEmailReplyTry, addOutput_tick, hsend, finishRun, ctxLog, addOutput, outputItem,
        interact, hok, hfail, render]

theorem sendReply_failure_aborts_witness :
    stepsProg quotaWorld 1 sendThenLog (startRun quotaWorld connectedExecutor true)
        = some (.sendReply "m1" "Thank you" "Order" "a@example.com" "t1"
            (fun _ => .log "after" .done) .throw,
          ctxLog (startRun quotaWorld connectedExecutor true) "start") ∧
      (ensureGmailConnected quotaWorld
        (ctxLog (startRun quotaWorld connectedExecutor true) "start")).1 = .ok () ∧
      sendFailure (quotaWorld.send (ensureGmailConnected quotaWorld
        (ctxLog (startRun quotaWorld connectedExecutor true) "start")).2.tick)
          = some "quota exceeded" ∧
      (execute quotaWorld connectedExecutor (.valid sendThenLog) true).1.success = false :=
  ⟨rfl, rfl, rfl,
    match sendReply_failure_aborts quotaWorld connectedExecutor sendThenLog true 1
      (ctxLog (startRun quotaWorld connectedExecutor true) "start")
      "m1" "Thank you" "Order" "a@example.com" "t1"
      (fun _ => .log "after" .done) "quota exceeded" rfl rfl rfl with
    | ⟨_, _, _, _, _, _, _, hs, _⟩ => hs⟩


/-! ## Theorems: the failure policy of the context functions -/

/-- C5 as stated fails: in a run whose only step is `fetchEmails` (or `markRead`), with a
hook that never connects, the gate times out and the run still returns
`success = true`. -/
theorem gate_timeout_counterexample :
    (ensureGmailConnected downWorld (startRun downWorld hookedExecutor true)).1
        = .error timeoutMessage ∧
      (execute downWorld hookedExecutor (.valid (.fetchEmails fun _ => .done)) true).1.success
        = true ∧
      (execute downWorld hookedExecutor (.valid (.markRead "m1" fun _ => .done)) true).1.success
        = true := by
  refine ⟨rfl, rfl, rfl⟩

/-- C5, amended: when the gate's wait ends with the authorization timeout,
`context.sendReply` appends an `error` event and raises the timeout to the code, and a
run whose code does not catch it returns `success = false` with the timeout as error;
`context.fetchEmails` appends an `error` event and returns the empty list and
`context.markRead` appends a `warning` event and returns false, and in both cases the
code goes on with that value. -/
theorem gate_timeout_policy (w : World) (t : Executor)
    (hto : (ensureGmailConnected w t).1 = .error timeoutMessage) :
    (∀ emailId replyBody subject to_ threadId : String,
        ctxSendReply w t emailId replyBody subject to_ threadId
          = (.error timeoutMessage,
              addOutput (ensureGmailConnected w t).2 "error"
                ("sendReply failed: " ++ timeoutMessage) [])) ∧
      (∀ (s : Executor) (p : Prog) (onOutputCallback : Bool) (n : Nat)
          (emailId replyBody subject to_ threadId : String) (k : SendData → Prog),
        stepsProg w n p (startRun w s onOutputCallback)
            = some (.sendReply emailId replyBody subject to_ threadId k .throw, t) →
          (execute w s (.valid p) onOutputCallback).1.success = false ∧
          (execute w s (.valid p) onOutputCallback).1.error = some timeoutMessage) ∧
      ctxFetchEmails w t
        = (.ok [], addOutput (ensureGmailConnected w t).2 "error"
            ("fetchEmails failed: " ++ timeoutMessage) []) ∧
      (∀ k : List Email → Prog,
        runProg w (.fetchEmails k) t
          = runProg w (k []) (addOutput (ensureGmailConnected w t).2 "error"
              ("fetchEmails failed: " ++ timeoutMessage) [])) ∧
      (∀ emailId : String,
        ctxMarkRead w t emailId
          = (.ok false, addOutput (ensureGmailConnected w t).2 "warning"
              ("markRead failed: " ++ timeoutMessage) [])) ∧
      (∀ (emailId : String) (k : Bool → Prog),
        runProg w (.markRead emailId k) t
          = runProg w (k false) (addOutput (ensureGmailConnected w t).2 "warning"
              ("markRead failed: " ++ timeoutMessage) [])) := by
  generalize hg : ensureGmailConnected w t = g at hto
  obtain ⟨r1, t1⟩ := g
  simp only at hto
  subst hto
  have hsend : ∀ emailId replyBody subject to_ threadId : String,
      ctxSendReply w t emailId replyBody subject to_ threadId
        = (.error timeoutMessage,
            addOutput t1 "error" ("sendReply failed: " ++ timeoutMessage) []) := by
    intro emailId replyBody subject to_ threadId
    simp [ctxSendReply, sendEmailReply, hg, catchRethrow]
  have hfetch : ctxFetchEmails w t
      = (.ok [], addOutput t1 "error" ("fetchEmails failed: " ++ timeoutMessage) []) := by
    simp [ctxFetchEmails, fetchUnreadEmails, hg, catchReturn]
  have hmark : ∀ emailId : String, ctxMarkRead w t emailId
      = (.ok false, addOutput t1 "warning" ("markRead failed: " ++ timeoutMessage) []) := by
    intro emailId
    simp [ctxMarkRead, markEmailAsRead, hg, catchReturn]
  refine ⟨hsend, ?_, hfetch, ?_, hmark, ?_⟩
  · intro s p onOutputCallback n emailId replyBody subject to_ threadId k hreach
    rw [execute_of_stepsProg w s p _ onOutputCallback n t hreach]
    simp [runWrapped, runProg, hsend, finishRun]
  · intro k
    simp [runProg, hfetch]
  · intro emailId k
    simp [runProg, hmark]

theorem gate_timeout_policy_witness :
    (ensureGmailConnected downWorld (startRun downWorld hookedExecutor true)).1
        = .error timeoutMessage ∧
      ctxFetchEmails downWorld (startRun downWorld hookedExecutor true)
        = (.ok [], addOutput (ensureGmailConnected downWorld
            (startRun downWorld hookedExecutor true)).2 "error"
            ("fetchEmails failed: " ++ timeoutMessage) []) :=
  ⟨rfl, (gate_timeout_policy downWorld (startRun downWorld hookedExecutor true) rfl).2.2.1⟩


/-- C6, the failing input: with the gate authorized, an answer of the unread endpoint
with an error status and an `error` field makes `context.fetchEmails` return the empty
list after appending a `log` and an `info` event; no `error` event is appended. -/
theorem fetchEmails_error_status_reports_info :
    (ctxFetchEmails unreadErrorWorld connectedExecutor).1 = .ok [] ∧
      (ctxFetchEmails unreadErrorWorld connectedExecutor).2.output.map (fun e => (e.type, e.content))
        = [("log", " Fetching unread emails..."), ("info", " No unread emails found")] ∧
      ∀ e ∈ (ctxFetchEmails unreadErrorWorld connectedExecutor).2.output, e.type ≠ "error" := by
  refine ⟨rfl, rfl, ?_⟩
  decide

/-- The part of C6 that holds: when the request or the reading of its body raises,
`context.fetchEmails` returns the empty list and the log ends with two `error` events. -/
theorem fetchEmails_request_raises (w : World) (s : Executor) (m : String)
    (hgate : (ensureGmailConnected w s).1 = .ok ())
    (hraise : w.unread (ensureGmailConnected w s).2.tick = .netError m ∨
      ∃ ok, w.unread (ensureGmailConnected w s).2.tick = .badBody ok m) :
    (ctxFetchEmails w s).1 = .ok [] ∧
      (ctxFetchEmails w s).2.output
        = (ensureGmailConnected w s).2.output
          ++ [outputItem (ensureGmailConnected w s).2 "log" " Fetching unread emails..." [],
              outputItem (interact w (ensureGmailConnected w s).2) "error"
                (" Failed to fetch emails: " ++ m) [],
              outputItem (interact w (ensureGmailConnected w s).2) "error"
                ("fetchEmails failed: " ++ m) []] := by
  generalize hg : ensureGmailConnected w s = g at hgate hraise
  obtain ⟨r1, t1⟩ := g
  simp only at hgate hraise
  subst hgate
  rcases hraise with h | ⟨ok, h⟩ <;>
    simp [ctxFetchEmails, fetchUnreadEmails, hg, catchReturn, catchRethrow,
      fetchUnreadEmailsTry, addOutput_tick, h, addOutput, outputItem, interact]

theorem callAI_output_prefix (w : World) (s : Executor) (input task : String) :
    s.output <+: (callAI w s input task).2.output := by
  simp only [callAI, callAITry, addOutput_tick]
  cases w.ai s.tick with
  | netError m => simp [catchRethrow, addOutput, interact]
  | badBody ok m => simp [catchRethrow, addOutput, interact]
  | answer ok data =>
    obtain ⟨text, err, calls⟩ := data
    cases text with
    | none => simp [catchRethrow, addOutput, interact]
    | some text =>
      by_cases hcond : (ok && text != "") = true
      · simp only [hcond, if_true, catchRethrow]
        simp [addOutput, interact]
      · simp only [hcond, Bool.false_eq_true, if_false, catchRethrow]
        simp [addOutput, interact]

theorem callAI_failed (w : World) (s : Executor) (input task : String)
    (h : aiFailed (w.ai s.tick) = true) : ∃ m, (callAI w s input task).1 = .error m := by
  simp only [callAI, callAITry, addOutput_tick]
  cases hai : w.ai s.tick with
  | netError m => exact ⟨m, rfl⟩
  | badBody ok m => exact ⟨m, rfl⟩
  | answer ok data =>
    obtain ⟨text, err, calls⟩ := data
    simp only [hai, aiFailed, truthy] at h
    cases text with
    | none => exact ⟨_, rfl⟩
    | some text =>
      have hcond : (ok && text != "") = false := by
        cases hb : (ok && text != "")
        · rfl
        · simp [hb] at h
      simp only [hcond, Bool.false_eq_true, if_false, catchRethrow]
      exact ⟨_, rfl⟩

theorem generateAIReply_output_prefix (w : World) (s : Executor)
    (emailBody task subject from_ : String) :
    s.output <+: (generateAIReply w s emailBody task subject from_).2.output := by
  simp only [generateAIReply, generateAIReplyTry, addOutput_tick]
  cases w.aiReply s.tick with
  | netError m => simp [catchRethrow, addOutput, interact]
  | badBody ok m => simp [catchRethrow, addOutput, interact]
  | answer ok data =>
    obtain ⟨text, err, calls⟩ := data
    cases text with
    | none => simp [catchRethrow, addOutput, interact]
    | some text =>
      by_cases hcond : (ok && text != "") = true
      · simp only [hcond, if_true, catchRethrow]
        simp [addOutput, interact]
      · simp only [hcond, Bool.false_eq_true, if_false, catchRethrow]
        simp [addOutput, interact]

theorem generateAIReply_failed (w : World) (s : Executor) (emailBody task subject from_ : String)
    (h : aiFailed (w.aiReply s.tick) = true) :
    ∃ m, (generateAIReply w s emailBody task subject from_).1 = .error m := by
  simp only [generateAIReply, generateAIReplyTry, addOutput_tick]
  cases hai : w.aiReply s.tick with
  | netError m => exact ⟨m, rfl⟩
  | badBody ok m => exact ⟨m, rfl⟩
  | answer ok data =>
    obtain ⟨text, err, calls⟩ := data
    simp only [hai, aiFailed, truthy] at h
    cases text with
    | none => exact ⟨_, rfl⟩
    | some text =>
      have hcond : (ok && text != "") = false := by
        cases hb : (ok && text != "")
        · rfl
        · simp [hb] at h
      simp only [hcond, Bool.false_eq_true, if_false, catchRethrow]
      exact ⟨_, rfl⟩

/-- C7: when the AI call fails (the request raises, the body cannot be read, the status
is an error status, or no text comes back), `context.callAI` and `context.generateReply`
do not raise and return the empty string, the events they append end with an `error`
event, and the code goes on with the empty string. -/
theorem ai_failure_swallowed (w : World) (s : Executor) :
    (aiFailed (w.ai s.tick) = true → ∀ input task : String,
        ∃ (s1 : Executor) (evs : List OutputItem) (e : OutputItem),
          ctxCallAI w s input task = (.ok "", s1) ∧
          s1.output = s.output ++ evs ++ [e] ∧ e.type = "error" ∧
          ∀ k : String → Prog, runProg w (.callAI input task k) s = runProg w (k "") s1) ∧
      (aiFailed (w.aiReply s.tick) = true → ∀ body task subject from_ : String,
        ∃ (s1 : Executor) (evs : List OutputItem) (e : OutputItem),
          ctxGenerateReply w s body task subject from_ = (.ok "", s1) ∧
          s1.output = s.output ++ evs ++ [e] ∧ e.type = "error" ∧
          ∀ k : String → Prog,
            runProg w (.generateReply body task subject from_ k) s = runProg w (k "") s1) := by
  constructor
  · intro hfail input task
    obtain ⟨m, hm⟩ := callAI_failed w s input task hfail
    obtain ⟨evs, hevs⟩ := callAI_output_prefix w s input task
    generalize hr : callAI w s input task = r at hm hevs
    obtain ⟨res, t⟩ := r
    simp only at hm hevs
    subst hm
    have h1 : ctxCallAI w s input task
        = (.ok "", addOutput t "error" ("AI call failed: " ++ m) []) := by
      simp [ctxCallAI, hr, catchReturn]
    refine ⟨_, evs, outputItem t "error" ("AI call failed: " ++ m) [], h1, ?_, rfl, ?_⟩
    · rw [addOutput_output, hevs]
    · intro k
      simp [runProg, h1]
  · intro hfail body task subject from_
    obtain ⟨m, hm⟩ := generateAIReply_failed w s body task subject from_ hfail
    obtain ⟨evs, hevs⟩ := generateAIReply_output_prefix w s body task subject from_
    generalize hr : generateAIReply w s body task subject from_ = r at hm hevs
    obtain ⟨res, t⟩ := r
    simp only at hm hevs
    subst hm
    have h1 : ctxGenerateReply w s body task subject from_
        = (.ok "", addOutput t "error" ("generateReply failed: " ++ m) []) := by
      simp [ctxGenerateReply, hr, catchReturn]
    refine ⟨_, evs, outputItem t "error" ("generateReply failed: " ++ m) [], h1, ?_, rfl, ?_⟩
    · rw [addOutput_output, hevs]
    · intro k
      simp [runProg, h1]

theorem ai_failure_swallowed_witness :
    aiFailed (downWorld.ai connectedExecutor.tick) = true ∧
      aiFailed (downWorld.aiReply connectedExecutor.tick) = true ∧
      (∃ (s1 : Executor) (evs : List OutputItem) (e : OutputItem),
        ctxCallAI downWorld connectedExecutor "text" "summarise" = (.ok "", s1) ∧
        s1.output = connectedExecutor.output ++ evs ++ [e] ∧ e.type = "error" ∧
        ∀ k : String → Prog,
          runProg downWorld (.callAI "text" "summarise" k) connectedExecutor
            = runProg downWorld (k "") s1) ∧
      (∃ (s1 : Executor) (evs : List OutputItem) (e : OutputItem),
        ctxGenerateReply downWorld connectedExecutor "body" "reply" "Order" "a@example.com"
          = (.ok "", s1) ∧
        s1.output = connectedExecutor.output ++ evs ++ [e] ∧ e.type = "error" ∧
        ∀ k : String → Prog,
          runProg downWorld (.generateReply "body" "reply" "Order" "a@example.com" k)
            connectedExecutor = runProg downWorld (k "") s1) :=
  ⟨rfl, rfl,
    (ai_failure_swallowed downWorld connectedExecutor).1 rfl "text" "summarise",
    (ai_failure_swallowed downWorld connectedExecutor).2 rfl "body" "reply" "Order"
      "a@example.com"⟩


/-! ## Theorems: the authorization gate -/

theorem waitLoop_output (w : World) (startTime rounds : Nat) (s : Executor) :
    (waitLoop w startTime rounds s).output = s.output := by
  induction rounds generalizing s with
  | zero => rfl
  | succ n ih =>
    simp only [waitLoop]
    split
    · rw [ih]; rfl
    · rfl

theorem waitLoop_hookCalls (w : World) (startTime rounds : Nat) (s : Executor) :
    (waitLoop w startTime rounds s).hookCalls = s.hookCalls := by
  induction rounds generalizing s with
  | zero => rfl
  | succ n ih =>
    simp only [waitLoop]
    split
    · rw [ih]; rfl
    · rfl

theorem waitLoop_notified (w : World) (startTime rounds : Nat) (s : Executor) :
    (waitLoop w startTime rounds s).notified = s.notified := by
  induction rounds generalizing s with
  | zero => rfl
  | succ n ih =>
    simp only [waitLoop]
    split
    · rw [ih]; rfl
    · rfl

/-- The one event the gate appends. -/
theorem ensureGmailConnected_output (w : World) (s : Executor) :
    (ensureGmailConnected w s).2.output
      = if s.gmailConnected then s.output
        else s.output ++ [outputItem s "warning" "  Gmail connection required" []] := by
  unfold ensureGmailConnected
  by_cases hc : s.gmailConnected = true
  · simp [hc]
  · simp only [hc, Bool.false_eq_true, if_false]
    split
    · split
      · rfl
      · split
        · rw [waitLoop_output]; rfl
        · rw [waitLoop_output]; rfl
    · rfl

/-- C9: `ensureGmailConnected` on an authorized gate appends nothing and does not invoke
the hook (it returns at once, leaving the executor as it was); on an unauthorized gate it appends exactly one `warning` event
and, when a hook was supplied, invokes it exactly once, with the warning already in the
log (without a hook none is invoked). -/
theorem ensureGmailConnected_effects (w : World) (s : Executor) :
    (ensureGmailConnected w s).2.output
        = (if s.gmailConnected then s.output
           else s.output ++ [{ type := "warning", content := "  Gmail connection required",
                               timestamp := s.now, metadata := [] }]) ∧
      (ensureGmailConnected w s).2.hookCalls
        = (if s.gmailConnected then s.hookCalls
           else if s.onGmailRequired then s.hookCalls ++ [s.output.length + 1]
           else s.hookCalls) ∧
      ensureGmailConnected w (setGmailStatus s true) = (.ok (), setGmailStatus s true) := by
  refine ⟨ensureGmailConnected_output w s, ?_, ?_⟩
  · unfold ensureGmailConnected
    by_cases hc : s.gmailConnected = true
    · simp [hc]
    · simp only [hc, Bool.false_eq_true, if_false]
      by_cases hh : s.onGmailRequired = true
      · have hh1 : (addOutput s "warning" "  Gmail connection required" []).onGmailRequired
            = true := hh
        simp only [hh1, hh, if_true]
        split
        · simp [invokeHook, addOutput]
        · split
          · rw [waitLoop_hookCalls]; simp [invokeHook, addOutput]
          · rw [waitLoop_hookCalls]; simp [invokeHook, addOutput]
      · have hh1 : ¬ (addOutput s "warning" "  Gmail connection required" []).onGmailRequired
            = true := hh
        simp only [hh1, hh, Bool.false_eq_true, if_false]
        rfl
  · simp [ensureGmailConnected, setGmailStatus]

theorem ensureGmailConnected_output_prefix (w : World) (s : Executor) :
    s.output <+: (ensureGmailConnected w s).2.output := by
  rw [ensureGmailConnected_output]
  split
  · exact List.prefix_refl _
  · exact List.prefix_append _ _


/-- C8 as stated fails: the mark-read service answers with an OK status but a body that
is not JSON, and `context.markRead` returns false. -/
theorem markRead_ok_status_counterexample :
    (ensureGmailConnected markBadBodyWorld connectedExecutor).1 = .ok () ∧
      answeredOk (markBadBodyWorld.markread
        (ensureGmailConnected markBadBodyWorld connectedExecutor).2.tick) = true ∧
      (ctxMarkRead markBadBodyWorld connectedExecutor "m1").1 = .ok false := by
  refine ⟨rfl, rfl, rfl⟩

/-- C8, amended: for every email id and every outcome of the gate and of the mark-read
call, `context.markRead` does not raise; it returns true exactly when the gate let the
call through and the service answered with an OK status and a body that parses as JSON;
in every other case the last event it appends is a `warning` and it returns false; the
code goes on with the returned value. -/
theorem markRead_never_raises (w : World) (s : Executor) (emailId : String) :
    ∃ (b : Bool) (s1 : Executor),
      ctxMarkRead w s emailId = (.ok b, s1) ∧
      (b = true ↔ ((ensureGmailConnected w s).1 = .ok () ∧
        answeredOkJson (w.markread (ensureGmailConnected w s).2.tick) = true)) ∧
      (b = false → ∃ (evs : List OutputItem) (e : OutputItem),
        s1.output = s.output ++ evs ++ [e] ∧ e.type = "warning") ∧
      (∀ k : Bool → Prog, runProg w (.markRead emailId k) s = runProg w (k b) s1) := by
  obtain ⟨pre, hpre⟩ := ensureGmailConnected_output_prefix w s
  generalize hg : ensureGmailConnected w s = g at hpre
  obtain ⟨r1, t1⟩ := g
  simp only at hpre
  have hrun : ∀ (b : Bool) (s1 : Executor), ctxMarkRead w s emailId = (.ok b, s1) →
      ∀ k : Bool → Prog, runProg w (.markRead emailId k) s = runProg w (k b) s1 := by
    intro b s1 h k
    simp [runProg, h]
  cases r1 with
  | error m =>
    have h1 : ctxMarkRead w s emailId
        = (.ok false, addOutput t1 "warning" ("markRead failed: " ++ m) []) := by
      simp [ctxMarkRead, markEmailAsRead, hg, catchReturn]
    refine ⟨false, _, h1, by simp, fun _ =>
      ⟨pre, outputItem t1 "warning" ("markRead failed: " ++ m) [], ?_, rfl⟩, hrun _ _ h1⟩
    rw [addOutput_output, ← hpre]
  | ok u =>
    cases hmark : w.markread t1.tick with
    | netError m =>
      have h1 : ctxMarkRead w s emailId
          = (.ok false, addOutput (interact w t1) "warning" ("  Mark as read error: " ++ m) []) := by
        simp [ctxMarkRead, markEmailAsRead, hg, catchReturn, markEmailAsReadTry, hmark]
      refine ⟨false, _, h1, by simp [answeredOkJson], fun _ =>
        ⟨pre, outputItem (interact w t1) "warning" ("  Mark as read error: " ++ m) [], ?_, rfl⟩,
        hrun _ _ h1⟩
      rw [addOutput_output, hpre]; rfl
    | badBody ok m =>
      have h1 : ctxMarkRead w s emailId
          = (.ok false, addOutput (interact w t1) "warning" ("  Mark as read error: " ++ m) []) := by
        simp [ctxMarkRead, markEmailAsRead, hg, catchReturn, markEmailAsReadTry, hmark]
      refine ⟨false, _, h1, by simp [answeredOkJson], fun _ =>
        ⟨pre, outputItem (interact w t1) "warning" ("  Mark as read error: " ++ m) [], ?_, rfl⟩,
        hrun _ _ h1⟩
      rw [addOutput_output, hpre]; rfl
    | answer ok data =>
      cases ok with
      | true =>
        have h1 : ctxMarkRead w s emailId
            = (.ok true, addOutput (interact w t1) "log" " Email marked as read" []) := by
          simp [ctxMarkRead, markEmailAsRead, hg, catchReturn, markEmailAsReadTry, hmark]
        exact ⟨true, _, h1, by simp [answeredOkJson], by simp, hrun _ _ h1⟩
      | false =>
        have h1 : ctxMarkRead w s emailId
            = (.ok false, addOutput (interact w t1) "warning"
                ("  Could not mark email as read: " ++ render data.error) []) := by
          simp [ctxMarkRead, markEmailAsRead, hg, catchReturn, markEmailAsReadTry, hmark]
        refine ⟨false, _, h1, by simp [answeredOkJson], fun _ =>
          ⟨pre, outputItem (interact w t1) "warning"
            ("  Could not mark email as read: " ++ render data.error) [], ?_, rfl⟩, hrun _ _ h1⟩
        rw [addOutput_output, hpre]; rfl


theorem waitLoop_of_connected (w : World) (startTime rounds : Nat) (s : Executor)
    (h : s.gmailConnected = true) : waitLoop w startTime rounds s = s := by
  cases rounds with
  | zero => rfl
  | succ n => simp [waitLoop, h]

/-- The bound on the rounds is never what ends the loop: when it returns, the flag is
set or the budget is spent. -/
theorem waitLoop_exit (w : World) (startTime : Nat) (rounds : Nat) (s : Executor)
    (hstart : startTime ≤ s.now)
    (hrounds : maxWait ≤ (s.now - startTime) + pollInterval * rounds) :
    (waitLoop w startTime rounds s).gmailConnected = true ∨
      maxWait ≤ (waitLoop w startTime rounds s).now - startTime := by
  induction rounds generalizing s with
  | zero =>
    right
    simpa [waitLoop] using hrounds
  | succ n ih =>
    simp only [waitLoop]
    split
    · apply ih
      · simp only [pollStep]; omega
      · simp only [pollStep, pollInterval] at *; omega
    · rename_i hcond
      simp only [Bool.and_eq_true, Bool.not_eq_true', decide_eq_true_eq, not_and, not_lt] at hcond
      by_cases hc : s.gmailConnected = true
      · exact Or.inl hc
      · right
        exact hcond (by simpa using hc)

theorem waitStart_ge (w : World) (tick now j : Nat) :
    now + pollInterval * j ≤ waitStart w tick now j := by
  induction j generalizing tick now with
  | zero => simp [waitStart]
  | succ n ih =>
    simp only [waitStart]
    have := ih (tick + 1) (now + pollInterval + w.elapsed tick)
    simp only [pollInterval] at *
    omega

/-- A status update to connected that arrives during a wait which starts within the
budget ends the loop with the flag set. -/
theorem waitLoop_connects (w : World) (startTime : Nat) (j : Nat) :
    ∀ (rounds : Nat) (s : Executor), startTime ≤ s.now →
      w.poll (s.tick + j) = some true →
      waitStart w s.tick s.now j - startTime < maxWait →
      j < rounds →
      (waitLoop w startTime rounds s).gmailConnected = true := by
  induction j with
  | zero =>
    intro rounds s hstart hpoll htime hlt
    obtain ⟨n, rfl⟩ : ∃ n, rounds = n + 1 := ⟨rounds - 1, by omega⟩
    by_cases hc : s.gmailConnected = true
    · rw [waitLoop_of_connected w startTime _ s hc]; exact hc
    · simp only [waitStart] at htime
      have hp : (pollStep w s).gmailConnected = true := by
        simp only [Nat.add_zero] at hpoll
        simp [pollStep, hpoll]
      simp only [waitLoop]
      have hcond : (!s.gmailConnected && decide (s.now - startTime < maxWait)) = true := by
        simp [hc, htime]
      rw [if_pos hcond, waitLoop_of_connected w startTime _ _ hp]
      exact hp
  | succ i ih =>
    intro rounds s hstart hpoll htime hlt
    obtain ⟨n, rfl⟩ : ∃ n, rounds = n + 1 := ⟨rounds - 1, by omega⟩
    by_cases hc : s.gmailConnected = true
    · rw [waitLoop_of_connected w startTime _ s hc]; exact hc
    · simp only [waitStart] at htime
      have hge := waitStart_ge w (s.tick + 1) (s.now + pollInterval + w.elapsed s.tick) i
      have hnow : s.now - startTime < maxWait := by
        omega
      simp only [waitLoop]
      have hcond : (!s.gmailConnected && decide (s.now - startTime < maxWait)) = true := by
        simp [hc, hnow]
      rw [if_pos hcond]
      apply ih n (pollStep w s)
      · simp only [pollStep]; omega
      · have : (pollStep w s).tick + i = s.tick + (i + 1) := by
          simp only [pollStep]; omega
        rw [this]; exact hpoll
      · exact htime
      · omega


theorem previewEach_output_prefix (emails : List Email) (index : Nat) (s : Executor) :
    s.output <+: (previewEach emails index s).2.output := by
  induction emails generalizing index s with
  | nil => exact List.prefix_refl _
  | cons e rest ih =>
    simp only [previewEach]
    split
    · exact List.prefix_refl _
    · rename_i text _
      have h1 : s.output <+: (addOutput s "email-preview" (previewContent index e text)
          [("emailData", Value.email e)]).output := List.prefix_append _ _
      exact List.IsPrefix.trans h1 (ih _ _)

/-- The events of `fetchUnreadEmails` once the gate has let the call through and the
service has answered: the `log` event, then a `success` or `info` event. -/
theorem fetchUnreadEmailsTry_answer (w : World) (s : Executor) (ok : Bool) (data : UnreadData)
    (h : w.unread s.tick = .answer ok data) :
    ∃ (ev : OutputItem) (rest : List OutputItem),
      (catchRethrow "error" " Failed to fetch emails: "
        (fetchUnreadEmailsTry w (addOutput s "log" " Fetching unread emails..." []))).2.output
        = s.output ++ [outputItem s "log" " Fetching unread emails..." [], ev] ++ rest ∧
      (ev.type = "success" ∨ ev.type = "info") := by
  obtain ⟨emails, err⟩ := data
  simp only [fetchUnreadEmailsTry, addOutput_tick, h]
  match emails with
  | none =>
    exact ⟨_, [], by simp [catchRethrow, addOutput, interact]; rfl, Or.inr rfl⟩
  | some [] =>
    exact ⟨_, [], by simp [catchRethrow, addOutput, interact]; rfl, Or.inr rfl⟩
  | some (e :: more) =>
    simp only []
    generalize hs1 : addOutput (interact w (addOutput s "log" " Fetching unread emails..." []))
      "success" (" Found " ++ toString (e :: more).length ++ " unread email(s)")
      [("count", Value.num (e :: more).length)] = s1
    have hs1out : s1.output = s.output ++ [outputItem s "log" " Fetching unread emails..." [],
        outputItem (interact w (addOutput s "log" " Fetching unread emails..." [])) "success"
          (" Found " ++ toString (e :: more).length ++ " unread email(s)")
          [("count", Value.num (e :: more).length)]] := by
      rw [← hs1]
      simp [addOutput, interact]
    obtain ⟨pre, hpre⟩ := previewEach_output_prefix (e :: more) 0 s1
    generalize hr : previewEach (e :: more) 0 s1 = r at hpre
    obtain ⟨res, s2⟩ := r
    simp only at hpre
    cases res with
    | ok u =>
      refine ⟨outputItem (interact w (addOutput s "log" " Fetching unread emails..." []))
        "success" (" Found " ++ toString (e :: more).length ++ " unread email(s)")
        [("count", Value.num (e :: more).length)], pre, ?_, Or.inl rfl⟩
      simp only [catchRethrow]
      rw [← hpre, hs1out]
    | error m =>
      refine ⟨outputItem (interact w (addOutput s "log" " Fetching unread emails..." []))
        "success" (" Found " ++ toString (e :: more).length ++ " unread email(s)")
        [("count", Value.num (e :: more).length)],
        pre ++ [outputItem s2 "error" (" Failed to fetch emails: " ++ m) []], ?_, Or.inl rfl⟩
      simp only [catchRethrow, addOutput_output]
      rw [← hpre, hs1out]
      simp


/-- C10: on an unauthorized gate with a hook that returns normally,
`ensureGmailConnected` polls until the flag is set or the 30 s budget is spent (60 rounds
of 500 ms always suffice), and raises the connection-timeout error exactly when the flag
is still false at that moment.  If `setGmailStatus(true)` is called while the hook runs,
or during a wait that starts within the budget, it returns normally with the flag set;
and then a fetch whose request is answered appends exactly one `warning` event and the
`log` event before its `success` or `info` event. -/
theorem ensureGmailConnected_timeout_iff (w : World) (s : Executor)
    (hc : s.gmailConnected = false) (hh : s.onGmailRequired = true)
    (hret : (w.hook s.tick).thrown = none) :
    ensureGmailConnected w s
        = (if (waitLoop w (invokeHook w (addOutput s "warning" "  Gmail connection required" [])).now
              maxRounds (invokeHook w (addOutput s "warning" "  Gmail connection required" []))
              ).gmailConnected
           then .ok () else .error timeoutMessage,
           waitLoop w (invokeHook w (addOutput s "warning" "  Gmail connection required" [])).now
              maxRounds (invokeHook w (addOutput s "warning" "  Gmail connection required" []))) ∧
      ((ensureGmailConnected w s).2.gmailConnected = true ∨
        maxWait ≤ (ensureGmailConnected w s).2.now
          - (invokeHook w (addOutput s "warning" "  Gmail connection required" [])).now) ∧
      ((ensureGmailConnected w s).1 = .error timeoutMessage
        ↔ (ensureGmailConnected w s).2.gmailConnected = false) ∧
      ((ensureGmailConnected w s).1 = .ok ()
        ↔ (ensureGmailConnected w s).2.gmailConnected = true) ∧
      ((w.hook s.tick).status = some true →
        (ensureGmailConnected w s).1 = .ok () ∧
        (ensureGmailConnected w s).2.gmailConnected = true) ∧
      (∀ j : Nat, w.poll (s.tick + 1 + j) = some true →
        waitStart w (s.tick + 1) (s.now + w.elapsed s.tick) j - (s.now + w.elapsed s.tick)
          < maxWait →
        (ensureGmailConnected w s).1 = .ok () ∧
        (ensureGmailConnected w s).2.gmailConnected = true) ∧
      ((ensureGmailConnected w s).2.gmailConnected = true →
        ∀ (ok : Bool) (data : UnreadData),
          w.unread (ensureGmailConnected w s).2.tick = .answer ok data →
          ∃ (ev : OutputItem) (rest : List OutputItem),
            (fetchUnreadEmails w s).2.output
              = s.output
                ++ [{ type := "warning", content := "  Gmail connection required",
                      timestamp := s.now, metadata := [] },
                    { type := "log", content := " Fetching unread emails...",
                      timestamp := (ensureGmailConnected w s).2.now, metadata := [] },
                    ev]
                ++ rest ∧
            (ev.type = "success" ∨ ev.type = "info")) := by
  generalize hs2 : invokeHook w (addOutput s "warning" "  Gmail connection required" []) = s2
  have hs2now : s2.now = s.now + w.elapsed s.tick := by rw [← hs2]; rfl
  have hs2tick : s2.tick = s.tick + 1 := by rw [← hs2]; rfl
  have hs2out : s2.output = s.output ++ [outputItem s "warning" "  Gmail connection required" []] := by
    rw [← hs2]; rfl
  generalize hs3 : waitLoop w s2.now maxRounds s2 = s3
  have hens : ensureGmailConnected w s
      = (if s3.gmailConnected then .ok () else .error timeoutMessage, s3) := by
    unfold ensureGmailConnected
    have hh1 : (addOutput s "warning" "  Gmail connection required" []).onGmailRequired
        = true := hh
    have hret1 : (w.hook (addOutput s "warning" "  Gmail connection required" []).tick).thrown
        = none := hret
    simp only [hc, Bool.false_eq_true, if_false, hh1, if_true, hret1, hs2, hs3]
    split <;> rfl
  have hexit : s3.gmailConnected = true ∨ maxWait ≤ s3.now - s2.now := by
    rw [← hs3]
    apply waitLoop_exit w s2.now maxRounds s2 (Nat.le_refl _)
    simp [maxWait, pollInterval, maxRounds]
  have hs3out : s3.output = s2.output := by rw [← hs3]; exact waitLoop_output w _ _ _
  have hfst : ∀ b : Bool, s3.gmailConnected = b →
      (ensureGmailConnected w s).1 = (if b then .ok () else .error timeoutMessage) := by
    intro b hb
    rw [hens, hb]
  have hsnd : (ensureGmailConnected w s).2 = s3 := by rw [hens]
  refine ⟨hens, ?_, ?_, ?_, ?_, ?_, ?_⟩
  · rw [hsnd]; exact hexit
  · rw [hsnd]
    cases hb : s3.gmailConnected
    · simp [hfst false hb]
    · simp [hfst true hb]
  · rw [hsnd]
    cases hb : s3.gmailConnected
    · simp [hfst false hb]
    · simp [hfst true hb]
  · intro hst
    have hc2 : s2.gmailConnected = true := by
      rw [← hs2]; simp [invokeHook, addOutput, hst]
    have hb : s3.gmailConnected = true := by
      rw [← hs3, waitLoop_of_connected w _ _ s2 hc2]; exact hc2
    rw [hsnd]
    exact ⟨by simp [hfst true hb], hb⟩
  · intro j hpoll htime
    have hb : s3.gmailConnected = true := by
      rw [← hs3]
      apply waitLoop_connects w s2.now j maxRounds s2 (Nat.le_refl _)
      · rw [hs2tick]; exact hpoll
      · rw [hs2tick, hs2now]; exact htime
      · have hge := waitStart_ge w (s.tick + 1) (s.now + w.elapsed s.tick) j
        simp only [maxWait, pollInterval, maxRounds] at *
        omega
    rw [hsnd]
    exact ⟨by simp [hfst true hb], hb⟩
  · rw [hsnd]
    intro hb ok data hunread
    obtain ⟨ev, rest, hout, hty⟩ := fetchUnreadEmailsTry_answer w s3 ok data hunread
    refine ⟨ev, rest, ?_, hty⟩
    have hf : fetchUnreadEmails w s
        = catchRethrow "error" " Failed to fetch emails: "
            (fetchUnreadEmailsTry w (addOutput s3 "log" " Fetching unread emails..." [])) := by
      simp [fetchUnreadEmails, hens, hb]
    rw [hf, hout, hs3out, hs2out]
    simp [outputItem]

theorem ensureGmailConnected_timeout_iff_witness :
    (startRun connectingWorld hookedExecutor true).gmailConnected = false ∧
      (startRun connectingWorld hookedExecutor true).onGmailRequired = true ∧
      (connectingWorld.hook (startRun connectingWorld hookedExecutor true).tick).thrown = none ∧
      ((ensureGmailConnected connectingWorld (startRun connectingWorld hookedExecutor true)).1
          = .ok ()
        ↔ (ensureGmailConnected connectingWorld
            (startRun connectingWorld hookedExecutor true)).2.gmailConnected = true) ∧
      (ensureGmailConnected connectingWorld (startRun connectingWorld hookedExecutor true)).1
        = .ok () :=
  ⟨rfl, rfl, rfl,
    (ensureGmailConnected_timeout_iff connectingWorld
      (startRun connectingWorld hookedExecutor true) rfl rfl rfl).2.2.2.1,
    ((ensureGmailConnected_timeout_iff connectingWorld
      (startRun connectingWorld hookedExecutor true) rfl rfl rfl).2.2.2.2.2.1 0 rfl
        (by decide)).1⟩


/-! ## Theorems: every method is a sequence of elementary changes -/

theorem Reach.stay (w : World) (s : Executor) : Reach w s s :=
  Relation.ReflTransGen.refl

theorem Reach.followedBy {w : World} {s t u : Executor} (h1 : Reach w s t) (h2 : Reach w t u) :
    Reach w s u :=
  Relation.ReflTransGen.trans h1 h2

theorem Reach.prim {w : World} {s t : Executor} (h : Prim w s t) : Reach w s t :=
  Relation.ReflTransGen.single h

theorem reach_addOutput (w : World) (s : Executor) (type content : String)
    (metadata : List (String × Value)) : Reach w s (addOutput s type content metadata) :=
  Reach.prim (Prim.addOutput s type content metadata)

theorem reach_interact (w : World) (s : Executor) : Reach w s (interact w s) :=
  Reach.prim (Prim.interact s)

theorem reach_catchRethrow {α : Type} (w : World) (s : Executor) (type label : String)
    (r : Except String α × Executor) (h : Reach w s r.2) :
    Reach w s (catchRethrow type label r).2 := by
  obtain ⟨res, t⟩ := r
  cases res with
  | ok v => exact h
  | error m => exact h.followedBy (reach_addOutput w t _ _ _)

theorem reach_catchReturn {α : Type} (w : World) (s : Executor) (type label : String) (dflt : α)
    (r : Except String α × Executor) (h : Reach w s r.2) :
    Reach w s (catchReturn type label dflt r).2 := by
  obtain ⟨res, t⟩ := r
  cases res with
  | ok v => exact h
  | error m => exact h.followedBy (reach_addOutput w t _ _ _)

theorem reach_waitLoop (w : World) (startTime rounds : Nat) (s : Executor) :
    Reach w s (waitLoop w startTime rounds s) := by
  induction rounds generalizing s with
  | zero => exact Reach.stay w s
  | succ n ih =>
    simp only [waitLoop]
    split
    · exact (Reach.prim (Prim.poll s)).followedBy (ih _)
    · exact Reach.stay w s

theorem reach_ensureGmailConnected (w : World) (s : Executor) :
    Reach w s (ensureGmailConnected w s).2 := by
  unfold ensureGmailConnected
  split
  · exact Reach.stay w s
  · have h1 := reach_addOutput w s "warning" "  Gmail connection required" []
    dsimp only
    split
    · have h2 := h1.followedBy (Reach.prim (Prim.hook _))
      split
      · exact h2
      · have h3 := h2.followedBy (reach_waitLoop w
          (invokeHook w (addOutput s "warning" "  Gmail connection required" [])).now maxRounds _)
        split <;> exact h3
    · exact h1

theorem reach_previewEach (w : World) (emails : List Email) (index : Nat) (s : Executor) :
    Reach w s (previewEach emails index s).2 := by
  induction emails generalizing index s with
  | nil => exact Reach.stay w s
  | cons e rest ih =>
    simp only [previewEach]
    split
    · exact Reach.stay w s
    · exact (reach_addOutput w s _ _ _).followedBy (ih _ _)

theorem reach_fetchUnreadEmailsTry (w : World) (s : Executor) :
    Reach w s (fetchUnreadEmailsTry w s).2 := by
  unfold fetchUnreadEmailsTry
  split
  · exact reach_interact w s
  · exact reach_interact w s
  · split
    · rename_i e rest _
      have h := ((reach_interact w s).followedBy (reach_addOutput w (interact w s) "success"
        (" Found " ++ toString (e :: rest).length ++ " unread email(s)")
        [("count", .num (e :: rest).length)])).followedBy (reach_previewEach w (e :: rest) 0 _)
      dsimp only
      split
      · rename_i heq; rw [heq] at h; exact h
      · rename_i heq; rw [heq] at h; exact h
    · exact (reach_interact w s).followedBy (reach_addOutput w _ _ _ _)

theorem reach_fetchUnreadEmails (w : World) (s : Executor) :
    Reach w s (fetchUnreadEmails w s).2 := by
  unfold fetchUnreadEmails
  have hg := reach_ensureGmailConnected w s
  split
  · simp_all
  · rename_i u s1 heq
    rw [heq] at hg
    apply reach_catchRethrow
    exact (hg.followedBy (reach_addOutput w s1 _ _ _)).followedBy (reach_fetchUnreadEmailsTry w _)

theorem reach_generateAIReplyTry (w : World) (s : Executor) :
    Reach w s (generateAIReplyTry w s).2 := by
  unfold generateAIReplyTry
  split
  · exact reach_interact w s
  · exact reach_interact w s
  · split
    · split <;> exact (reach_interact w s).followedBy (reach_addOutput w _ _ _ _)
    · exact (reach_interact w s).followedBy (reach_addOutput w _ _ _ _)

theorem reach_generateAIReply (w : World) (s : Executor) (emailBody task subject from_ : String) :
    Reach w s (generateAIReply w s emailBody task subject from_).2 := by
  unfold generateAIReply
  apply reach_catchRethrow
  exact (reach_addOutput w s _ _ _).followedBy (reach_generateAIReplyTry w _)

theorem reach_callAITry (w : World) (s : Executor) : Reach w s (callAITry w s).2 := by
  unfold callAITry
  split
  · exact reach_interact w s
  · exact reach_interact w s
  · split
    · split <;> exact (reach_interact w s).followedBy (reach_addOutput w _ _ _ _)
    · exact (reach_interact w s).followedBy (reach_addOutput w _ _ _ _)

theorem reach_callAI (w : World) (s : Executor) (input task : String) :
    Reach w s (callAI w s input task).2 := by
  unfold callAI
  apply reach_catchRethrow
  exact (reach_addOutput w s _ _ _).followedBy (reach_callAITry w _)

theorem reach_sendEmailReplyTry (w : World) (s : Executor) :
    Reach w s (sendEmailReplyTry w s).2 := by
  unfold sendEmailReplyTry
  split
  · exact reach_interact w s
  · exact reach_interact w s
  · split
    · split <;> exact (reach_interact w s).followedBy (reach_addOutput w _ _ _ _)
    · exact (reach_interact w s).followedBy (reach_addOutput w _ _ _ _)

theorem reach_sendEmailReply (w : World) (s : Executor)
    (emailId replyBody subject to_ threadId : String) :
    Reach w s (sendEmailReply w s emailId replyBody subject to_ threadId).2 := by
  unfold sendEmailReply
  have hg := reach_ensureGmailConnected w s
  split
  · simp_all
  · rename_i u s1 heq
    rw [heq] at hg
    apply reach_catchRethrow
    exact ((hg.followedBy (reach_addOutput w s1 _ _ _)).followedBy (reach_addOutput w _ _ _ _)).followedBy
      (reach_sendEmailReplyTry w _)

theorem reach_markEmailAsReadTry (w : World) (s : Executor) :
    Reach w s (markEmailAsReadTry w s).2 := by
  unfold markEmailAsReadTry
  split
  · exact reach_interact w s
  · exact reach_interact w s
  · split <;> exact (reach_interact w s).followedBy (reach_addOutput w _ _ _ _)

theorem reach_markEmailAsRead (w : World) (s : Executor) (emailId : String) :
    Reach w s (markEmailAsRead w s emailId).2 := by
  unfold markEmailAsRead
  have hg := reach_ensureGmailConnected w s
  split
  · simp_all
  · rename_i u s1 heq
    rw [heq] at hg
    apply reach_catchReturn
    exact hg.followedBy (reach_markEmailAsReadTry w _)

theorem reach_ctxFetchEmails (w : World) (s : Executor) : Reach w s (ctxFetchEmails w s).2 :=
  reach_catchReturn w s _ _ _ _ (reach_fetchUnreadEmails w s)

theorem reach_ctxGenerateReply (w : World) (s : Executor) (body task subject from_ : String) :
    Reach w s (ctxGenerateReply w s body task subject from_).2 :=
  reach_catchReturn w s _ _ _ _ (reach_generateAIReply w s body task subject from_)

theorem reach_ctxSendReply (w : World) (s : Executor)
    (emailId replyBody subject to_ threadId : String) :
    Reach w s (ctxSendReply w s emailId replyBody subject to_ threadId).2 :=
  reach_catchRethrow w s _ _ _ (reach_sendEmailReply w s emailId replyBody subject to_ threadId)

theorem reach_ctxSendReplyNonText (w : World) (s : Executor) (to_ : String) :
    Reach w s (ctxSendReplyNonText w s to_).2 := by
  have h : Reach w s (sendEmailReplyNonText w s to_).2 := by
    unfold sendEmailReplyNonText
    have hg := reach_ensureGmailConnected w s
    split
    · rename_i heq; rw [heq] at hg; exact hg
    · rename_i heq; rw [heq] at hg; exact hg.followedBy (reach_addOutput w _ _ _ _)
  exact h.followedBy (reach_addOutput w _ _ _ _)

theorem reach_ctxMarkRead (w : World) (s : Executor) (emailId : String) :
    Reach w s (ctxMarkRead w s emailId).2 :=
  reach_catchReturn w s _ _ _ _ (reach_markEmailAsRead w s emailId)

theorem reach_ctxCallAI (w : World) (s : Executor) (input task : String) :
    Reach w s (ctxCallAI w s input task).2 :=
  reach_catchReturn w s _ _ _ _ (reach_callAI w s input task)

theorem ReachW.stayW (w : World) (s : Executor) : ReachW w s s :=
  Relation.ReflTransGen.refl

theorem ReachW.followedByW {w : World} {s t u : Executor} (h1 : ReachW w s t) (h2 : ReachW w t u) :
    ReachW w s u :=
  Relation.ReflTransGen.trans h1 h2

theorem Reach.toW {w : World} {s t : Executor} (h : Reach w s t) : ReachW w s t :=
  Relation.ReflTransGen.mono (fun _ _ hp => Change.prim hp) h

theorem reach_ctxSetVariable (w : World) (s : Executor) (name : String) (value : Value) :
    ReachW w s (ctxSetVariable s name value) :=
  ReachW.followedByW (Relation.ReflTransGen.single (Change.write s name value))
    (reach_addOutput w _ _ _ _).toW

theorem reach_runProg (w : World) (p : Prog) (s : Executor) : ReachW w s (runProg w p s).2 := by
  induction p generalizing s with
  | done => exact ReachW.stayW w s
  | throw m => exact ReachW.stayW w s
  | log message k ih => exact (reach_addOutput w s _ _ _).toW.followedByW (ih _)
  | output message k ih => exact (reach_addOutput w s _ _ _).toW.followedByW (ih _)
  | fetchEmails k ih =>
    have h := (reach_ctxFetchEmails w s).toW
    simp only [runProg]
    split
    · rename_i heq; rw [heq] at h; exact h.followedByW (ih _ _)
    · rename_i heq; rw [heq] at h; exact h
  | generateReply body task subject from_ k ih =>
    have h := (reach_ctxGenerateReply w s body task subject from_).toW
    simp only [runProg]
    split
    · rename_i heq; rw [heq] at h; exact h.followedByW (ih _ _)
    · rename_i heq; rw [heq] at h; exact h
  | sendReply emailId replyBody subject to_ threadId k hd ihk ihh =>
    have h := (reach_ctxSendReply w s emailId replyBody subject to_ threadId).toW
    simp only [runProg]
    split
    · rename_i heq; rw [heq] at h; exact h.followedByW (ihk _ _)
    · rename_i heq; rw [heq] at h; exact h.followedByW (ihh _ _)
  | sendReplyNonText to_ hd ihh =>
    exact (reach_ctxSendReplyNonText w s to_).toW.followedByW (ihh _ _)
  | markRead emailId k ih =>
    have h := (reach_ctxMarkRead w s emailId).toW
    simp only [runProg]
    split
    · rename_i heq; rw [heq] at h; exact h.followedByW (ih _ _)
    · rename_i heq; rw [heq] at h; exact h
  | callAI input task k ih =>
    have h := (reach_ctxCallAI w s input task).toW
    simp only [runProg]
    split
    · rename_i heq; rw [heq] at h; exact h.followedByW (ih _ _)
    · rename_i heq; rw [heq] at h; exact h
  | setVariable name value k ih => exact (reach_ctxSetVariable w s name value).followedByW (ih _)
  | getVariable name k ih => exact ih _ _
  | inputData field k ih => exact ih _ _

theorem reach_runWrapped (w : World) (p : Prog) (s : Executor) :
    ReachW w s (runWrapped w p s).2 := by
  have h := reach_runProg w p s
  unfold runWrapped
  split
  · rename_i heq; rw [heq] at h; exact h
  · rename_i heq; rw [heq] at h; exact h.followedByW (reach_addOutput w _ _ _ _).toW

theorem reach_finishRun (w : World) (r : Except String Unit × Executor) :
    Reach w r.2 (finishRun r).2 := by
  obtain ⟨res, t⟩ := r
  cases res with
  | ok u => exact reach_addOutput w t _ _ _
  | error m => exact reach_addOutput w t _ _ _

/-- After the start of a run only elementary changes happen. -/
theorem reach_execute (w : World) (s : Executor) (code : Code) (onOutputCallback : Bool) :
    ReachW w (startRun w s onOutputCallback) (execute w s code onOutputCallback).2 := by
  cases code with
  | invalid m => exact (reach_finishRun w (.error m, startRun w s onOutputCallback)).toW
  | valid p =>
    exact (reach_runWrapped w p _).followedByW (reach_finishRun w _).toW



/-! ## Theorems: what a run preserves -/

/-- Elementary changes only append to the log. -/
theorem ReachW.output_extends {w : World} {s t : Executor} (h : ReachW w s t) :
    s.output <+: t.output := by
  induction h with
  | refl => exact List.prefix_refl _
  | tail _ hc ih =>
    refine ih.trans ?_
    cases hc with
    | prim hp =>
      cases hp with
      | addOutput type content metadata => exact List.prefix_append _ _
      | interact => exact List.prefix_refl _
      | hook => exact List.prefix_refl _
      | poll => exact List.prefix_refl _
    | write name value => exact List.prefix_refl _

/-- The invariant behind C11: the log is in time order and no event is later than the
clock. -/
theorem ReachW.nonDecreasing {w : World} {s t : Executor} (h : ReachW w s t)
    (hs : NonDecreasing s.output ∧ ∀ e ∈ s.output, e.timestamp ≤ s.now) :
    NonDecreasing t.output ∧ ∀ e ∈ t.output, e.timestamp ≤ t.now := by
  induction h with
  | refl => exact hs
  | tail _ hc ih =>
    obtain ⟨hsorted, hle⟩ := ih
    cases hc with
    | prim hp =>
      cases hp with
      | addOutput type content metadata =>
        constructor
        · simp only [NonDecreasing, addOutput, List.pairwise_append, List.pairwise_singleton,
            List.mem_singleton, forall_eq, true_and]
          exact ⟨hsorted, fun a ha => hle a ha⟩
        · intro e he
          simp only [addOutput, List.mem_append, List.mem_singleton] at he
          rcases he with he | he
          · exact hle e he
          · subst he; exact Nat.le_refl _
      | interact =>
        exact ⟨hsorted, fun e he => Nat.le_trans (hle e he) (Nat.le_add_right _ _)⟩
      | hook =>
        exact ⟨hsorted, fun e he => Nat.le_trans (hle e he) (Nat.le_add_right _ _)⟩
      | poll =>
        refine ⟨hsorted, fun e he => Nat.le_trans (hle e he) ?_⟩
        simp only [pollStep]
        omega
    | write name value => exact ⟨hsorted, hle⟩

/-- C11: the timestamps of the events in the output that `execute` returns are
non-decreasing in list order (the clock of the model never runs backwards). -/
theorem execute_output_nonDecreasing (w : World) (s : Executor) (code : Code)
    (onOutputCallback : Bool) :
    NonDecreasing (execute w s code onOutputCallback).1.output := by
  have hstart : NonDecreasing (startRun w s onOutputCallback).output ∧
      ∀ e ∈ (startRun w s onOutputCallback).output,
        e.timestamp ≤ (startRun w s onOutputCallback).now := by
    have hout : (startRun w s onOutputCallback).output
        = [outputItem s "log" " Starting workflow execution..." []] := by
      simp only [startRun, checkGmailConnection]
      split <;> rfl
    have hnow : s.now ≤ (startRun w s onOutputCallback).now := by
      simp only [startRun, checkGmailConnection]
      split <;> exact Nat.le_add_right _ _
    rw [hout]
    exact ⟨List.pairwise_singleton _ _, fun e he => by
      simp only [List.mem_singleton] at he
      subst he
      exact hnow⟩
  have hend := (reach_execute w s code onOutputCallback).nonDecreasing hstart
  have hres : (execute w s code onOutputCallback).1.output
      = (execute w s code onOutputCallback).2.output := by
    cases code with
    | invalid m => rfl
    | valid p =>
      simp only [execute, finishRun]
      split <;> rfl
  rw [hres]
  exact hend.1



/-- What the start of `execute` does to the log, the variables and the input data. -/
theorem startRun_fields (w : World) (t : Executor) (onOutputCallback : Bool) :
    (startRun w t onOutputCallback).output
        = [outputItem t "log" " Starting workflow execution..." []] ∧
      (startRun w t onOutputCallback).variables_ = t.variables_ ∧
      (startRun w t onOutputCallback).inputData = t.inputData := by
  simp only [startRun, checkGmailConnection]
  split <;> exact ⟨rfl, rfl, rfl⟩

/-- C12 as stated fails: a second `execute` on the same executor, without a call of
`setInputData` in between, starts with the variables of the first run: they differ from
the input data and the binding made by `setVariable` in the first run is visible. -/
theorem execute_keeps_variables_counterexample :
    (startRun downWorld (execute downWorld inputExecutor (.valid bindNote) true).2 true).variables_
        ≠ (startRun downWorld
            (execute downWorld inputExecutor (.valid bindNote) true).2 true).inputData ∧
      ctxGetVariable
        (startRun downWorld (execute downWorld inputExecutor (.valid bindNote) true).2 true)
        "note" = .str "kept from the first run" := by
  constructor
  · decide
  · rfl

/-- C12, amended: whatever happened on the executor before, the code of a run starts
with a log that holds the starting event only; `execute` itself leaves `variables` as it
finds it, and it is `setInputData`, called before the run, that makes `variables` equal
to the input data, so that after `setInputData(data)` the run starts with
`variables = inputData = data` and no earlier binding is visible. -/
theorem startRun_environment (w : World) (s : Executor) (data : List (String × Value))
    (onOutputCallback : Bool) :
    (startRun w s onOutputCallback).output
        = [{ type := "log", content := " Starting workflow execution...",
             timestamp := s.now, metadata := [] }] ∧
      (startRun w s onOutputCallback).variables_ = s.variables_ ∧
      (startRun w s onOutputCallback).inputData = s.inputData ∧
      (startRun w (setInputData s data) onOutputCallback).variables_ = data ∧
      (startRun w (setInputData s data) onOutputCallback).inputData = data ∧
      (∀ name : String,
        ctxGetVariable (startRun w (setInputData s data) onOutputCallback) name
          = getKey data name) := by
  have h : ∀ t : Executor, (startRun w t onOutputCallback).output
        = [outputItem t "log" " Starting workflow execution..." []] ∧
      (startRun w t onOutputCallback).variables_ = t.variables_ ∧
      (startRun w t onOutputCallback).inputData = t.inputData :=
    fun t => startRun_fields w t onOutputCallback
  refine ⟨(h s).1, (h s).2.1, (h s).2.2, ?_, ?_, ?_⟩
  · rw [(h _).2.1]; rfl
  · rw [(h _).2.2]; rfl
  · intro name
    simp only [ctxGetVariable]
    rw [(h _).2.1]; rfl

/-- Without a status update from the caller, no elementary change writes the flag. -/
theorem ReachW.gmailConnected_eq {w : World} {s t : Executor} (h : ReachW w s t)
    (hquiet : ∀ k : Nat, (w.hook k).status = none ∧ w.poll k = none) :
    t.gmailConnected = s.gmailConnected := by
  induction h with
  | refl => rfl
  | tail _ hc ih =>
    rw [← ih]
    cases hc with
    | prim hp =>
      cases hp with
      | addOutput type content metadata => rfl
      | interact => rfl
      | hook => simp [invokeHook, (hquiet _).1]
      | poll => simp [pollStep, (hquiet _).2]
    | write name value => rfl

/-- C13 as stated fails: the caller has set the flag, makes no further status update and
runs code without any gated step; the status check at the start of `execute` clears the
flag. -/
theorem execute_writes_flag_counterexample :
    connectedExecutor.gmailConnected = true ∧
      (∀ k : Nat, (disconnectedWorld.hook k).status = none ∧ disconnectedWorld.poll k = none) ∧
      (execute disconnectedWorld connectedExecutor (.valid .done) true).2.hookCalls = [] ∧
      (execute disconnectedWorld connectedExecutor (.valid .done) true).2.gmailConnected
        = false := by
  refine ⟨rfl, fun _ => ⟨rfl, rfl⟩, rfl, rfl⟩

/-- C13, amended: when the caller makes no status update during a run, the only write
to `gmailConnected` in `execute` is the one of `checkGmailConnection` at its start, which
stores what the status endpoint reports and leaves the flag as it is when the request
fails; no step of the code and no other method changes it. -/
theorem execute_flag_frame (w : World) (s : Executor) (code : Code) (onOutputCallback : Bool)
    (hquiet : ∀ k : Nat, (w.hook k).status = none ∧ w.poll k = none) :
    (execute w s code onOutputCallback).2.gmailConnected
        = (match w.status s.tick with
           | .answer _ data => data.connected
           | _ => s.gmailConnected) ∧
      (∀ (p : Prog) (t : Executor), (runProg w p t).2.gmailConnected = t.gmailConnected) ∧
      (∀ (t : Executor) (type content : String) (metadata : List (String × Value)),
        (addOutput t type content metadata).gmailConnected = t.gmailConnected) ∧
      (∀ (t : Executor) (data : List (String × Value)),
        (setInputData t data).gmailConnected = t.gmailConnected) ∧
      (∀ t : Executor, (ensureGmailConnected w t).2.gmailConnected = t.gmailConnected) := by
  refine ⟨?_, fun p t => (reach_runProg w p t).gmailConnected_eq hquiet,
    fun _ _ _ _ => rfl, fun _ _ => rfl,
    fun t => (reach_ensureGmailConnected w t).toW.gmailConnected_eq hquiet⟩
  rw [(reach_execute w s code onOutputCallback).gmailConnected_eq hquiet]
  simp only [startRun, checkGmailConnection, addOutput_tick]
  split <;> rfl

theorem execute_flag_frame_witness :
    (∀ k : Nat, (disconnectedWorld.hook k).status = none ∧ disconnectedWorld.poll k = none) ∧
      (execute disconnectedWorld connectedExecutor (.valid bindNote) true).2.gmailConnected
        = (match disconnectedWorld.status connectedExecutor.tick with
           | .answer _ data => data.connected
           | _ => connectedExecutor.gmailConnected) :=
  ⟨fun _ => ⟨rfl, rfl⟩,
    (execute_flag_frame disconnectedWorld connectedExecutor (.valid bindNote) true
      (fun _ => ⟨rfl, rfl⟩)).1⟩

/-- C15, the failing input: the input data has the field `emailBody`; after
`setVariable("emailBody", "changed")` the input reference `context.inputData.emailBody`
reads `changed`, although the executor's `inputData` still holds the original text. -/
theorem setVariable_changes_input_reference :
    ctxInputData (startRun downWorld inputExecutor true) "emailBody"
        = .str "order #12345 not shipped" ∧
      ctxInputData
        (ctxSetVariable (startRun downWorld inputExecutor true) "emailBody" (.str "changed"))
        "emailBody" = .str "changed" ∧
      (ctxSetVariable (startRun downWorld inputExecutor true) "emailBody"
        (.str "changed")).inputData = [("emailBody", .str "order #12345 not shipped")] ∧
      (execute downWorld inputExecutor (.valid overwriteInput) true).1.output.map
          (fun e => (e.type, e.content))
        = [("log", " Starting workflow execution..."), ("log", " Variable set: emailBody"),
           ("result", "changed"), ("success", " Workflow completed successfully!")] := by
  refine ⟨rfl, rfl, rfl, rfl⟩



/-! ## Theorems: variables -/

theorem getKey_setKey_same (vars : List (String × Value)) (name : String) (value : Value) :
    getKey (setKey vars name value) name = value := by
  induction vars with
  | nil => simp [setKey, getKey]
  | cons kv rest ih =>
    simp only [setKey]
    by_cases h : kv.1 = name
    · simp [h, getKey]
    · have hb : (kv.1 == name) = false := by simpa using h
      simp only [hb, Bool.false_eq_true, if_false]
      simp only [getKey, List.find?, hb] at ih ⊢
      exact ih

theorem getKey_setKey_other (vars : List (String × Value)) (name other : String) (value : Value)
    (hne : name ≠ other) : getKey (setKey vars name value) other = getKey vars other := by
  induction vars with
  | nil =>
    have hb : (name == other) = false := by simpa using hne
    simp [setKey, getKey, hb]
  | cons kv rest ih =>
    simp only [setKey]
    by_cases h : kv.1 = name
    · have hb : (kv.1 == other) = false := by
        rw [h]; simpa using hne
      have hb2 : (name == other) = false := by simpa using hne
      simp [h, getKey, List.find?, hb2]
    · have hb : (kv.1 == name) = false := by simpa using h
      simp only [hb, Bool.false_eq_true, if_false]
      by_cases h2 : kv.1 = other
      · simp [getKey, List.find?, h2]
      · have hb2 : (kv.1 == other) = false := by simpa using h2
        simp only [getKey, List.find?, hb2] at ih ⊢
        exact ih

/-- Last write wins. -/
theorem getKey_applyWrites (vars ws : List (String × Value)) (name : String) :
    getKey (applyWrites vars ws) name
      = (match lastWrite ws name with
         | some v => v
         | none => getKey vars name) := by
  induction ws using List.reverseRecOn with
  | nil => simp [applyWrites, lastWrite]
  | append_singleton ws nv ih =>
    obtain ⟨n, v⟩ := nv
    have happly : applyWrites vars (ws ++ [(n, v)]) = setKey (applyWrites vars ws) n v := by
      simp [applyWrites, List.foldl_append]
    rw [happly]
    by_cases h : n = name
    · subst h
      rw [getKey_setKey_same]
      simp [lastWrite, List.reverse_append]
    · rw [getKey_setKey_other _ _ _ _ h, ih]
      have hb : (n == name) = false := by simpa using h
      simp [lastWrite, List.reverse_append, List.find?, hb]

/-- The methods of the engine never write a variable. -/
theorem Reach.variables_eq {w : World} {s t : Executor} (h : Reach w s t) :
    t.variables_ = s.variables_ ∧ t.inputData = s.inputData := by
  induction h with
  | refl => exact ⟨rfl, rfl⟩
  | tail _ hp ih =>
    rw [← ih.1, ← ih.2]
    cases hp with
    | addOutput type content metadata => exact ⟨rfl, rfl⟩
    | interact => exact ⟨rfl, rfl⟩
    | hook => exact ⟨rfl, rfl⟩
    | poll => exact ⟨rfl, rfl⟩

theorem runProg_variables (w : World) (p : Prog) (s : Executor) :
    (runProg w p s).2.variables_ = applyWrites s.variables_ (writes w p s) := by
  induction p generalizing s with
  | done => rfl
  | throw m => rfl
  | log message k ih => simp only [runProg, writes]; rw [ih]; rfl
  | output message k ih => simp only [runProg, writes]; rw [ih]; rfl
  | fetchEmails k ih =>
    have h := (reach_ctxFetchEmails w s).variables_eq.1
    simp only [runProg, writes]
    split
    · rename_i heq; rw [heq] at h; rw [ih, h]
    · rename_i heq; rw [heq] at h; exact h
  | generateReply body task subject from_ k ih =>
    have h := (reach_ctxGenerateReply w s body task subject from_).variables_eq.1
    simp only [runProg, writes]
    split
    · rename_i heq; rw [heq] at h; rw [ih, h]
    · rename_i heq; rw [heq] at h; exact h
  | sendReply emailId replyBody subject to_ threadId k hd ihk ihh =>
    have h := (reach_ctxSendReply w s emailId replyBody subject to_ threadId).variables_eq.1
    simp only [runProg, writes]
    split
    · rename_i heq; rw [heq] at h; rw [ihk, h]
    · rename_i heq; rw [heq] at h; rw [ihh, h]
  | sendReplyNonText to_ hd ihh =>
    simp only [runProg, writes]
    rw [ihh, (reach_ctxSendReplyNonText w s to_).variables_eq.1]
  | markRead emailId k ih =>
    have h := (reach_ctxMarkRead w s emailId).variables_eq.1
    simp only [runProg, writes]
    split
    · rename_i heq; rw [heq] at h; rw [ih, h]
    · rename_i heq; rw [heq] at h; exact h
  | callAI input task k ih =>
    have h := (reach_ctxCallAI w s input task).variables_eq.1
    simp only [runProg, writes]
    split
    · rename_i heq; rw [heq] at h; rw [ih, h]
    · rename_i heq; rw [heq] at h; exact h
  | setVariable name value k ih =>
    simp only [runProg, writes]
    rw [ih]
    simp [applyWrites, ctxSetVariable, addOutput]
  | getVariable name k ih => simp only [runProg, writes]; rw [ih]
  | inputData field k ih => simp only [runProg, writes]; rw [ih]



/-! ## Theorems: the generated code -/

/-- A value block reads the state and changes nothing: its code runs the continuation on
its value from the same executor, or raises in place. -/
theorem runProg_evalExpr (w : World) (e : Expr) (sc : Scope) (k : Value → Prog) (s : Executor) :
    runProg w (evalExpr e sc k) s
      = (match evalValue e sc s with
         | .ok v => runProg w (k v) s
         | .error m => (.error m, s)) := by
  induction e generalizing k with
  | empty => rfl
  | inputData fieldName => rfl
  | getProperty property =>
    simp only [evalExpr, evalValue]
    cases sc.lookup "currentEmail" <;> rfl
  | simpleText text => rfl
  | getVariable varName =>
    simp only [evalExpr, evalValue]
    cases sc.lookup varName <;> rfl
  | combineText text1 text2 ih1 ih2 =>
    simp only [evalExpr, evalValue]
    rw [ih1]
    cases evalValue text1 sc s with
    | error m => rfl
    | ok a =>
      simp only []
      rw [ih2]
      cases evalValue text2 sc s <;> rfl

theorem runProg_andThen (w : World) (p k : Prog) (s : Executor) :
    runProg w (andThen p k) s = thenRun w (runProg w p s) k := by
  induction p generalizing s with
  | done => rfl
  | throw m => rfl
  | log message p ih => simp only [andThen, runProg]; exact ih _
  | output message p ih => simp only [andThen, runProg]; exact ih _
  | fetchEmails f ih =>
    simp only [andThen, runProg]
    split
    · exact ih _ _
    · rfl
  | generateReply body task subject from_ f ih =>
    simp only [andThen, runProg]
    split
    · exact ih _ _
    · rfl
  | sendReply emailId replyBody subject to_ threadId f h ihf ihh =>
    simp only [andThen, runProg]
    split
    · exact ihf _ _
    · exact ihh _ _
  | sendReplyNonText to_ h ihh => simp only [andThen, runProg]; exact ihh _ _
  | markRead emailId f ih =>
    simp only [andThen, runProg]
    split
    · exact ih _ _
    · rfl
  | callAI input task f ih =>
    simp only [andThen, runProg]
    split
    · exact ih _ _
    · rfl
  | setVariable name value p ih => simp only [andThen, runProg]; exact ih _
  | getVariable name f ih => simp only [andThen, runProg]; exact ih _ _
  | inputData field f ih => simp only [andThen, runProg]; exact ih _ _

theorem evalExpr_andThen (e : Expr) (sc : Scope) (f : Value → Prog) (k : Prog) :
    andThen (evalExpr e sc f) k = evalExpr e sc (fun v => andThen (f v) k) := by
  induction e generalizing f with
  | empty => rfl
  | inputData fieldName => rfl
  | getProperty property =>
    simp only [evalExpr]
    cases sc.lookup "currentEmail" <;> rfl
  | simpleText text => rfl
  | getVariable varName =>
    simp only [evalExpr]
    cases sc.lookup varName <;> rfl
  | combineText text1 text2 ih1 ih2 =>
    simp only [evalExpr]
    rw [ih1]
    congr 1
    funext a
    rw [ih2]

theorem andThen_assoc (p q k : Prog) : andThen (andThen p q) k = andThen p (andThen q k) := by
  induction p with
  | done => rfl
  | throw m => rfl
  | log message p ih => simp only [andThen, ih]
  | output message p ih => simp only [andThen, ih]
  | fetchEmails f ih => simp only [andThen, ih]
  | generateReply body task subject from_ f ih => simp only [andThen, ih]
  | sendReply emailId replyBody subject to_ threadId f h ihf ihh => simp only [andThen, ihf, ihh]
  | sendReplyNonText to_ h ihh => simp only [andThen, ihh]
  | markRead emailId f ih => simp only [andThen, ih]
  | callAI input task f ih => simp only [andThen, ih]
  | setVariable name value p ih => simp only [andThen, ih]
  | getVariable name f ih => simp only [andThen, ih]
  | inputData field f ih => simp only [andThen, ih]

/-- The code of a chain followed by `k` is the code of the chain, then `k`. -/
theorem compile_andThen (lc : String → String) (b : Block) (sc : Scope) (k : Prog) :
    compile lc b sc k = andThen (compile lc b sc .done) k := by
  induction b generalizing sc k with
  | stop => rfl
  | agentStart agentType steps ih =>
    simp only [compile, andThen]
    rw [ih]
  | ifContains text keyword body next ihb ihn =>
    simp only [compile]
    rw [evalExpr_andThen]
    congr 1
    funext v
    split
    · simp only [andThen]
      rw [ihb _ (compile lc next sc k), ihb _ (compile lc next sc .done), ihn sc k,
        andThen_assoc]
    · exact ihn sc k
  | fetchUnread maxEmails varName next ih =>
    simp only [compile, andThen]
    congr 1
    funext allEmails
    rw [ih]
  | forEachEmail emailList body next ihb ihn =>
    simp only [compile]
    cases sc.lookup emailList with
    | error m => rfl
    | ok v =>
      cases v with
      | emails l =>
        simp only []
        induction l with
        | nil => exact ihn sc k
        | cons e rest ihl =>
          simp only [List.foldr_cons, andThen]
          rw [ihl, ihb _ (andThen _ k), ihb _ (List.foldr _ _ rest), andThen_assoc]
      | undefined => simp only [andThen]; rw [ihn]
      | str t => simp only [andThen]; rw [ihn]
      | num n => simp only [andThen]; rw [ihn]
      | bool b => simp only [andThen]; rw [ihn]
      | email e => simp only [andThen]; rw [ihn]
      | details d => simp only [andThen]; rw [ihn]
      | sendData d => simp only [andThen]; rw [ihn]
  | sendReply replyVar next ih =>
    simp only [compile]
    cases sc.lookup "currentEmail" with
    | error m => rfl
    | ok cur =>
      simp only []
      split
      · cases sc.lookup replyVar with
        | error m => rfl
        | ok v =>
          cases v with
          | str reply =>
            simp only []
            split
            · simp only [andThen]
              congr 1
              funext d
              rw [ih]
            · simp only [andThen]; rw [ih]
          | undefined =>
            simp only []
            split
            · rfl
            · simp only [andThen]; rw [ih]
          | num n =>
            simp only []
            split
            · rfl
            · simp only [andThen]; rw [ih]
          | bool b =>
            simp only []
            split
            · rfl
            · simp only [andThen]; rw [ih]
          | email e =>
            simp only []
            split
            · rfl
            · simp only [andThen]; rw [ih]
          | emails l =>
            simp only []
            split
            · rfl
            · simp only [andThen]; rw [ih]
          | details d =>
            simp only []
            split
            · rfl
            · simp only [andThen]; rw [ih]
          | sendData d =>
            simp only []
            split
            · rfl
            · simp only [andThen]; rw [ih]
      · simp only [andThen]; rw [ih]
  | markRead next ih =>
    simp only [compile]
    cases sc.lookup "currentEmail" with
    | error m => rfl
    | ok cur =>
      simp only []
      split
      · simp only [andThen]
        congr 1
        funext b
        rw [ih]
      · simp only [andThen]; rw [ih]
  | aiAnalyze input task varName next ih =>
    simp only [compile]
    rw [evalExpr_andThen]
    congr 1
    funext v
    simp only [andThen]
    congr 1
    funext text
    rw [ih]
  | aiGenerate input task varName next ih =>
    simp only [compile]
    rw [evalExpr_andThen]
    congr 1
    funext v
    simp only [andThen]
    congr 1
    funext text
    rw [ih]
  | aiExtract input what varName next ih =>
    simp only [compile]
    rw [evalExpr_andThen]
    congr 1
    funext v
    simp only [andThen]
    congr 1
    funext text
    rw [ih]
  | displayResult result next ih =>
    simp only [compile]
    rw [evalExpr_andThen]
    congr 1
    funext v
    simp only [andThen]
    rw [ih]
  | logMessage message next ih =>
    simp only [compile]
    rw [evalExpr_andThen]
    congr 1
    funext v
    simp only [andThen]
    rw [ih]

/-- The run of the code of a chain followed by `k`: the chain first, then `k` from
where the chain ended, unless the chain raised. -/
theorem runProg_compile (w : World) (lc : String → String) (b : Block) (sc : Scope) (k : Prog)
    (s : Executor) :
    runProg w (compile lc b sc k) s = thenRun w (runProg w (compile lc b sc .done) s) k := by
  rw [compile_andThen, runProg_andThen]



/-- C14 as stated fails: the run of the scenario binds the generated text to the target
variable `reply` of its GenerateText step and displays it, but after the run `variables`
has no binding for `reply`. -/
theorem capability_binding_counterexample :
    (execute (aiWorld "Thanks, checking now.") inputExecutor
        (.valid (generated asciiLower replyBlocks)) true).1.success = true ∧
      (execute (aiWorld "Thanks, checking now.") inputExecutor
          (.valid (generated asciiLower replyBlocks)) true).1.output.map
            (fun e => (e.type, e.content))
        = [("log", " Starting workflow execution..."), ("log", "start"),
           ("log", " Calling AI: draft a reply..."),
           ("ai-result", " AI Result:\nThanks, checking now."),
           ("log", "✓ AI Generation complete, saved as 'reply'"),
           ("result", "Thanks, checking now."),
           ("success", " Workflow completed successfully!")] ∧
      ctxGetVariable (execute (aiWorld "Thanks, checking now.") inputExecutor
        (.valid (generated asciiLower replyBlocks)) true).2 "reply" = .undefined ∧
      (execute (aiWorld "Thanks, checking now.") inputExecutor
        (.valid (generated asciiLower replyBlocks)) true).2.variables_
        = [("emailBody", .str "order #12345 not shipped")] := by
  refine ⟨rfl, ?_, rfl, rfl⟩
  decide

theorem writes_of_noWrite (w : World) (p : Prog) (h : NoWrite p) :
    ∀ s : Executor, writes w p s = [] := by
  induction h with
  | done => intro s; rfl
  | throw m => intro s; rfl
  | log message k hk ih => intro s; simp only [writes]; exact ih _
  | output message k hk ih => intro s; simp only [writes]; exact ih _
  | fetchEmails k hk ih =>
    intro s
    simp only [writes]
    split
    · exact ih _ _
    · rfl
  | generateReply body task subject from_ k hk ih =>
    intro s
    simp only [writes]
    split
    · exact ih _ _
    · rfl
  | sendReply emailId replyBody subject to_ threadId k h hk hh ihk ihh =>
    intro s
    simp only [writes]
    split
    · exact ihk _ _
    · exact ihh _ _
  | sendReplyNonText to_ h hh ih => intro s; simp only [writes]; exact ih _ _
  | markRead emailId k hk ih =>
    intro s
    simp only [writes]
    split
    · exact ih _ _
    · rfl
  | callAI input task k hk ih =>
    intro s
    simp only [writes]
    split
    · exact ih _ _
    · rfl
  | getVariable name k hk ih => intro s; simp only [writes]; exact ih _ _
  | inputData field k hk ih => intro s; simp only [writes]; exact ih _ _

theorem noWrite_evalExpr (e : Expr) (sc : Scope) :
    ∀ f : Value → Prog, (∀ v, NoWrite (f v)) → NoWrite (evalExpr e sc f) := by
  induction e with
  | empty => intro f hf; exact hf _
  | inputData fieldName => intro f hf; exact NoWrite.inputData _ _ (fun v => hf _)
  | getProperty property =>
    intro f hf
    simp only [evalExpr]
    split
    · exact NoWrite.throw _
    · exact hf _
  | simpleText text => intro f hf; exact hf _
  | getVariable varName =>
    intro f hf
    simp only [evalExpr]
    split
    · exact NoWrite.throw _
    · exact hf _
  | combineText text1 text2 ih1 ih2 =>
    intro f hf
    simp only [evalExpr]
    exact ih1 _ (fun a => ih2 _ (fun b => hf _))

/-- The code of a chain of blocks calls `context.setVariable` nowhere. -/
theorem noWrite_compile (lc : String → String) (b : Block) :
    ∀ (sc : Scope) (k : Prog), NoWrite k → NoWrite (compile lc b sc k) := by
  induction b with
  | stop => intro sc k hk; exact hk
  | agentStart agentType steps ih =>
    intro sc k hk
    simp only [compile]
    exact NoWrite.log _ _ (ih _ _ hk)
  | ifContains text keyword body next ihb ihn =>
    intro sc k hk
    simp only [compile]
    apply noWrite_evalExpr
    intro v
    split
    · exact NoWrite.log _ _ (ihb _ _ (ihn _ _ hk))
    · exact ihn _ _ hk
  | fetchUnread maxEmails varName next ih =>
    intro sc k hk
    simp only [compile]
    exact NoWrite.fetchEmails _ (fun l => NoWrite.log _ _ (ih _ _ hk))
  | forEachEmail emailList body next ihb ihn =>
    intro sc k hk
    simp only [compile]
    split
    · exact NoWrite.throw _
    · rename_i l hl
      clear hl
      induction l with
      | nil => exact ihn _ _ hk
      | cons e rest ihl =>
        simp only [List.foldr_cons]
        exact NoWrite.log _ _ (ihb _ _ ihl)
    · exact NoWrite.log _ _ (ihn _ _ hk)
  | sendReply replyVar next ih =>
    intro sc k hk
    simp only [compile]
    split
    · exact NoWrite.throw _
    · split
      · split
        · exact NoWrite.throw _
        · split
          · exact NoWrite.sendReply _ _ _ _ _ _ _
              (fun d => NoWrite.log _ _ (ih _ _ hk)) (fun m => NoWrite.throw m)
          · exact NoWrite.log _ _ (ih _ _ hk)
        · split
          · exact NoWrite.sendReplyNonText _ _ (fun m => NoWrite.throw m)
          · exact NoWrite.log _ _ (ih _ _ hk)
      · exact NoWrite.log _ _ (ih _ _ hk)
  | markRead next ih =>
    intro sc k hk
    simp only [compile]
    split
    · exact NoWrite.throw _
    · split
      · exact NoWrite.markRead _ _ (fun b => NoWrite.log _ _ (ih _ _ hk))
      · exact NoWrite.log _ _ (ih _ _ hk)
  | aiAnalyze input task varName next ih =>
    intro sc k hk
    simp only [compile]
    apply noWrite_evalExpr
    intro v
    exact NoWrite.callAI _ _ _ (fun text => NoWrite.log _ _ (ih _ _ hk))
  | aiGenerate input task varName next ih =>
    intro sc k hk
    simp only [compile]
    apply noWrite_evalExpr
    intro v
    exact NoWrite.callAI _ _ _ (fun text => NoWrite.log _ _ (ih _ _ hk))
  | aiExtract input what varName next ih =>
    intro sc k hk
    simp only [compile]
    apply noWrite_evalExpr
    intro v
    exact NoWrite.callAI _ _ _ (fun text => NoWrite.log _ _ (ih _ _ hk))
  | displayResult result next ih =>
    intro sc k hk
    simp only [compile]
    apply noWrite_evalExpr
    intro v
    exact NoWrite.output _ _ (ih _ _ hk)
  | logMessage message next ih =>
    intro sc k hk
    simp only [compile]
    apply noWrite_evalExpr
    intro v
    exact NoWrite.log _ _ (ih _ _ hk)

theorem execute_variables_eq (w : World) (s : Executor) (p : Prog) (onOutputCallback : Bool) :
    (execute w s (.valid p) onOutputCallback).2.variables_
      = applyWrites s.variables_ (writes w p (startRun w s onOutputCallback)) := by
  have hstart : (startRun w s onOutputCallback).variables_ = s.variables_ :=
    (startRun_fields w s onOutputCallback).2.1
  have hrun := runProg_variables w p (startRun w s onOutputCallback)
  rw [hstart] at hrun
  rw [← hrun]
  simp only [execute, runWrapped]
  cases hr : runProg w p (startRun w s onOutputCallback) with
  | mk res t =>
    cases res with
    | ok u => rfl
    | error m => rfl

/-- C14, amended: after every run, successful or failed, `variables` maps every name that
`context.setVariable` bound during the run to the value written last: nothing is rolled
back.  A capability result binding does not write `variables`: the code compiled from a
well-formed chain of blocks calls `context.setVariable` nowhere (the target variable of a
fetch or AI block is a `const` of the generated code), so after a run of compiled code
`variables` is what it was at the start of the run. -/
theorem execute_variables (w : World) (s : Executor) (onOutputCallback : Bool) :
    (∀ (p : Prog) (name : String) (v : Value),
        lastWrite (writes w p (startRun w s onOutputCallback)) name = some v →
        ctxGetVariable (execute w s (.valid p) onOutputCallback).2 name = v) ∧
      (∀ (lc : String → String) (b : Block), Block.valid lc b = true →
        writes w (generated lc b) (startRun w s onOutputCallback) = [] ∧
        (execute w s (.valid (generated lc b)) onOutputCallback).2.variables_ = s.variables_) ∧
      (∀ (t : Executor) (name : String) (value : Value),
        ctxGetVariable (ctxSetVariable t name value) name = value) := by
  refine ⟨?_, ?_, ?_⟩
  · intro p name v hlast
    simp only [ctxGetVariable]
    rw [execute_variables_eq, getKey_applyWrites, hlast]
  · intro lc b hvalid
    have hnone : writes w (generated lc b) (startRun w s onOutputCallback) = [] :=
      writes_of_noWrite w _ (noWrite_compile lc b _ _ NoWrite.done) _
    refine ⟨hnone, ?_⟩
    rw [execute_variables_eq, hnone]
    rfl
  · intro t name value
    simp only [ctxGetVariable, ctxSetVariable, addOutput]
    exact getKey_setKey_same _ _ _

theorem execute_variables_witness :
    lastWrite (writes downWorld bindNote (startRun downWorld inputExecutor true)) "note"
        = some (.str "kept from the first run") ∧
      ctxGetVariable (execute downWorld inputExecutor (.valid bindNote) true).2 "note"
        = .str "kept from the first run" ∧
      Block.valid asciiLower autoReply = true ∧
      (execute twoEmailsWorld inputExecutor (.valid (generated asciiLower autoReply))
        true).2.variables_ = inputExecutor.variables_ :=
  ⟨by decide,
    (execute_variables downWorld inputExecutor true).1 bindNote "note"
      (.str "kept from the first run") (by decide),
    by decide,
    ((execute_variables twoEmailsWorld inputExecutor true).2.1 asciiLower autoReply
      (by decide)).2⟩



theorem getKey_unbound (vars : List (String × Value)) (name : String)
    (h : ∀ kv ∈ vars, kv.1 ≠ name) : getKey vars name = .undefined := by
  have hfind : vars.find? (fun kv => kv.1 == name) = none := by
    rw [List.find?_eq_none]
    intro kv hkv
    simpa using h kv hkv
  simp [getKey, hfind]

theorem lookup_unbound (sc : Scope) (name : String) (h : ∀ b ∈ sc, b.1 ≠ name) :
    sc.lookup name = .error (name ++ " is not defined") := by
  have hfind : sc.find? (fun b => b.1 == name) = none := by
    rw [List.find?_eq_none]
    intro b hb
    simpa using h b hb
  simp [Scope.lookup, hfind]

/-- C16 as stated fails for the generated code: a workflow that displays a variable no
block has bound fails with a ReferenceError. -/
theorem getVariable_block_counterexample :
    (execute downWorld hookedExecutor (.valid (generated asciiLower displayMissing)) true).1.success
        = false ∧
      (execute downWorld hookedExecutor (.valid (generated asciiLower displayMissing)) true).1.error
        = some "missing is not defined" := by
  refine ⟨rfl, rfl⟩

/-- C16, amended: `context.getVariable` of an unbound name yields `undefined` and never
fails; the read changes nothing (the code goes on from the same executor), so a second
read yields the same value.  The code of a `get_variable` block does not call it: it
reads the JavaScript identifier of that name.  When a block in force has declared and
reached a `const` of that name, the block yields its value, although `variables` has no
binding for the name; when no block in force declares the name and nothing outside the
generated code binds it (it is not `context` or `arguments` and not a name of the global
environment), the read raises a ReferenceError in place. -/
theorem getVariable_unbound (w : World) (s : Executor) (name : String)
    (h : ∀ kv ∈ s.variables_, kv.1 ≠ name) :
    ctxGetVariable s name = .undefined ∧
      (∀ k : Value → Prog,
        runProg w (.getVariable name k) s = runProg w (k .undefined) s) ∧
      (∀ k : Value → Value → Prog,
        runProg w (.getVariable name (fun a => .getVariable name (fun b => k a b))) s
          = runProg w (k .undefined .undefined) s) ∧
      (∀ (sc : Scope) (k : Value → Prog) (v : Value), identifier name = true →
        sc.lookup name = .ok v →
        runProg w (evalExpr (.getVariable name) sc k) s = runProg w (k v) s) ∧
      (∀ (sc : Scope) (k : Value → Prog), identifier name = true →
        boundOutside w name = false → (∀ b ∈ sc, b.1 ≠ name) →
        runProg w (evalExpr (.getVariable name) sc k) s
          = (.error (name ++ " is not defined"), s)) := by
  have hget : ctxGetVariable s name = .undefined := getKey_unbound _ _ h
  refine ⟨hget, ?_, ?_, ?_, ?_⟩
  · intro k
    simp only [runProg, hget]
  · intro k
    simp only [runProg, hget]
  · intro sc k v hid hv
    rw [runProg_evalExpr]
    simp only [evalValue, hv]
  · intro sc k hid hout hsc
    rw [runProg_evalExpr]
    simp only [evalValue, lookup_unbound sc name hsc]

theorem getVariable_unbound_witness :
    (∀ kv ∈ (startRun downWorld inputExecutor true).variables_, kv.1 ≠ "reply") ∧
      ctxGetVariable (startRun downWorld inputExecutor true) "reply" = .undefined ∧
      identifier "reply" = true ∧ boundOutside downWorld "reply" = false ∧
      runProg downWorld (evalExpr (.getVariable "reply") [] (fun v => .output (toStr v) .done))
          (startRun downWorld inputExecutor true)
        = (.error "reply is not defined", startRun downWorld inputExecutor true) ∧
      runProg downWorld
          (evalExpr (.getVariable "reply") [("reply", some (.str "Thanks"))]
            (fun v => .output (toStr v) .done))
          (startRun downWorld inputExecutor true)
        = runProg downWorld (.output "Thanks" .done) (startRun downWorld inputExecutor true) :=
  ⟨by decide,
    (getVariable_unbound downWorld (startRun downWorld inputExecutor true) "reply"
      (by decide)).1,
    by decide, by decide,
    (getVariable_unbound downWorld (startRun downWorld inputExecutor true) "reply"
      (by decide)).2.2.2.2 [] (fun v => .output (toStr v) .done) (by decide) (by decide)
      (fun _ hb => absurd hb (List.not_mem_nil _)),
    (getVariable_unbound downWorld (startRun downWorld inputExecutor true) "reply"
      (by decide)).2.2.2.1 [("reply", some (.str "Thanks"))] (fun v => .output (toStr v) .done)
      (.str "Thanks") (by decide) rfl⟩



theorem decodeLiteral_plain (l : List Char)
    (h : l.all (fun c => !(c = '\\' || c = '"' || c = '\n' || c = '\r')) = true) :
    decodeLiteral l = some l := by
  induction l with
  | nil => rfl
  | cons c rest ih =>
    have hrest : rest.all (fun c => !(c = '\\' || c = '"' || c = '\n' || c = '\r')) = true := by
      simp only [List.all_cons, Bool.and_eq_true] at h
      exact h.2
    simp only [List.all_cons, Bool.and_eq_true] at h
    have hc := h.1
    simp at hc
    obtain ⟨⟨⟨h1, h2⟩, h3⟩, h4⟩ := hc
    rw [decodeLiteral.eq_def]
    simp [h1, h2, h3, h4, ih hrest]

/-- Text without double quote, backslash and line break reads back unchanged. -/
theorem literalValue_plain (text : String) (h : plainText text = true) :
    literalValue text = text := by
  simp only [literalValue, decodeLiteral_plain text.data h]

theorem plainText_append (a b : String) :
    plainText (a ++ b) = (plainText a && plainText b) := by
  simp [plainText, String.data_append, List.all_append]

/-- C17, the failing input: the input field `emailBody` holds `see C:\temp` and the
keyword is `C:\temp`.  The lower-cased text contains the lower-cased keyword, yet the
generated code runs neither the `log` of the match nor the body: the keyword is placed
unescaped in a string literal, where `\t` reads as a tab. -/
theorem ifContains_backslash_keyword :
    ctxInputData (startRun downWorld pathExecutor true) "emailBody" = .str "see C:\\temp" ∧
      includes (asciiLower "see C:\\temp") (asciiLower "C:\\temp") = true ∧
      literalValue (asciiLower "C:\\temp") = "c:\temp" ∧
      (execute downWorld pathExecutor (.valid (generated asciiLower pathConditional)) true).1.output.map
          (fun e => (e.type, e.content))
        = [("log", " Starting workflow execution..."),
           ("success", " Workflow completed successfully!")] := by
  refine ⟨rfl, ?_, ?_, ?_⟩ <;> decide

/-- The part of C17 that holds: for a keyword without double quote, backslash and line
break, the generated code runs the body exactly when the lower-cased text contains the
lower-cased keyword, after a `log` event noting the match, and otherwise goes on with
the next block without appending any event. -/
theorem ifContains_plain_keyword (w : World) (lc : String → String) (text : Expr)
    (keyword : String) (body next : Block) (sc : Scope) (k : Prog) (s : Executor) (v : Value)
    (hv : evalValue text sc s = .ok v) (hkw : plainText keyword = true)
    (hlow : plainText (lc keyword) = true) :
    runProg w (compile lc (.ifContains text keyword body next) sc k) s
        = (if (lc keyword).data <:+: (lc (toStr v)).data then
             runProg w
               (compile lc body (Scope.enter (declared body) sc) (compile lc next sc k))
               (ctxLog s ("✓ Keyword '" ++ keyword ++ "' found, executing conditional steps..."))
           else runProg w (compile lc next sc k) s) := by
  have hmsg : literalValue ("✓ Keyword '" ++ keyword
      ++ "' found, executing conditional steps...")
      = "✓ Keyword '" ++ keyword ++ "' found, executing conditional steps..." := by
    apply literalValue_plain
    rw [plainText_append, plainText_append, hkw]
    decide
  simp only [compile, runProg_evalExpr, hv, literalValue_plain _ hlow, hmsg, includes]
  by_cases hin : (lc keyword).data <:+: (lc (toStr v)).data
  · simp [hin, runProg, ctxLog]
  · simp [hin]



/-- C18 as stated fails: the loop over a variable that holds a text appends one `log`
event for the step and no `warning` event. -/
theorem forEach_nonArray_counterexample :
    (execute downWorld hookedExecutor (.valid (generated asciiLower loopOverText)) true).1.success
        = true ∧
      (execute downWorld hookedExecutor (.valid (generated asciiLower loopOverText)) true).1.output.map
          (fun e => (e.type, e.content))
        = [("log", " Starting workflow execution..."), ("log", " Calling AI: summarise..."),
           ("error", " AI error: down"), ("error", "AI call failed: down"),
           ("log", "✓ AI Generation complete, saved as 'emails'"),
           ("log", "  emails is not an array, skipping loop"),
           ("success", " Workflow completed successfully!")] ∧
      ∀ e ∈ (execute downWorld hookedExecutor
          (.valid (generated asciiLower loopOverText)) true).1.output, e.type ≠ "warning" := by
  refine ⟨rfl, ?_, ?_⟩ <;> decide

/-- C18, amended: for a `gmail_for_each_email` step whose named variable is declared and
holds a value that is not an array, the generated code appends exactly one event for
the step, of type `log` (its text says that the variable is not an array), runs no loop
body and goes on with the next block: it does not fail. -/
theorem forEach_nonArray (w : World) (lc : String → String) (emailList : String)
    (body next : Block) (sc : Scope) (k : Prog) (s : Executor) (v : Value)
    (hname : plainText emailList = true)
    (hv : sc.lookup emailList = .ok v) (hnot : ∀ l : List Email, v ≠ .emails l) :
    runProg w (compile lc (.forEachEmail emailList body next) sc k) s
        = runProg w (compile lc next sc k)
            (addOutput s "log" ("  " ++ emailList ++ " is not an array, skipping loop") []) ∧
      (addOutput s "log" ("  " ++ emailList ++ " is not an array, skipping loop") []).output
        = s.output ++ [{ type := "log",
                         content := "  " ++ emailList ++ " is not an array, skipping loop",
                         timestamp := s.now, metadata := [] }] := by
  have hmsg : literalValue ("  " ++ emailList ++ " is not an array, skipping loop")
      = "  " ++ emailList ++ " is not an array, skipping loop" := by
    apply literalValue_plain
    rw [plainText_append, plainText_append, hname]
    decide
  refine ⟨?_, rfl⟩
  simp only [compile, hv]
  cases v with
  | emails l => exact absurd rfl (hnot l)
  | undefined => simp only [runProg, ctxLog, hmsg]
  | str t => simp only [runProg, ctxLog, hmsg]
  | num n => simp only [runProg, ctxLog, hmsg]
  | bool b => simp only [runProg, ctxLog, hmsg]
  | email e => simp only [runProg, ctxLog, hmsg]
  | details d => simp only [runProg, ctxLog, hmsg]
  | sendData d => simp only [runProg, ctxLog, hmsg]

theorem forEach_nonArray_witness :
    plainText "emails" = true ∧
      Scope.lookup [("emails", some (.str ""))] "emails" = .ok (.str "") ∧
      (∀ l : List Email, Value.str "" ≠ .emails l) ∧
      runProg downWorld
          (compile asciiLower (.forEachEmail "emails" (.logMessage (.simpleText "x") .stop) .stop)
            [("emails", some (.str ""))] .done) hookedExecutor
        = runProg downWorld (compile asciiLower .stop [("emails", some (.str ""))] .done)
            (addOutput hookedExecutor "log"
              ("  " ++ "emails" ++ " is not an array, skipping loop") []) :=
  ⟨by decide, rfl, fun _ h => Value.noConfusion h,
    (forEach_nonArray downWorld asciiLower "emails" (.logMessage (.simpleText "x") .stop) .stop
      [("emails", some (.str ""))] .done hookedExecutor (.str "") (by decide) rfl
      (fun _ h => Value.noConfusion h)).1⟩



/-- C19 as stated fails: two emails are fetched, the send in the body of the loop fails
for the first one, and the output holds one `log` event naming a sender, not two. -/
theorem forEach_body_raises_counterexample :
    twoEmailsWorld.unread 1 = .answer true { emails := some twoEmails, error := none } ∧
      twoEmails.length = 2 ∧
      (execute twoEmailsWorld connectedExecutor (.valid (generated asciiLower autoReply))
          true).1.success = false ∧
      ((execute twoEmailsWorld connectedExecutor (.valid (generated asciiLower autoReply))
          true).1.output.filter
            (fun e => e.type == "log" && substring0 e.content 24 == " Processing email from: ")).map
              (fun e => e.content)
        = [" Processing email from: ann@example.com"] := by
  refine ⟨rfl, rfl, rfl, ?_⟩
  decide

/-- The generated loop is the loop of the specification, followed by the next block when
no body run raised. -/
theorem runProg_forEach (w : World) (lc : String → String) (body : Block) (sc : Scope)
    (rest : Prog) (l : List Email) (s : Executor) :
    runProg w
        (l.foldr (fun currentEmail acc =>
          .log (" Processing email from: " ++ currentEmail.from_)
            (compile lc body
              (Scope.enter (declared body) (("currentEmail", some (.email currentEmail)) :: sc))
              acc))
          rest) s
      = thenRun w (forEachSpec w lc body sc l s) rest := by
  induction l generalizing s with
  | nil => rfl
  | cons e more ih =>
    simp only [List.foldr_cons, runProg, forEachSpec]
    rw [runProg_compile]
    cases hr : runProg w
        (compile lc body
          (Scope.enter (declared body) (("currentEmail", some (.email e)) :: sc)) .done)
        (ctxLog s (" Processing email from: " ++ e.from_)) with
    | mk res t =>
      cases res with
      | error m => rfl
      | ok u => simp only [thenRun]; exact ih t

theorem forEachSpec_segments (w : World) (lc : String → String) (body : Block) (sc : Scope)
    (l : List Email) (s s1 : Executor) (hok : forEachSpec w lc body sc l s = (.ok (), s1)) :
    ∃ segs : List (List OutputItem),
      List.Forall₂ (EmailSegment w lc body sc) l segs ∧ s1.output = s.output ++ segs.flatten := by
  induction l generalizing s with
  | nil =>
    simp only [forEachSpec, Prod.mk.injEq, true_and] at hok
    subst hok
    exact ⟨[], List.Forall₂.nil, by simp⟩
  | cons e more ih =>
    simp only [forEachSpec] at hok
    cases hr : runProg w
        (compile lc body
          (Scope.enter (declared body) (("currentEmail", some (.email e)) :: sc)) .done)
        (ctxLog s (" Processing email from: " ++ e.from_)) with
    | mk res t =>
      rw [hr] at hok
      cases res with
      | error m => simp at hok
      | ok u =>
        simp only at hok
        obtain ⟨segs, hsegs, hout⟩ := ih t hok
        have hpre := (reach_runProg w
          (compile lc body
            (Scope.enter (declared body) (("currentEmail", some (.email e)) :: sc)) .done)
          (ctxLog s (" Processing email from: " ++ e.from_))).output_extends
        rw [hr] at hpre
        obtain ⟨bodyEvents, hbody⟩ := hpre
        have ht : t.output = s.output
            ++ (outputItem s "log" (" Processing email from: " ++ e.from_) [] :: bodyEvents) := by
          rw [← hbody]
          simp [ctxLog, addOutput]
        refine ⟨(outputItem s "log" (" Processing email from: " ++ e.from_) [] :: bodyEvents)
          :: segs, List.Forall₂.cons ⟨s, t, bodyEvents, rfl, hr, ht⟩ hsegs, ?_⟩
        rw [hout, ht]
        simp

/-- C19, amended: for a list of n emails, the generated loop runs the rounds in list
order, each round appending the `log` event that names the sender and then running the
body for that email; the loop stops at the first body run that raises, and the error
leaves the loop.  When no body run raises, the events the loop appends are n segments in
list order, the i-th being the `log` event naming the sender of the i-th email followed
by the events of the body run for that email, and the next block runs afterwards.  The
loop is taken at a point of a well-formed chain (the scope holds the declarations of the
rest of the chain as not yet reached, no `const` in force is named `context`, `Array` or
`String`), over a list variable other than `currentEmail`, with a body that declares
neither `currentEmail` nor `context`. -/
theorem forEach_in_order (w : World) (lc : String → String) (emailList : String)
    (body next : Block) (sc : Scope) (k : Prog) (s : Executor) (l : List Email)
    (hvalid : Block.valid lc (.forEachEmail emailList body next) = true)
    (hlist : emailList ≠ "currentEmail")
    (hbody : ∀ n ∈ declared body, n ≠ "currentEmail" ∧ n ≠ "context")
    (hclean : sc.clean = true)
    (hhoist : sc.hoists (declared (.forEachEmail emailList body next)) = true)
    (hl : sc.lookup emailList = .ok (.emails l)) :
    runProg w (compile lc (.forEachEmail emailList body next) sc k) s
        = thenRun w (forEachSpec w lc body sc l s) (compile lc next sc k) ∧
      (∀ s1 : Executor, forEachSpec w lc body sc l s = (.ok (), s1) →
        ∃ segs : List (List OutputItem),
          List.Forall₂ (EmailSegment w lc body sc) l segs ∧
          segs.length = l.length ∧
          s1.output = s.output ++ segs.flatten) := by
  constructor
  · simp only [compile, hl]
    exact runProg_forEach w lc body sc _ l s
  · intro s1 hok
    obtain ⟨segs, hsegs, hout⟩ := forEachSpec_segments w lc body sc l s s1 hok
    exact ⟨segs, hsegs, hsegs.length_eq.symm, hout⟩

theorem forEach_in_order_witness :
    Block.valid asciiLower
        (.forEachEmail "emails" (.logMessage (.getProperty "subject") .stop) .stop) = true ∧
      "emails" ≠ "currentEmail" ∧
      (∀ n ∈ declared (.logMessage (.getProperty "subject") .stop),
        n ≠ "currentEmail" ∧ n ≠ "context") ∧
      Scope.clean [("emails", some (.emails twoEmails))] = true ∧
      Scope.hoists [("emails", some (.emails twoEmails))]
        (declared (.forEachEmail "emails" (.logMessage (.getProperty "subject") .stop) .stop))
        = true ∧
      Scope.lookup [("emails", some (.emails twoEmails))] "emails" = .ok (.emails twoEmails) ∧
      runProg downWorld
          (compile asciiLower
            (.forEachEmail "emails" (.logMessage (.getProperty "subject") .stop) .stop)
            [("emails", some (.emails twoEmails))] .done) hookedExecutor
        = thenRun downWorld
            (forEachSpec downWorld asciiLower (.logMessage (.getProperty "subject") .stop)
              [("emails", some (.emails twoEmails))] twoEmails hookedExecutor)
            (compile asciiLower .stop [("emails", some (.emails twoEmails))] .done) ∧
      (runProg downWorld
          (compile asciiLower
            (.forEachEmail "emails" (.logMessage (.getProperty "subject") .stop) .stop)
            [("emails", some (.emails twoEmails))] .done) hookedExecutor).2.output.map
          (fun e => (e.type, e.content))
        = [("log", " Processing email from: ann@example.com"), ("log", "Order"),
           ("log", " Processing email from: bob@example.com"), ("log", "Invoice")] :=
  ⟨by decide, by decide, by decide, by decide, by decide, rfl,
    (forEach_in_order downWorld asciiLower "emails"
      (.logMessage (.getProperty "subject") .stop) .stop
      [("emails", some (.emails twoEmails))] .done hookedExecutor twoEmails
      (by decide) (by decide) (by decide) (by decide) (by decide) rfl).1,
    by decide⟩



/-- C20 as stated fails: in the run of the scenario with the AI text
`Thanks, checking now.`, no `ai-result` event has that text as its content. -/
theorem reply_scenario_counterexample :
    (execute (aiWorld "Thanks, checking now.") inputExecutor
        (.valid (generated asciiLower replyBlocks)) true).1.success = true ∧
      ∀ e ∈ (execute (aiWorld "Thanks, checking now.") inputExecutor
          (.valid (generated asciiLower replyBlocks)) true).1.output,
        e.type = "ai-result" → e.content ≠ "Thanks, checking now." := by
  refine ⟨rfl, ?_⟩
  decide

/-- C20, amended: for every input and every non-empty text `t` that the AI service
returns with an OK status, the run of the scenario returns `success = true` and its
output is, in this order: the starting `log` event, the `log` event `start`, the `log`
event of the AI call, an `ai-result` event whose content is ` AI Result:` and a line
break followed by `t` and whose `result` field is `t`, the `log` event of the AI block,
a `result` event whose content is `t`, and the final `success` event. -/
theorem reply_scenario (w : World) (lc : String → String) (s : Executor)
    (onOutputCallback : Bool) (t : String) (data : AiData)
    (hai : w.ai (s.tick + 1) = .answer true data) (htext : data.text = some t)
    (ht : t ≠ "") :
    (execute w s (.valid (generated lc replyBlocks)) onOutputCallback).1.success = true ∧
      (execute w s (.valid (generated lc replyBlocks)) onOutputCallback).1.output.map
          (fun e => (e.type, e.content, e.metadata))
        = [("log", " Starting workflow execution...", []),
           ("log", "start", []),
           ("log", " Calling AI: draft a reply...", []),
           ("ai-result", " AI Result:\n" ++ t, [("result", .str t)]),
           ("log", "✓ AI Generation complete, saved as 'reply'", []),
           ("result", t, []),
           ("success", " Workflow completed successfully!", [])] := by
  have h1 : literalValue (escapeQuotes "start") = "start" := by decide
  have h2 : literalValue (escapeQuotes "draft a reply") = "draft a reply" := by decide
  have h3 : literalValue ("✓ AI Generation complete, saved as '" ++ "reply" ++ "'")
      = "✓ AI Generation complete, saved as 'reply'" := by decide
  have h4 : substring0 "draft a reply" 60 = "draft a reply" := by decide
  have h5 : Scope.lookup
      (Scope.declare (Scope.enter (declared replyBlocks) []) "reply" (.str t)) "reply"
      = .ok (.str t) := by
    simp [replyBlocks, declared, Scope.enter, Scope.declare, Scope.lookup]
  have htick : (startRun w s onOutputCallback).tick = s.tick + 1 := by
    simp only [startRun, checkGmailConnection]
    split <;> rfl
  have hout : (startRun w s onOutputCallback).output
      = [outputItem s "log" " Starting workflow execution..." []] :=
    (startRun_fields w s onOutputCallback).1
  have hb : (t != "") = true := by simpa using ht
  generalize hs0 : startRun w s onOutputCallback = s0 at htick hout
  have hrun : runProg w (generated lc replyBlocks) s0
      = (.ok (),
          ctxOutput
            (ctxLog
              (addOutput
                (interact w
                  (addOutput (ctxLog s0 "start") "log" " Calling AI: draft a reply..." []))
                "ai-result" (" AI Result:\n" ++ t) [("result", .str t)])
              "✓ AI Generation complete, saved as 'reply'")
            t) := by
    have hai2 : w.ai (addOutput (ctxLog s0 "start") "log"
        (" Calling AI: " ++ "draft a reply" ++ "...") []).tick = .answer true data := by
      rw [addOutput_tick]
      simp only [ctxLog, addOutput_tick, htick, hai]
    have hcall : ∀ input : String, ctxCallAI w (ctxLog s0 "start") input "draft a reply"
        = (.ok t, addOutput
            (interact w (addOutput (ctxLog s0 "start") "log" " Calling AI: draft a reply..." []))
            "ai-result" (" AI Result:\n" ++ t) [("result", .str t)]) := by
      intro input
      simp only [ctxCallAI, callAI, h4, callAITry, hai2, htext, hb, Bool.and_self, if_true,
        catchRethrow, catchReturn]
      rfl
    simp only [generated, replyBlocks, compile, evalExpr, h1, h2, h3, runProg, toStr, hcall, h5]
  refine ⟨?_, ?_⟩
  · simp only [execute, runWrapped, hs0, hrun, finishRun]
  · simp only [execute, runWrapped, hs0, hrun, finishRun]
    simp [addOutput, ctxOutput, ctxLog, interact, hout, outputItem]

theorem reply_scenario_witness :
    (aiWorld "Thanks, checking now.").ai (inputExecutor.tick + 1)
        = .answer true { text := some "Thanks, checking now.", error := none,
                         groqApiCalls := none } ∧
      "Thanks, checking now." ≠ "" ∧
      (execute (aiWorld "Thanks, checking now.") inputExecutor
        (.valid (generated asciiLower replyBlocks)) true).1.success = true :=
  ⟨rfl, by decide,
    (reply_scenario (aiWorld "Thanks, checking now.") asciiLower inputExecutor true
      "Thanks, checking now." { text := some "Thanks, checking now.", error := none,
                                groqApiCalls := none } rfl rfl (by decide)).1⟩



/-! ## Theorems: the capability calls -/

theorem callAI_flag (w : World) (s : Executor) (b : Bool) (input task : String) :
    callAI w (setGmailStatus s b) input task
      = ((callAI w s input task).1, setGmailStatus (callAI w s input task).2 b) := by
  simp only [callAI, callAITry, addOutput_tick]
  have htick : (setGmailStatus s b).tick = s.tick := rfl
  rw [htick]
  cases w.ai s.tick with
  | netError m => rfl
  | badBody ok m => rfl
  | answer ok data =>
    obtain ⟨text, err, calls⟩ := data
    cases text with
    | none => rfl
    | some text =>
      by_cases hcond : (ok && text != "") = true
      · simp only [hcond, if_true]; rfl
      · simp only [hcond, Bool.false_eq_true, if_false]; rfl

theorem generateAIReply_flag (w : World) (s : Executor) (b : Bool)
    (emailBody task subject from_ : String) :
    generateAIReply w (setGmailStatus s b) emailBody task subject from_
      = ((generateAIReply w s emailBody task subject from_).1,
          setGmailStatus (generateAIReply w s emailBody task subject from_).2 b) := by
  simp only [generateAIReply, generateAIReplyTry, addOutput_tick]
  have htick : (setGmailStatus s b).tick = s.tick := rfl
  rw [htick]
  cases w.aiReply s.tick with
  | netError m => rfl
  | badBody ok m => rfl
  | answer ok data =>
    obtain ⟨text, err, calls⟩ := data
    cases text with
    | none => rfl
    | some text =>
      by_cases hcond : (ok && text != "") = true
      · simp only [hcond, if_true]; rfl
      · simp only [hcond, Bool.false_eq_true, if_false]; rfl

theorem callAI_no_warning (w : World) (s : Executor) (input task : String) :
    (callAI w s input task).2.hookCalls = s.hookCalls ∧
      ∀ e ∈ (callAI w s input task).2.output, e ∈ s.output ∨ e.type ≠ "warning" := by
  simp only [callAI, callAITry, addOutput_tick]
  cases w.ai s.tick with
  | netError m =>
    refine ⟨rfl, ?_⟩
    intro e he
    simp only [catchRethrow, addOutput, interact, List.mem_append, List.mem_singleton] at he
    rcases he with (he | he) | he
    · exact Or.inl he
    · right; rw [he]; simp [outputItem]
    · right; rw [he]; simp [outputItem]
  | badBody ok m =>
    refine ⟨rfl, ?_⟩
    intro e he
    simp only [catchRethrow, addOutput, interact, List.mem_append, List.mem_singleton] at he
    rcases he with (he | he) | he
    · exact Or.inl he
    · right; rw [he]; simp [outputItem]
    · right; rw [he]; simp [outputItem]
  | answer ok data =>
    obtain ⟨text, err, calls⟩ := data
    cases text with
    | none =>
      refine ⟨rfl, ?_⟩
      intro e he
      simp only [catchRethrow, addOutput, interact, List.mem_append, List.mem_singleton] at he
      rcases he with ((he | he) | he) | he
      · exact Or.inl he
      · right; rw [he]; simp [outputItem]
      · right; rw [he]; simp [outputItem]
      · right; rw [he]; simp [outputItem]
    | some text =>
      by_cases hcond : (ok && text != "") = true
      · simp only [hcond, if_true]
        refine ⟨rfl, ?_⟩
        intro e he
        simp only [catchRethrow, addOutput, interact, List.mem_append, List.mem_singleton] at he
        rcases he with (he | he) | he
        · exact Or.inl he
        · right; rw [he]; simp [outputItem]
        · right; rw [he]; simp [outputItem]
      · simp only [hcond, Bool.false_eq_true, if_false]
        refine ⟨rfl, ?_⟩
        intro e he
        simp only [catchRethrow, addOutput, interact, List.mem_append, List.mem_singleton] at he
        rcases he with ((he | he) | he) | he
        · exact Or.inl he
        · right; rw [he]; simp [outputItem]
        · right; rw [he]; simp [outputItem]
        · right; rw [he]; simp [outputItem]

theorem generateAIReply_no_warning (w : World) (s : Executor)
    (emailBody task subject from_ : String) :
    (generateAIReply w s emailBody task subject from_).2.hookCalls = s.hookCalls ∧
      ∀ e ∈ (generateAIReply w s emailBody task subject from_).2.output, e ∈ s.output ∨ e.type ≠ "warning" := by
  simp only [generateAIReply, generateAIReplyTry, addOutput_tick]
  cases w.aiReply s.tick with
  | netError m =>
    refine ⟨rfl, ?_⟩
    intro e he
    simp only [catchRethrow, addOutput, interact, List.mem_append, List.mem_singleton] at he
    rcases he with (he | he) | he
    · exact Or.inl he
    · right; rw [he]; simp [outputItem]
    · right; rw [he]; simp [outputItem]
  | badBody ok m =>
    refine ⟨rfl, ?_⟩
    intro e he
    simp only [catchRethrow, addOutput, interact, List.mem_append, List.mem_singleton] at he
    rcases he with (he | he) | he
    · exact Or.inl he
    · right; rw [he]; simp [outputItem]
    · right; rw [he]; simp [outputItem]
  | answer ok data =>
    obtain ⟨text, err, calls⟩ := data
    cases text with
    | none =>
      refine ⟨rfl, ?_⟩
      intro e he
      simp only [catchRethrow, addOutput, interact, List.mem_append, List.mem_singleton] at he
      rcases he with ((he | he) | he) | he
      · exact Or.inl he
      · right; rw [he]; simp [outputItem]
      · right; rw [he]; simp [outputItem]
      · right; rw [he]; simp [outputItem]
    | some text =>
      by_cases hcond : (ok && text != "") = true
      · simp only [hcond, if_true]
        refine ⟨rfl, ?_⟩
        intro e he
        simp only [catchRethrow, addOutput, interact, List.mem_append, List.mem_singleton] at he
        rcases he with (he | he) | he
        · exact Or.inl he
        · right; rw [he]; simp [outputItem]
        · right; rw [he]; simp [outputItem]
      · simp only [hcond, Bool.false_eq_true, if_false]
        refine ⟨rfl, ?_⟩
        intro e he
        simp only [catchRethrow, addOutput, interact, List.mem_append, List.mem_singleton] at he
        rcases he with ((he | he) | he) | he
        · exact Or.inl he
        · right; rw [he]; simp [outputItem]
        · right; rw [he]; simp [outputItem]
        · right; rw [he]; simp [outputItem]

/-- C21: the AI calls are not gated.  `callAI` and `generateAIReply` give the same result
and make the same changes whatever the value of `gmailConnected`, which they leave as
it is; they never invoke the authorization hook and append no `warning` event; and their
outcome is decided by the AI endpoint alone: the hook, the status updates of the caller
and the other endpoints have no part in it, so no authorization error can arise. -/
theorem ai_not_gated (w : World) (s : Executor) (input emailBody task subject from_ : String) :
    (∀ b : Bool,
        callAI w (setGmailStatus s b) input task
          = ((callAI w s input task).1, setGmailStatus (callAI w s input task).2 b) ∧
        generateAIReply w (setGmailStatus s b) emailBody task subject from_
          = ((generateAIReply w s emailBody task subject from_).1,
              setGmailStatus (generateAIReply w s emailBody task subject from_).2 b)) ∧
      (callAI w s input task).2.hookCalls = s.hookCalls ∧
      (generateAIReply w s emailBody task subject from_).2.hookCalls = s.hookCalls ∧
      (∀ e ∈ (callAI w s input task).2.output, e ∈ s.output ∨ e.type ≠ "warning") ∧
      (∀ e ∈ (generateAIReply w s emailBody task subject from_).2.output,
        e ∈ s.output ∨ e.type ≠ "warning") ∧
      (∀ (v : World) (hook : Bool), v.ai = w.ai → v.aiReply = w.aiReply →
          v.elapsed = w.elapsed →
        callAI v (setGmailRequiredCallback s hook) input task
          = ((callAI w s input task).1,
              setGmailRequiredCallback (callAI w s input task).2 hook) ∧
        generateAIReply v (setGmailRequiredCallback s hook) emailBody task subject from_
          = ((generateAIReply w s emailBody task subject from_).1,
              setGmailRequiredCallback
                (generateAIReply w s emailBody task subject from_).2 hook)) := by
  refine ⟨fun b => ⟨callAI_flag w s b input task,
      generateAIReply_flag w s b emailBody task subject from_⟩,
    (callAI_no_warning w s input task).1,
    (generateAIReply_no_warning w s emailBody task subject from_).1,
    (callAI_no_warning w s input task).2,
    (generateAIReply_no_warning w s emailBody task subject from_).2, ?_⟩
  intro v hook hai hreply hel
  constructor
  · simp only [callAI, callAITry, addOutput_tick, interact, hai, hel]
    have htick : (setGmailRequiredCallback s hook).tick = s.tick := rfl
    rw [htick]
    cases w.ai s.tick with
    | netError m => rfl
    | badBody ok m => rfl
    | answer ok data =>
      obtain ⟨text, err, calls⟩ := data
      cases text with
      | none => rfl
      | some text =>
        by_cases hcond : (ok && text != "") = true
        · simp only [hcond, if_true]; rfl
        · simp only [hcond, Bool.false_eq_true, if_false]; rfl
  · simp only [generateAIReply, generateAIReplyTry, addOutput_tick, interact, hreply, hel]
    have htick : (setGmailRequiredCallback s hook).tick = s.tick := rfl
    rw [htick]
    cases w.aiReply s.tick with
    | netError m => rfl
    | badBody ok m => rfl
    | answer ok data =>
      obtain ⟨text, err, calls⟩ := data
      cases text with
      | none => rfl
      | some text =>
        by_cases hcond : (ok && text != "") = true
        · simp only [hcond, if_true]; rfl
        · simp only [hcond, Bool.false_eq_true, if_false]; rfl



/-- The request of `sendEmailReply` answered with an OK status and `success` set: the
call returns the data and appends exactly one event. -/
theorem sendEmailReplyTry_sent (w : World) (s : Executor) (data : SendData)
    (hw : w.send s.tick = .answer true data) (hsucc : data.success = true) :
    (catchRethrow "error" " Send error: " (sendEmailReplyTry w s)).1 = .ok data ∧
      ∃ e : OutputItem,
        (catchRethrow "error" " Send error: " (sendEmailReplyTry w s)).2.output
          = s.output ++ [e] ∧
        e.type = (if data.testMode then "test-mode" else "email-sent") ∧
        e.timestamp = (interact w s).now ∧
        ("emailDetails", Value.details data.emailDetails) ∈ e.metadata := by
  by_cases htest : data.testMode = true
  · simp only [sendEmailReplyTry, hw, hsucc, htest, Bool.and_self, if_true, catchRethrow]
    exact ⟨trivial, _, rfl, rfl, rfl, List.mem_cons_self _ _⟩
  · have hf : data.testMode = false := by simpa using htest
    simp only [sendEmailReplyTry, hw, hsucc, hf, Bool.and_self, if_true, Bool.false_eq_true,
      if_false, catchRethrow]
    exact ⟨trivial, _, rfl, rfl, rfl, List.mem_cons_of_mem _ (List.mem_cons_self _ _)⟩

/-- The request of `sendEmailReply` not answered with an OK status and `success` set: the
call raises and appends `error` events only. -/
theorem sendEmailReplyTry_failed (w : World) (s : Executor)
    (hw : ∀ data : SendData, w.send s.tick = .answer true data → data.success = false) :
    (∃ m : String, (catchRethrow "error" " Send error: " (sendEmailReplyTry w s)).1 = .error m) ∧
      ∃ rest : List OutputItem,
        (catchRethrow "error" " Send error: " (sendEmailReplyTry w s)).2.output
          = s.output ++ rest ∧
        rest ≠ [] ∧ ∀ e ∈ rest, e.type = "error" := by
  cases hsend : w.send s.tick with
  | netError m =>
    simp only [sendEmailReplyTry, hsend, catchRethrow]
    refine ⟨⟨m, rfl⟩, [outputItem (interact w s) "error" (" Send error: " ++ m) []], rfl,
      by simp, ?_⟩
    intro e he
    simp only [List.mem_singleton] at he
    rw [he]; rfl
  | badBody ok m =>
    simp only [sendEmailReplyTry, hsend, catchRethrow]
    refine ⟨⟨m, rfl⟩, [outputItem (interact w s) "error" (" Send error: " ++ m) []], rfl,
      by simp, ?_⟩
    intro e he
    simp only [List.mem_singleton] at he
    rw [he]; rfl
  | answer ok data =>
    have hcond : (ok && data.success) = false := by
      cases ok with
      | false => rfl
      | true => simp [hw data hsend]
    simp only [sendEmailReplyTry, hsend, hcond, Bool.false_eq_true, if_false, catchRethrow]
    refine ⟨⟨_, rfl⟩,
      [outputItem (interact w s) "error" (" Failed to send email: " ++ render data.error) [],
       outputItem (interact w s) "error"
         (" Send error: " ++ orElse data.error "Send failed") []], ?_, by simp, ?_⟩
    · simp [addOutput, interact, outputItem]
    · intro e he
      simp only [List.mem_cons, List.mem_singleton, List.not_mem_nil, or_false] at he
      rcases he with he | he <;> (rw [he]; rfl)

/-- C22: when `sendEmailReply` passes the gate, it appends the `log` event and then one
`email-sending` event carrying the destination, the subject and the body length, both
before the request is issued: the request is the next interaction of the executor
`sending` that holds them, so they are in the log whatever the request does.  When the
request succeeds (an OK status and `success` set), the call returns the data of the
answer and exactly one further event is appended, of type `test-mode` if the provider
reports a simulated send and of type `email-sent` otherwise, carrying the email details.
When the request does not succeed, the call raises and only `error` events follow. -/
theorem sendEmailReply_events (w : World) (s : Executor)
    (emailId replyBody subject to_ threadId : String)
    (hgate : (ensureGmailConnected w s).1 = .ok ()) :
    ∃ sending : Executor,
      sending.output
        = (ensureGmailConnected w s).2.output
          ++ [{ type := "log", content := " Sending reply to " ++ to_ ++ "...",
                timestamp := (ensureGmailConnected w s).2.now, metadata := [] },
              { type := "email-sending", content := sendingContent replyBody subject to_,
                timestamp := (ensureGmailConnected w s).2.now,
                metadata := [("to", .str to_), ("subject", .str ("Re: " ++ subject)),
                             ("body", .str replyBody), ("bodyLength", .num replyBody.length)] }] ∧
      sending.tick = (ensureGmailConnected w s).2.tick ∧
      sendEmailReply w s emailId replyBody subject to_ threadId
        = catchRethrow "error" " Send error: " (sendEmailReplyTry w sending) ∧
      (∀ data : SendData, w.send sending.tick = .answer true data → data.success = true →
        (sendEmailReply w s emailId replyBody subject to_ threadId).1 = .ok data ∧
        ∃ e : OutputItem,
          (sendEmailReply w s emailId replyBody subject to_ threadId).2.output
            = sending.output ++ [e] ∧
          e.type = (if data.testMode then "test-mode" else "email-sent") ∧
          e.timestamp = (interact w sending).now ∧
          ("emailDetails", Value.details data.emailDetails) ∈ e.metadata) ∧
      ((∀ data : SendData, w.send sending.tick = .answer true data → data.success = false) →
        (∃ m : String,
          (sendEmailReply w s emailId replyBody subject to_ threadId).1 = .error m) ∧
        ∃ rest : List OutputItem,
          (sendEmailReply w s emailId replyBody subject to_ threadId).2.output
            = sending.output ++ rest ∧
          rest ≠ [] ∧ ∀ e ∈ rest, e.type = "error") := by
  generalize hg : ensureGmailConnected w s = g at hgate
  obtain ⟨r1, t⟩ := g
  simp only at hgate
  subst hgate
  have hsend : sendEmailReply w s emailId replyBody subject to_ threadId
      = catchRethrow "error" " Send error: "
          (sendEmailReplyTry w
            (addOutput (addOutput t "log" (" Sending reply to " ++ to_ ++ "...") [])
              "email-sending" (sendingContent replyBody subject to_)
              [("to", .str to_), ("subject", .str ("Re: " ++ subject)), ("body", .str replyBody),
               ("bodyLength", .num replyBody.length)])) := by
    simp only [sendEmailReply, hg]
  refine ⟨addOutput (addOutput t "log" (" Sending reply to " ++ to_ ++ "...") [])
      "email-sending" (sendingContent replyBody subject to_)
      [("to", .str to_), ("subject", .str ("Re: " ++ subject)), ("body", .str replyBody),
       ("bodyLength", .num replyBody.length)], ?_, rfl, hsend, ?_, ?_⟩
  · simp [addOutput, outputItem]
  · intro data hw hsucc
    rw [hsend]
    exact sendEmailReplyTry_sent w _ data hw hsucc
  · intro hw
    rw [hsend]
    exact sendEmailReplyTry_failed w _ hw

theorem sendEmailReply_events_witness :
    (ensureGmailConnected sentWorld connectedExecutor).1 = .ok () ∧
      ((sendEmailReply sentWorld connectedExecutor "m1" "Thank you" "Order" "a@example.com"
          "t1").2.output.map (fun e => e.type))
        = ["log", "email-sending", "email-sent"] ∧
      ((sendEmailReply quotaWorld connectedExecutor "m1" "Thank you" "Order" "a@example.com"
          "t1").2.output.map (fun e => e.type))
        = ["log", "email-sending", "error", "error"] ∧
      (sendEmailReply sentWorld connectedExecutor "m1" "Thank you" "Order" "a@example.com"
          "t1").1
        = .ok { success := true, testMode := false, messageId := some "sent1",
                emailDetails := some { to_ := some "a@example.com", subject := some "Re: Order",
                                       body := some "Thank you" },
                error := none } :=
  ⟨rfl, by decide, by decide,
    match sendEmailReply_events sentWorld connectedExecutor "m1" "Thank you" "Order"
      "a@example.com" "t1" rfl with
    | ⟨sending, _, _, _, hsent, _⟩ => (hsent _ rfl rfl).1⟩



theorem previewEach_ok (emails : List Email) (index : Nat) (s : Executor)
    (h : ∀ e ∈ emails, snippetOrBody e ≠ none) :
    (previewEach emails index s).1 = .ok () ∧
      (previewEach emails index s).2.output
        = s.output ++ (emails.enumFrom index).map (fun p => previewItem s.now p.1 p.2) ∧
      (previewEach emails index s).2.now = s.now := by
  induction emails generalizing index s with
  | nil => simp [previewEach]
  | cons e rest ih =>
    have he : snippetOrBody e ≠ none := h e (List.mem_cons_self _ _)
    have hrest : ∀ x ∈ rest, snippetOrBody x ≠ none :=
      fun x hx => h x (List.mem_cons_of_mem _ hx)
    cases hsb : snippetOrBody e with
    | none => exact absurd hsb he
    | some text =>
      simp only [previewEach, hsb]
      obtain ⟨h1, h2, h3⟩ := ih (index + 1)
        (addOutput s "email-preview" (previewContent index e text) [("emailData", .email e)]) hrest
      refine ⟨h1, ?_, ?_⟩
      · rw [h2]
        simp [addOutput, outputItem, previewItem, hsb, List.enumFrom]
      · rw [h3]; rfl

/-- C23: when the gate lets the call through and the email list request is answered with
n >= 1 emails, each with a text as the value of `email.snippet || email.body`,
`fetchUnreadEmails` appends the `log` event, one `success` event and then exactly n
`email-preview` events, the i-th for the i-th email, and returns the n emails unchanged
and in order; when the answer holds no emails it appends the `log` event and one `info`
event, no `email-preview` event, and returns the empty list. -/
theorem fetchUnreadEmails_events (w : World) (s : Executor) (ok : Bool) (data : UnreadData)
    (hgate : (ensureGmailConnected w s).1 = .ok ())
    (hans : w.unread (ensureGmailConnected w s).2.tick = .answer ok data) :
    (∀ l : List Email, data.emails = some l → l ≠ [] →
        (∀ e ∈ l, snippetOrBody e ≠ none) →
        (fetchUnreadEmails w s).1 = .ok l ∧
        (fetchUnreadEmails w s).2.output
          = (ensureGmailConnected w s).2.output
            ++ [{ type := "log", content := " Fetching unread emails...",
                  timestamp := (ensureGmailConnected w s).2.now, metadata := [] },
                { type := "success",
                  content := " Found " ++ toString l.length ++ " unread email(s)",
                  timestamp := (fetchUnreadEmails w s).2.now,
                  metadata := [("count", .num l.length)] }]
            ++ (l.enumFrom 0).map (fun p => previewItem (fetchUnreadEmails w s).2.now p.1 p.2) ∧
        ((l.enumFrom 0).map
          (fun p => previewItem (fetchUnreadEmails w s).2.now p.1 p.2)).length = l.length) ∧
      ((data.emails = none ∨ data.emails = some []) →
        (fetchUnreadEmails w s).1 = .ok [] ∧
        (fetchUnreadEmails w s).2.output
          = (ensureGmailConnected w s).2.output
            ++ [{ type := "log", content := " Fetching unread emails...",
                  timestamp := (ensureGmailConnected w s).2.now, metadata := [] },
                { type := "info", content := " No unread emails found",
                  timestamp := (fetchUnreadEmails w s).2.now, metadata := [] }]) := by
  generalize hg : ensureGmailConnected w s = g at hgate hans
  obtain ⟨r1, t⟩ := g
  simp only at hgate hans
  subst hgate
  have hf : fetchUnreadEmails w s
      = catchRethrow "error" " Failed to fetch emails: "
          (fetchUnreadEmailsTry w (addOutput t "log" " Fetching unread emails..." [])) := by
    simp only [fetchUnreadEmails, hg]
  have hans1 : w.unread (addOutput t "log" " Fetching unread emails..." []).tick
      = .answer ok data := hans
  obtain ⟨emails, err⟩ := data
  constructor
  · intro l hl hne hall
    simp only at hl
    subst hl
    obtain ⟨e, more, rfl⟩ : ∃ e more, l = e :: more := by
      cases l with
      | nil => exact absurd rfl hne
      | cons e more => exact ⟨e, more, rfl⟩
    obtain ⟨h1, h2, h3⟩ := previewEach_ok (e :: more) 0
      (addOutput (interact w (addOutput t "log" " Fetching unread emails..." [])) "success"
        (" Found " ++ toString (e :: more).length ++ " unread email(s)")
        [("count", .num (e :: more).length)]) hall
    have htry : fetchUnreadEmailsTry w (addOutput t "log" " Fetching unread emails..." [])
        = (.ok (e :: more),
            (previewEach (e :: more) 0
              (addOutput (interact w (addOutput t "log" " Fetching unread emails..." []))
                "success" (" Found " ++ toString (e :: more).length ++ " unread email(s)")
                [("count", .num (e :: more).length)])).2) := by
      simp only [fetchUnreadEmailsTry, hans1]
      generalize previewEach (e :: more) 0 _ = r at h1
      obtain ⟨res, t2⟩ := r
      simp only at h1
      subst h1
      rfl
    rw [hf, htry]
    simp only [catchRethrow]
    refine ⟨trivial, ?_, by simp⟩
    rw [h2, h3]
    simp [addOutput, interact, outputItem]
  · intro hnone
    have htry : fetchUnreadEmailsTry w (addOutput t "log" " Fetching unread emails..." [])
        = (.ok [], addOutput (interact w (addOutput t "log" " Fetching unread emails..." []))
            "info" " No unread emails found" []) := by
      simp only [fetchUnreadEmailsTry, hans1]
      rcases hnone with h | h <;> (simp only at h; subst h; rfl)
    rw [hf, htry]
    simp only [catchRethrow]
    refine ⟨trivial, ?_⟩
    simp [addOutput, interact, outputItem]

theorem fetchUnreadEmails_events_witness :
    (ensureGmailConnected inboxWorld connectedExecutor).1 = .ok () ∧
      inboxWorld.unread (ensureGmailConnected inboxWorld connectedExecutor).2.tick
        = .answer true { emails := some twoEmails, error := none } ∧
      (fetchUnreadEmails inboxWorld connectedExecutor).1 = .ok twoEmails ∧
      (fetchUnreadEmails inboxWorld connectedExecutor).2.output.map (fun e => e.type)
        = ["log", "success", "email-preview", "email-preview"] :=
  ⟨rfl, rfl,
    ((fetchUnreadEmails_events inboxWorld connectedExecutor true
      { emails := some twoEmails, error := none } rfl rfl).1 twoEmails rfl (by decide)
      (by decide)).1,
    by decide⟩



/-- C24 as stated fails: combining the texts `a` and `b` gives `a b`, with a space between
them, not the concatenation `ab`; displayed by a run, the value is `a b`. -/
theorem combineText_counterexample :
    evalValue (.combineText (.simpleText "a") (.simpleText "b")) [] connectedExecutor
        = .ok (.str "a b") ∧
      evalValue (.simpleText "a") [] connectedExecutor = .ok (.str "a") ∧
      evalValue (.simpleText "b") [] connectedExecutor = .ok (.str "b") ∧
      "a b" ≠ toStr (.str "a") ++ toStr (.str "b") ∧
      (execute downWorld connectedExecutor
          (.valid (generated asciiLower
            (.displayResult (.combineText (.simpleText "a") (.simpleText "b")) .stop)))
          true).1.output.map (fun e => (e.type, e.content))
        = [("log", " Starting workflow execution..."), ("result", "a b"),
           ("success", " Workflow completed successfully!")] := by
  refine ⟨rfl, rfl, rfl, ?_, ?_⟩ <;> decide

/-- C24, amended: for all operand values a and b, a `combine_text` expression evaluates to
the text of a, one space, and the text of b; the evaluation changes neither the variables
nor the output log: the code that follows runs from the same executor. -/
theorem combineText_value (w : World) (text1 text2 : Expr) (sc : Scope) (s : Executor)
    (a b : Value) (h1 : evalValue text1 sc s = .ok a) (h2 : evalValue text2 sc s = .ok b) :
    evalValue (.combineText text1 text2) sc s = .ok (.str (toStr a ++ " " ++ toStr b)) ∧
      (∀ k : Value → Prog,
        runProg w (evalExpr (.combineText text1 text2) sc k) s
          = runProg w (k (.str (toStr a ++ " " ++ toStr b))) s) := by
  have hv : evalValue (.combineText text1 text2) sc s
      = .ok (.str (toStr a ++ " " ++ toStr b)) := by
    simp only [evalValue, h1, h2]
  refine ⟨hv, ?_⟩
  intro k
  rw [runProg_evalExpr, hv]

theorem combineText_value_witness :
    evalValue (.inputData "emailBody") [] inputExecutor = .ok (.str "order #12345 not shipped") ∧
      evalValue (.simpleText "thanks") [] inputExecutor = .ok (.str "thanks") ∧
      evalValue (.combineText (.inputData "emailBody") (.simpleText "thanks")) [] inputExecutor
        = .ok (.str "order #12345 not shipped thanks") :=
  ⟨rfl, rfl,
    (combineText_value downWorld (.inputData "emailBody") (.simpleText "thanks") []
      inputExecutor (.str "order #12345 not shipped") (.str "thanks") rfl rfl).1⟩

theorem lookup_declare_same (sc : Scope) (name : String) (value : Value) :
    (sc.declare name value).lookup name = .ok value := by
  induction sc with
  | nil => simp [Scope.declare, Scope.lookup]
  | cons b rest ih =>
    obtain ⟨n, x⟩ := b
    by_cases hn : n = name
    · subst hn
      simp [Scope.declare, Scope.lookup]
    · have hne : (n == name) = false := by simpa using hn
      simp only [Scope.declare, hne]
      simp only [Scope.lookup, List.find?, hne] at ih ⊢
      exact ih

theorem lookup_declare_other (sc : Scope) (name other : String) (value : Value)
    (h : other ≠ name) :
    (sc.declare name value).lookup other = sc.lookup other := by
  induction sc with
  | nil =>
    have hne : (name == other) = false := by simpa using fun e => h e.symm
    simp [Scope.declare, Scope.lookup, List.find?, hne]
  | cons b rest ih =>
    obtain ⟨n, x⟩ := b
    by_cases hn : n = name
    · subst hn
      have hne : (n == other) = false := by simpa using fun e => h e.symm
      simp [Scope.declare, Scope.lookup, List.find?, hne]
    · have hne : (n == name) = false := by simpa using hn
      simp only [Scope.declare, hne]
      by_cases ho : n = other
      · subst ho
        simp [Scope.lookup, List.find?]
      · have hno : (n == other) = false := by simpa using ho
        simp only [Scope.lookup, List.find?, hno] at ih ⊢
        exact ih

/-- C25: for every fetched list L and every limit N (the block offers 1, 3, 5, 10 and 20),
the code compiled from `gmail_fetch_unread` goes on with the target variable bound to the
first min(N, |L|) elements of L in their original order and, with the choice "all", to L
itself, while `allEmails` is bound to L; the one `log` event it appends after the fetch
reports the length of the bound list and the length of L.  The block is taken at a point
of a well-formed chain: the target variable is an identifier, the chain declares each
name once (so the target is not `allEmails`), the scope holds the declarations of the
chain as not yet reached, and no `const` in force is named `context`, `Array` or `String`
(so the target is none of these either). -/
theorem fetchUnread_limit (w : World) (lc : String → String) (maxEmails : Option Nat)
    (varName : String) (next : Block) (sc : Scope) (k : Prog) (s : Executor) (L : List Email)
    (hvalid : Block.valid lc (.fetchUnread maxEmails varName next) = true)
    (hclean : sc.clean = true)
    (hhoist : sc.hoists (declared (.fetchUnread maxEmails varName next)) = true)
    (hfetch : (ctxFetchEmails w s).1 = .ok L) :
    ∃ (bound : List Email) (sc1 : Scope),
      runProg w (compile lc (.fetchUnread maxEmails varName next) sc k) s
        = runProg w (compile lc next sc1 k)
            (addOutput (ctxFetchEmails w s).2 "log"
              (" Processing " ++ toString bound.length ++ " of " ++ toString L.length
                ++ " unread email(s)") []) ∧
      sc1.lookup varName = .ok (.emails bound) ∧
      sc1.lookup "allEmails" = .ok (.emails L) ∧
      (∀ other : String, other ≠ varName → other ≠ "allEmails" →
        sc1.lookup other = sc.lookup other) ∧
      (maxEmails = none → bound = L) ∧
      (∀ N : Nat, maxEmails = some N →
        bound = L.take N ∧ bound <+: L ∧ bound.length = min N L.length) := by
  have hname : varName ≠ "allEmails" := by
    intro h
    subst h
    simp [Block.valid, declared] at hvalid
  generalize hf : ctxFetchEmails w s = r at hfetch
  obtain ⟨res, t⟩ := r
  simp only at hfetch
  subst hfetch
  cases maxEmails with
  | none =>
    refine ⟨L, (sc.declare "allEmails" (.emails L)).declare varName (.emails L),
      ?_, ?_, ?_, ?_, ?_, ?_⟩
    · simp only [compile, runProg, hf, ctxLog]
    · exact lookup_declare_same _ _ _
    · rw [lookup_declare_other _ _ _ _ (fun e => hname e.symm)]
      exact lookup_declare_same _ _ _
    · intro other h1 h2
      rw [lookup_declare_other _ _ _ _ h1, lookup_declare_other _ _ _ _ h2]
    · intro h
      rfl
    · intro N h
      exact Option.noConfusion h
  | some n =>
    refine ⟨L.take n, (sc.declare "allEmails" (.emails L)).declare varName (.emails (L.take n)),
      ?_, ?_, ?_, ?_, ?_, ?_⟩
    · simp only [compile, runProg, hf, ctxLog]
    · exact lookup_declare_same _ _ _
    · rw [lookup_declare_other _ _ _ _ (fun e => hname e.symm)]
      exact lookup_declare_same _ _ _
    · intro other h1 h2
      rw [lookup_declare_other _ _ _ _ h1, lookup_declare_other _ _ _ _ h2]
    · intro h
      exact Option.noConfusion h
    · intro N h
      cases h
      exact ⟨rfl, List.take_prefix _ L, List.length_take _ L⟩

theorem fetchUnread_limit_witness :
    Block.valid asciiLower (.fetchUnread (some 1) "emails" .stop) = true ∧
      Scope.clean (Scope.enter (declared (.fetchUnread (some 1) "emails" .stop)) []) = true ∧
      Scope.hoists (Scope.enter (declared (.fetchUnread (some 1) "emails" .stop)) [])
        (declared (.fetchUnread (some 1) "emails" .stop)) = true ∧
      (ctxFetchEmails inboxWorld connectedExecutor).1 = .ok twoEmails ∧
      ∃ (bound : List Email) (sc1 : Scope),
        runProg inboxWorld
            (compile asciiLower (.fetchUnread (some 1) "emails" .stop)
              (Scope.enter (declared (.fetchUnread (some 1) "emails" .stop)) []) .done)
            connectedExecutor
          = runProg inboxWorld (compile asciiLower .stop sc1 .done)
              (addOutput (ctxFetchEmails inboxWorld connectedExecutor).2 "log"
                (" Processing " ++ toString bound.length ++ " of " ++ toString twoEmails.length
                  ++ " unread email(s)") []) ∧
        sc1.lookup "emails" = .ok (.emails bound) ∧
        bound = twoEmails.take 1 :=
  ⟨by decide, by decide, by decide, rfl,
    match fetchUnread_limit inboxWorld asciiLower (some 1) "emails" .stop
        (Scope.enter (declared (.fetchUnread (some 1) "emails" .stop)) []) .done
        connectedExecutor twoEmails (by decide) (by decide) (by decide) rfl with
    | ⟨bound, sc1, hrun, hvar, _, _, _, hlimit⟩ =>
      ⟨bound, sc1, hrun, hvar, (hlimit 1 rfl).1⟩⟩



/-- C28, the failing input: for the text `C:\temp` the block emits `"C:\temp"`, a literal
whose value is `C:`, a tab and `emp`, not the text; for a text with a line break, and for
the text made of one backslash, what the block emits is not a string literal at all.  A
run that displays the block shows the tab. -/
theorem simpleText_backslash :
    escapeQuotes "C:\\temp" = "C:\\temp" ∧
      decodeLiteral (escapeQuotes "C:\\temp").data = some "C:\temp".data ∧
      "C:\temp" ≠ "C:\\temp" ∧
      evalValue (.simpleText "C:\\temp") [] connectedExecutor = .ok (.str "C:\temp") ∧
      decodeLiteral (escapeQuotes "a\nb").data = none ∧
      decodeLiteral (escapeQuotes "\\").data = none ∧
      (execute downWorld connectedExecutor
          (.valid (generated asciiLower (.displayResult (.simpleText "C:\\temp") .stop)))
          true).1.output.map (fun e => (e.type, e.content))
        = [("log", " Starting workflow execution..."), ("result", "C:\temp"),
           ("success", " Workflow completed successfully!")] := by
  refine ⟨?_, ?_, ?_, rfl, ?_, ?_, ?_⟩ <;> decide

theorem decodeLiteral_escapeQuotes (l : List Char)
    (h : l.all (fun c => !(c = '\\' || c = '\n' || c = '\r')) = true) :
    decodeLiteral (escapeQuotesChars l) = some l := by
  induction l with
  | nil => rfl
  | cons c rest ih =>
    simp only [List.all_cons, Bool.and_eq_true] at h
    have hc := h.1
    simp at hc
    obtain ⟨⟨h1, h2⟩, h3⟩ := hc
    by_cases hq : c = '"'
    · subst hq
      simp only [escapeQuotesChars, if_true]
      rw [decodeLiteral.eq_def]
      simp [escapeValue, ih h.2]
    · simp only [escapeQuotesChars, hq, if_false]
      rw [decodeLiteral.eq_def]
      simp [h1, h2, h3, hq, ih h.2]

/-- The part of C28 that holds: for every text without backslash and line break, double
quotes included, the text the `simple_text` block places between double quotes is the
inside of a string literal whose value is the text, and the block evaluates to it. -/
theorem simpleText_value (text : String) (sc : Scope) (s : Executor)
    (h : text.data.all (fun c => !(c = '\\' || c = '\n' || c = '\r')) = true) :
    decodeLiteral (escapeQuotes text).data = some text.data ∧
      evalValue (.simpleText text) sc s = .ok (.str text) := by
  have hd : decodeLiteral (escapeQuotes text).data = some text.data :=
    decodeLiteral_escapeQuotes text.data h
  refine ⟨hd, ?_⟩
  simp only [evalValue, literalValue, hd]

theorem simpleText_value_witness :
    "say \"hi\"".data.all (fun c => !(c = '\\' || c = '\n' || c = '\r')) = true ∧
      escapeQuotes "say \"hi\"" = "say \\\"hi\\\"" ∧
      evalValue (.simpleText "say \"hi\"") [] connectedExecutor = .ok (.str "say \"hi\"") :=
  ⟨by decide, by decide,
    (simpleText_value "say \"hi\"" [] connectedExecutor (by decide)).2⟩

/-- The code of a `gmail_mark_read` block with a current email that has an id: whatever
`context.markRead` returns, the next thing the code does is append the `log` event
`✓ Email marked as read`. -/
theorem markRead_block_run (w : World) (lc : String → String) (next : Block) (sc : Scope)
    (k : Prog) (s : Executor) (e : Email) (hcur : sc.lookup "currentEmail" = .ok (.email e))
    (hid : e.id ≠ "") :
    runProg w (compile lc (.markRead next) sc k) s
      = runProg w (compile lc next sc k)
          (ctxLog (ctxMarkRead w s e.id).2 "✓ Email marked as read") := by
  have htruthy : truthyValue (member (.email e) "id") = true := by
    simp [member, truthyValue, hid]
  have hstr : toStr (member (.email e) "id") = e.id := by
    simp [member, toStr]
  simp only [compile, hcur, htruthy, if_true, runProg, hstr]
  have hok : ∃ b, (ctxMarkRead w s e.id).1 = .ok b := by
    simp only [ctxMarkRead, catchReturn]
    split <;> exact ⟨_, rfl⟩
  obtain ⟨b, hb⟩ := hok
  generalize ctxMarkRead w s e.id = r at hb
  obtain ⟨res, t⟩ := r
  simp only at hb
  subst hb
  rfl

/-- C30, the failing input: the mark-read endpoint answers status 500, so
`context.markRead` returns false after the `warning` event of the engine; the code of the
`gmail_mark_read` block appends the `log` event `✓ Email marked as read` all the same,
and the run ends in success. -/
theorem markRead_block_logs_after_failure :
    (ctxMarkRead markFailsWorld (startRun markFailsWorld connectedExecutor true) "m1").1
        = .ok false ∧
      (execute markFailsWorld connectedExecutor (.valid (generated asciiLower markAll))
          true).1.success = true ∧
      (execute markFailsWorld connectedExecutor (.valid (generated asciiLower markAll))
          true).1.output.map (fun e => (e.type, e.content))
        = [("log", " Starting workflow execution..."),
           ("log", " Fetching unread emails..."),
           ("success", " Found 1 unread email(s)"),
           ("email-preview", previewContent 0
             { id := "m1", threadId := "t1", from_ := "ann@example.com", subject := "Order",
               snippet := some "Where is my order?", body := some "Where is my order?" }
             "Where is my order?"),
           ("log", " Processing 1 of 1 unread email(s)"),
           ("log", " Processing email from: ann@example.com"),
           ("warning", "  Could not mark email as read: Insufficient Permission"),
           ("log", "✓ Email marked as read"),
           ("success", " Workflow completed successfully!")] := by
  refine ⟨rfl, rfl, ?_⟩
  decide



/-- C26, the failing input: `new Set` is called with two arrays and keeps the elements of
the first one only, so `ALLOWED_TEST_EMAILS` holds `agarodia98@gmail.com` and not
`sg4647@barnard.edu`.  For a reply addressed to the second address `shouldSendRealEmail`
is false and the handler makes no call of the Gmail send operation; a reply addressed to
the first address is sent. -/
theorem allowedTestEmails_second_address_missing :
    (∀ lc : String → String, ALLOWED_TEST_EMAILS lc = [lc "agarodia98@gmail.com"]) ∧
      ALLOWED_TEST_EMAILS asciiLower = ["agarodia98@gmail.com"] ∧
      (ALLOWED_TEST_EMAILS asciiLower).contains "sg4647@barnard.edu" = false ∧
      normalizeEmail asciiLower (some "sg4647@barnard.edu") = "sg4647@barnard.edu" ∧
      shouldSendRealEmail asciiLower (normalizeEmail asciiLower (some "sg4647@barnard.edu"))
        = false ∧
      (sendHandler asciiLower workingGmail freshServer
        (replyRequest "sg4647@barnard.edu")).2.sendCalls = [] ∧
      (sendHandler asciiLower workingGmail freshServer
        (replyRequest "sg4647@barnard.edu")).1.status = 500 ∧
      shouldSendRealEmail asciiLower (normalizeEmail asciiLower (some "agarodia98@gmail.com"))
        = true ∧
      (sendHandler asciiLower workingGmail freshServer
        (replyRequest "agarodia98@gmail.com")).2.sendCalls.length = 1 ∧
      (sendHandler asciiLower workingGmail freshServer
        (replyRequest "agarodia98@gmail.com")).1.status = 200 := by
  refine ⟨fun lc => rfl, ?_, ?_, ?_, ?_, ?_, ?_, ?_, ?_, ?_⟩ <;> decide



theorem validateReply_long (body toEmail : String)
    (hlen : MIN_REPLY_LENGTH ≤ (trim body).length) :
    validateReply (some body) toEmail = .ok () := by
  have hne : body ≠ "" := by
    intro h
    subst h
    revert hlen
    decide
  have hlt : ¬ (trim body).length < MIN_REPLY_LENGTH := Nat.not_lt.mpr hlen
  simp [validateReply, hne, hlt]

/-- C27, what the code does instead: with TEST_MODE on, for every email not yet processed,
every reply body of at least 50 characters after trimming and every recipient outside the
allow-list, the send handler makes no call of the Gmail send operation, but it does not
answer success either: it adds the email to `processedEmails`, asks Gmail to mark it as
read, and answers status 500 with an error, which is `replycdBody is not defined` (the
read of an undeclared identifier in the test-mode branch) when the mark-read call
worked; the answer has neither `success` nor `testMode` nor the email details. -/
theorem sendHandler_blocked_branch (lc : String → String) (g : Gmail) (s : Server)
    (req : SendRequest) (body : String)
    (hnew : s.processedEmails.contains req.emailId = false)
    (hbody : req.replyBody = some body)
    (hlen : MIN_REPLY_LENGTH ≤ (trim body).length)
    (hout : (ALLOWED_TEST_EMAILS lc).contains (normalizeEmail lc req.to_) = false) :
    TEST_MODE = true ∧
      (sendHandler lc g s req).2.sendCalls = s.sendCalls ∧
      (sendHandler lc g s req).2.modifyCalls = s.modifyCalls ++ [req.emailId] ∧
      (sendHandler lc g s req).2.processedEmails = s.processedEmails ++ [req.emailId] ∧
      (sendHandler lc g s req).1.status = 500 ∧
      (sendHandler lc g s req).1.data.success = false ∧
      (sendHandler lc g s req).1.data.testMode = false ∧
      (sendHandler lc g s req).1.data.emailDetails = none ∧
      (sendHandler lc g s req).1.data.error
        = some (match g.modify with
                | some m => m
                | none => "replycdBody is not defined") := by
  have hvalid := validateReply_long body (normalizeEmail lc req.to_) hlen
  have hshould : shouldSendRealEmail lc (normalizeEmail lc req.to_) = false := by
    simpa [shouldSendRealEmail, TEST_MODE] using hout
  have hrun : sendHandler lc g s req
      = (errorAnswer 500 (match g.modify with
                          | some m => m
                          | none => replycdBodyError),
          { s with processedEmails := s.processedEmails ++ [req.emailId],
                   modifyCalls := s.modifyCalls ++ [req.emailId] }) := by
    simp only [sendHandler, hnew, hbody, hvalid, hshould, addId]
    cases g.modify <;> simp
  rw [hrun]
  refine ⟨rfl, rfl, rfl, rfl, rfl, rfl, rfl, rfl, ?_⟩
  cases g.modify <;> rfl

theorem sendHandler_blocked_branch_witness :
    freshServer.processedEmails.contains (replyRequest "Ann <ann@example.com>").emailId = false ∧
      (replyRequest "Ann <ann@example.com>").replyBody = some longReply ∧
      MIN_REPLY_LENGTH ≤ (trim longReply).length ∧
      normalizeEmail asciiLower (replyRequest "Ann <ann@example.com>").to_ = "ann@example.com" ∧
      (sendHandler asciiLower workingGmail freshServer
        (replyRequest "Ann <ann@example.com>")).1.status = 500 ∧
      (sendHandler asciiLower workingGmail freshServer
        (replyRequest "Ann <ann@example.com>")).1.data.success = false ∧
      (sendHandler asciiLower workingGmail freshServer
        (replyRequest "Ann <ann@example.com>")).1.data.error
        = some "replycdBody is not defined" :=
  ⟨by decide, rfl, by decide, by decide,
    (sendHandler_blocked_branch asciiLower workingGmail freshServer
      (replyRequest "Ann <ann@example.com>") longReply (by decide) rfl (by decide)
      (by decide)).2.2.2.2.1,
    (sendHandler_blocked_branch asciiLower workingGmail freshServer
      (replyRequest "Ann <ann@example.com>") longReply (by decide) rfl (by decide)
      (by decide)).2.2.2.2.2.1,
    (sendHandler_blocked_branch asciiLower workingGmail freshServer
      (replyRequest "Ann <ann@example.com>") longReply (by decide) rfl (by decide)
      (by decide)).2.2.2.2.2.2.2.2⟩

/-- C29 as stated fails: the Gmail send operation rejects, the handler answers status 500,
and `processedEmails` holds the email afterwards although it was empty before; the same
request sent again, with Gmail working, is answered 409 `Email already processed` and
nothing is sent; the unread listing skips the email. -/
theorem sendHandler_atomic_counterexample :
    (sendHandler asciiLower sendFailsGmail freshServer
        (replyRequest "agarodia98@gmail.com")).1
        = errorAnswer 500 "Daily sending quota exceeded" ∧
      freshServer.processedEmails = [] ∧
      (sendHandler asciiLower sendFailsGmail freshServer
        (replyRequest "agarodia98@gmail.com")).2.processedEmails = [some "m1"] ∧
      (sendHandler asciiLower workingGmail
        (sendHandler asciiLower sendFailsGmail freshServer
          (replyRequest "agarodia98@gmail.com")).2
        (replyRequest "agarodia98@gmail.com")).1
        = errorAnswer 409 "Email already processed" ∧
      (sendHandler asciiLower workingGmail
        (sendHandler asciiLower sendFailsGmail freshServer
          (replyRequest "agarodia98@gmail.com")).2
        (replyRequest "agarodia98@gmail.com")).2.sendCalls.length = 1 ∧
      notSkipped freshServer ["m1", "m2"] = ["m1", "m2"] ∧
      notSkipped (sendHandler asciiLower sendFailsGmail freshServer
        (replyRequest "agarodia98@gmail.com")).2 ["m1", "m2"] = ["m2"] := by
  refine ⟨?_, rfl, ?_, ?_, ?_, ?_, ?_⟩ <;> decide

theorem sendHandler_state (lc : String → String) (g : Gmail) (s : Server)
    (req : SendRequest) :
    (sendHandler lc g s req).2.processedEmails
      = (if s.processedEmails.contains req.emailId then s.processedEmails
         else
           match validateReply req.replyBody (normalizeEmail lc req.to_) with
           | .error _ => s.processedEmails
           | .ok _ => s.processedEmails ++ [req.emailId]) := by
  unfold sendHandler
  by_cases hc : s.processedEmails.contains req.emailId = true
  · simp only [hc, if_true]
  · have hc2 : s.processedEmails.contains req.emailId = false := by simpa using hc
    simp only [hc2, addId]
    cases validateReply req.replyBody (normalizeEmail lc req.to_) with
    | error m => simp
    | ok u =>
      cases g.modify with
      | some m => simp
      | none =>
        cases shouldSendRealEmail lc (normalizeEmail lc req.to_) with
        | false => simp
        | true =>
          cases req.subject with
          | none => simp
          | some subject =>
            cases g.send <;> simp

theorem sendHandler_known (lc : String → String) (g : Gmail) (s : Server)
    (req : SendRequest) (h : s.processedEmails.contains req.emailId = true) :
    sendHandler lc g s req = (errorAnswer 409 "Email already processed", s) := by
  simp only [sendHandler, h, if_true]

/-- C29, amended: the send handler leaves `processedEmails` unchanged exactly for the
requests it answers before its first Gmail call: those answered 409 because the email is
already in the set, and those rejected by `validateReply`.  Every other request adds its
email id to the set before the first Gmail call and the id stays there whatever the
outcome, success or error; no request removes an id.  So once a request for an email got
past validation, every later request for that email is answered 409
`Email already processed`, makes no Gmail call, and the unread listing skips the
email. -/
theorem sendHandler_processedEmails (lc : String → String) (g : Gmail) (s : Server)
    (req : SendRequest) (hnew : s.processedEmails.contains req.emailId = false) :
    (∀ m : String, validateReply req.replyBody (normalizeEmail lc req.to_) = .error m →
        sendHandler lc g s req = (errorAnswer 500 m, s)) ∧
      (validateReply req.replyBody (normalizeEmail lc req.to_) = .ok () →
        (sendHandler lc g s req).2.processedEmails = s.processedEmails ++ [req.emailId] ∧
        (∀ (g2 : Gmail) (req2 : SendRequest), req2.emailId = req.emailId →
          sendHandler lc g2 (sendHandler lc g s req).2 req2
            = (errorAnswer 409 "Email already processed", (sendHandler lc g s req).2)) ∧
        (∀ (id : String) (messages : List String), req.emailId = some id →
          id ∉ notSkipped (sendHandler lc g s req).2 messages)) ∧
      (∀ id ∈ s.processedEmails, id ∈ (sendHandler lc g s req).2.processedEmails) ∧
      (∀ (g2 : Gmail) (req2 : SendRequest),
        s.processedEmails.contains req2.emailId = true →
        sendHandler lc g2 s req2 = (errorAnswer 409 "Email already processed", s)) := by
  have hstate := sendHandler_state lc g s req
  rw [hnew] at hstate
  refine ⟨?_, ?_, ?_, ?_⟩
  · intro m hm
    simp only [sendHandler, hnew, hm]
    rfl
  · intro hok
    rw [hok] at hstate
    simp only [Bool.false_eq_true, if_false] at hstate
    have hmem : (sendHandler lc g s req).2.processedEmails.contains req.emailId = true := by
      rw [hstate]
      simp
    refine ⟨hstate, ?_, ?_⟩
    · intro g2 req2 hid
      exact sendHandler_known lc g2 _ req2 (by rw [hid]; exact hmem)
    · intro id messages hid
      rw [hid] at hmem
      simp only [notSkipped, List.mem_filter, hmem]
      simp
  · intro id hid
    rw [hstate]
    simp only [Bool.false_eq_true, if_false]
    cases validateReply req.replyBody (normalizeEmail lc req.to_) with
    | error m => exact hid
    | ok u => exact List.mem_append_left _ hid
  · intro g2 req2 hc
    exact sendHandler_known lc g2 s req2 hc

theorem sendHandler_processedEmails_witness :
    freshServer.processedEmails.contains (replyRequest "agarodia98@gmail.com").emailId = false ∧
      (sendHandler asciiLower sendFailsGmail freshServer
        (replyRequest "agarodia98@gmail.com")).2.processedEmails
        = freshServer.processedEmails ++ [some "m1"] :=
  ⟨by decide,
    ((sendHandler_processedEmails asciiLower sendFailsGmail freshServer
      (replyRequest "agarodia98@gmail.com") (by decide)).2.1 rfl).1⟩



end WorkflowEngine
